import Mathlib

/-!
Cost-control backend: purchase-request workflow and material ledger

A shallow embedding of the Go handlers under `backend/internal/handlers` and the
models under `backend/internal/models`.

Conventions of the embedding

* The relational store is a record of tables, each table a list of rows; a handler
  is a function from the request and the store to the HTTP response and the new store.
* `float64` amounts and quantities are exact rationals; the one division whose
  divisor can be zero, in `CalculateBOMUsage`, yields a `Float64` (a rational, an
  infinity or NaN).
* `time.Now()` and the caller identity attached by the auth middleware are inputs
  (`Ctx`).
* Every store write a handler checks for an error consults `Ctx.fails k`, where `k`
  numbers the writes of one request in program order; a failed write takes the
  handler's error branch (rollback restores the store the request started from).
  Reads succeed or report "record not found", except the count query of
  `generatePRNumber`, which the postgres driver refuses.
* `go f(...)` is run at the point where it is launched.
* Response bodies keep only the status code and the `error` entry; the `stats`
  object of `CalculateBOMUsage` and the warnings of `ImportBOMFromTemplate` are
  functions of their own.
-/

namespace CostControl

/-! ## Models -/

/-- A `time.Time` value: the calendar year and an instant within the time line. -/
structure Time where
  Year : Nat
  Instant : Nat
deriving DecidableEq, Repr

/-- The `PRStatus` constants of `models/purchase_request.go`. -/
def PRStatusPending : String := "pending"
def PRStatusApproved : String := "approved"
def PRStatusRejected : String := "rejected"

/-- The default `PRPriority`. -/
def PRPriorityNormal : String := "normal"

/-- The `ApprovalStage` constants. -/
def StagePurchasing : String := "Purchasing"
def StageCostControl : String := "Cost Control"
def StageGM : String := "GM"

/-- The `ApprovalHistoryStatus` constants. -/
def StageStatusPending : String := "pending"
def StageStatusApproved : String := "approved"
def StageStatusRejected : String := "rejected"

/-- The `NotificationType` constants used by the handlers. -/
def NotificationTypeApprovalRequest : String := "approval_request"
def NotificationTypeApprovalApproved : String := "approval_approved"
def NotificationTypeApprovalRejected : String := "approval_rejected"
def NotificationTypeSystem : String := "system"

structure Role where
  ID : Nat
  Name : String
deriving DecidableEq, Repr

structure User where
  ID : Nat
  Name : String
  RoleID : Nat
  DeletedAt : Option Time
deriving DecidableEq, Repr

structure Project where
  ID : Nat
  Name : String
  DeletedAt : Option Time
deriving DecidableEq, Repr

structure Material where
  ID : Nat
  Name : String
  Code : String
  Category : String
  UnitName : String
  UnitPrice : ℚ
  Stock : ℚ
  MinStock : ℚ
  Supplier : String
  Description : String
  CreatedAt : Time
  UpdatedAt : Time
  DeletedAt : Option Time
deriving DecidableEq, Repr

structure BOM where
  ID : Nat
  ProjectID : Nat
  MaterialID : Nat
  PlannedQty : ℚ
  UsedQty : ℚ
  RemainingQty : ℚ
  EstimatedCost : ℚ
  ActualCost : ℚ
  Phase : String
  Notes : String
  CreatedAt : Time
  UpdatedAt : Time
  DeletedAt : Option Time
deriving DecidableEq, Repr

structure MaterialUsage where
  ID : Nat
  ProjectID : Nat
  MaterialID : Nat
  DailyReportID : Option Nat
  Quantity : ℚ
  Cost : ℚ
  UsageDate : Time
  UsedBy : Nat
  Notes : String
  CreatedAt : Time
  UpdatedAt : Time
  DeletedAt : Option Time
deriving DecidableEq, Repr

structure PurchaseRequest where
  ID : Nat
  PRNumber : String
  ProjectID : Nat
  RequesterID : Nat
  Title : String
  Description : String
  Priority : String
  Status : String
  TotalAmount : ℚ
  RequiredDate : Option Time
  CurrentStage : String
  CreatedAt : Time
  UpdatedAt : Time
  DeletedAt : Option Time
deriving DecidableEq, Repr

structure PRItem where
  ID : Nat
  PurchaseRequestID : Nat
  MaterialID : Nat
  Quantity : ℚ
  UnitName : String
  EstimatedPrice : ℚ
  TotalPrice : ℚ
  Vendor : String
  Notes : String
  CreatedAt : Time
  UpdatedAt : Time
deriving DecidableEq, Repr

structure ApprovalHistory where
  ID : Nat
  PurchaseRequestID : Nat
  Stage : String
  Status : String
  ApproverID : Option Nat
  Comment : String
  ApprovedAt : Option Time
  CreatedAt : Time
  UpdatedAt : Time
deriving DecidableEq, Repr

structure PRComment where
  ID : Nat
  PurchaseRequestID : Nat
  UserID : Nat
  Comment : String
  CreatedAt : Time
deriving DecidableEq, Repr

structure Notification where
  UserID : Nat
  Title : String
  Message : String
  NotifType : String
  RelatedID : Option Nat
  IsRead : Bool
deriving DecidableEq, Repr

/-- The tables of the store, and the last key handed out for each table whose rows
the handlers create. -/
structure Store where
  roles : List Role
  users : List User
  projects : List Project
  materials : List Material
  boms : List BOM
  usages : List MaterialUsage
  prs : List PurchaseRequest
  items : List PRItem
  histories : List ApprovalHistory
  comments : List PRComment
  notifications : List Notification
  bomSeq : Nat
  usageSeq : Nat
  prSeq : Nat
  itemSeq : Nat
  historySeq : Nat
  commentSeq : Nat
deriving DecidableEq, Repr

/-- What the auth middleware and the environment supply to one request. -/
structure Ctx where
  userID : Nat
  role : String
  now : Time
  fails : Nat → Bool

/-- The status code of a response and the `error` entry of its JSON body
(empty when the body has none). -/
structure Response where
  status : Nat
  error : String
deriving DecidableEq, Repr

/-- The text of `err.Error()` after a failed `ShouldBindJSON`; its wording comes
from the validator and is not used by any handler. -/
def bindError : String := "binding: required field missing"

/-! ## Model methods (`models/purchase_request.go`, `models/material.go`) -/

/-- Embeds `PRItem.BeforeCreate` / `PRItem.BeforeUpdate`. -/
def PRItem.BeforeCreate (item : PRItem) : PRItem :=
  { item with TotalPrice := item.Quantity * item.EstimatedPrice }

def PRItem.BeforeUpdate (item : PRItem) : PRItem :=
  { item with TotalPrice := item.Quantity * item.EstimatedPrice }

/-- The `switch` of `GetNextStage` over the current stage: `none` is the nil pointer
of the default case. -/
def nextStageOf (stage : String) : Option String :=
  if stage = StagePurchasing then some StageCostControl
  else if stage = StageCostControl then some StageGM
  else none

/-- Embeds `PurchaseRequest.GetNextStage`. -/
def PurchaseRequest.GetNextStage (pr : PurchaseRequest) : Option String :=
  nextStageOf pr.CurrentStage

/-- Embeds `PurchaseRequest.IsFullyApproved`. -/
def PurchaseRequest.IsFullyApproved (pr : PurchaseRequest) : Bool :=
  decide (pr.CurrentStage = StageGM) && decide (pr.Status = PRStatusApproved)

/-- Embeds `BOM.UpdateRemainingQty`. -/
def BOM.UpdateRemainingQty (b : BOM) : BOM :=
  { b with RemainingQty := b.PlannedQty - b.UsedQty }

/-- Embeds `BOM.CalculateUsagePercentage`. -/
def BOM.CalculateUsagePercentage (b : BOM) : ℚ :=
  if b.PlannedQty = 0 then 0 else (b.UsedQty / b.PlannedQty) * 100

/-- Embeds `Material.IsLowStock`. -/
def Material.IsLowStock (m : Material) : Bool :=
  decide (m.Stock ≤ m.MinStock)

/-! ## Store queries -/

/-- Embeds `DB.First(&pr, id)`: the live row with this primary key. -/
def firstPR (prs : List PurchaseRequest) (id : Nat) : Option PurchaseRequest :=
  prs.find? (fun p => decide (p.ID = id) && p.DeletedAt.isNone)

def firstUser (users : List User) (id : Nat) : Option User :=
  users.find? (fun u => decide (u.ID = id) && u.DeletedAt.isNone)

def firstProject (projects : List Project) (id : Nat) : Option Project :=
  projects.find? (fun p => decide (p.ID = id) && p.DeletedAt.isNone)

def firstMaterial (materials : List Material) (id : Nat) : Option Material :=
  materials.find? (fun m => decide (m.ID = id) && m.DeletedAt.isNone)

def firstUsage (usages : List MaterialUsage) (id : Nat) : Option MaterialUsage :=
  usages.find? (fun u => decide (u.ID = id) && u.DeletedAt.isNone)

/-- Embeds `Where("project_id = ? AND material_id = ?", p, m).First(&bom)`. -/
def firstBOMFor (boms : List BOM) (projectID materialID : Nat) : Option BOM :=
  boms.find? (fun b => decide (b.ProjectID = projectID) && decide (b.MaterialID = materialID)
    && b.DeletedAt.isNone)

/-- Embeds `tx.Save(&pr)`: every column of the row with the record's key is overwritten,
`updated_at` with the current time. -/
def savePR (prs : List PurchaseRequest) (pr : PurchaseRequest) (now : Time) :
    List PurchaseRequest :=
  prs.map (fun q => if q.ID = pr.ID then { pr with UpdatedAt := now } else q)

def saveMaterial (materials : List Material) (m : Material) (now : Time) : List Material :=
  materials.map (fun q => if q.ID = m.ID then { m with UpdatedAt := now } else q)

def saveBOM (boms : List BOM) (b : BOM) (now : Time) : List BOM :=
  boms.map (fun q => if q.ID = b.ID then { b with UpdatedAt := now } else q)

def saveUsage (usages : List MaterialUsage) (u : MaterialUsage) (now : Time) :
    List MaterialUsage :=
  usages.map (fun q => if q.ID = u.ID then { u with UpdatedAt := now } else q)

/-- The `Updates` call of the approve and reject handlers:
`Model(&ApprovalHistory{}).Where("purchase_request_id = ? AND stage = ?", prID, stage)`
with the map of `status`, `approver_id`, `comment` and `approved_at`. -/
def updateHistory (hs : List ApprovalHistory) (prID : Nat) (stage status : String)
    (approverID : Nat) (comment : String) (now : Time) : List ApprovalHistory :=
  hs.map (fun h =>
    if h.PurchaseRequestID = prID ∧ h.Stage = stage then
      { h with Status := status, ApproverID := some approverID, Comment := comment,
               ApprovedAt := some now, UpdatedAt := now }
    else h)

/-! ## Purchase-request handlers (`handlers/purchase_request.go`) -/

/-- The `%04d` verb: decimal, padded with zeros on the left to at least four digits. -/
def pad4 (n : Nat) : String :=
  String.mk (List.replicate (4 - (toString n).length) '0') ++ toString n

/-- Embeds the count query of `generatePRNumber`,
`Model(&PurchaseRequest{}).Where("YEAR(created_at) = ?", year).Count(&count)`, on the
driver the repository opens, postgres (`pkg/database/database.go`): PostgreSQL has
no function `YEAR`, so the statement is refused whatever the table holds; `none`
stands for that error. -/
def countPRsOfYear (_year : Nat) (_prs : List PurchaseRequest) : Option Nat := none

/-- Embeds `generatePRNumber`: the error of the count query is not looked at, so
`count` keeps its zero value when the query fails; the number is `PR-%d-%04d` of
the year and the count plus one. -/
def generatePRNumber (now : Time) (st : Store) : String :=
  let count := match countPRsOfYear now.Year st.prs with
    | some n => n
    | none => 0
  "PR-" ++ toString now.Year ++ "-" ++ pad4 (count + 1)

/-- Embeds `createPRNotification`: one notification for every user whose role is named
like the stage. -/
def createPRNotification (prID : Nat) (stage title : String) (requesterID : Nat)
    (st : Store) : Store :=
  let users := st.users.filter (fun u =>
    u.DeletedAt.isNone && st.roles.any (fun r => decide (r.ID = u.RoleID) && decide (r.Name = stage)))
  let requesterName := match firstUser st.users requesterID with
    | some u => u.Name
    | none => ""
  { st with notifications := st.notifications ++ users.map (fun u =>
      { UserID := u.ID
        Title := "Purchase Request Baru: " ++ title
        Message := "Dari: " ++ requesterName ++ ". Menunggu approval " ++ stage ++ "."
        NotifType := NotificationTypeApprovalRequest
        RelatedID := some prID
        IsRead := false }) }

/-- Embeds `notifyRequester`. -/
def notifyRequester (prID requesterID : Nat) (title status : String) (st : Store) : Store :=
  let message := if status = "approved"
    then "Purchase Request '" ++ title ++ "' telah disetujui."
    else "Purchase Request '" ++ title ++ "' telah ditolak."
  let notifType := if status = "approved"
    then NotificationTypeApprovalApproved else NotificationTypeApprovalRejected
  { st with notifications := st.notifications ++
      [{ UserID := requesterID
         Title := "Status Purchase Request"
         Message := message
         NotifType := notifType
         RelatedID := some prID
         IsRead := false }] }

structure PRItemInput where
  MaterialID : Nat
  Quantity : ℚ
  UnitName : String
  EstimatedPrice : ℚ
  Vendor : String
  Notes : String
deriving DecidableEq, Repr

structure CreatePRInput where
  ProjectID : Nat
  Title : String
  Description : String
  Priority : String
  RequiredDate : Option Time
  TotalAmount : ℚ
  Items : List PRItemInput
deriving DecidableEq, Repr

/-- The `binding` tags of the create input: `project_id`, `title` and `total_amount`
are required (non-zero), `items` is required with `min=1`. -/
def CreatePRInput.bindOK (input : CreatePRInput) : Bool :=
  decide (input.ProjectID ≠ 0) && decide (input.Title ≠ "") &&
    decide (input.TotalAmount ≠ 0) && decide (1 ≤ input.Items.length)

/-- The item loop of `CreatePurchaseRequest`: write `k` creates the first item;
`none` when a create fails. -/
def createItems (c : Ctx) (prID : Nat) : List PRItemInput → Nat → Store → Option Store
  | [], _, tx => some tx
  | itemInput :: rest, k, tx =>
    if c.fails k then none
    else
      let item : PRItem := PRItem.BeforeCreate
        { ID := tx.itemSeq + 1
          PurchaseRequestID := prID
          MaterialID := itemInput.MaterialID
          Quantity := itemInput.Quantity
          UnitName := itemInput.UnitName
          EstimatedPrice := itemInput.EstimatedPrice
          TotalPrice := 0
          Vendor := itemInput.Vendor
          Notes := itemInput.Notes
          CreatedAt := c.now
          UpdatedAt := c.now }
      createItems c prID rest (k + 1)
        { tx with items := tx.items ++ [item], itemSeq := tx.itemSeq + 1 }

/-- The stage loop of `CreatePurchaseRequest`. -/
def createHistories (c : Ctx) (prID : Nat) : List String → Nat → Store → Option Store
  | [], _, tx => some tx
  | stage :: rest, k, tx =>
    if c.fails k then none
    else
      let history : ApprovalHistory :=
        { ID := tx.historySeq + 1
          PurchaseRequestID := prID
          Stage := stage
          Status := StageStatusPending
          ApproverID := none
          Comment := ""
          ApprovedAt := none
          CreatedAt := c.now
          UpdatedAt := c.now }
      createHistories c prID rest (k + 1)
        { tx with histories := tx.histories ++ [history], historySeq := tx.historySeq + 1 }

/-- The priority of a new request: the one given, `normal` when none is given. -/
def priorityOrDefault (priority : String) : String :=
  if priority ≠ "" then priority else PRPriorityNormal

/-- The `stages` slice of `CreatePurchaseRequest`. -/
def stages : List String := [StagePurchasing, StageCostControl, StageGM]

/-- Embeds `CreatePurchaseRequest`. Write 0 creates the request, writes `1..n` its `n`
items, writes `n+1..n+3` the stage records, write `n+4` is the commit. -/
def CreatePurchaseRequest (c : Ctx) (input : CreatePRInput) (st : Store) : Response × Store :=
  if input.bindOK = false then (⟨400, bindError⟩, st)
  else
    let prNumber := generatePRNumber c.now st
    let priority := priorityOrDefault input.Priority
    let pr : PurchaseRequest :=
      { ID := st.prSeq + 1
        PRNumber := prNumber
        ProjectID := input.ProjectID
        RequesterID := c.userID
        Title := input.Title
        Description := input.Description
        Priority := priority
        Status := PRStatusPending
        TotalAmount := input.TotalAmount
        RequiredDate := input.RequiredDate
        CurrentStage := StagePurchasing
        CreatedAt := c.now
        UpdatedAt := c.now
        DeletedAt := none }
    if c.fails 0 then (⟨500, "Failed to create purchase request"⟩, st)
    else
      let tx1 := { st with prs := st.prs ++ [pr], prSeq := st.prSeq + 1 }
      match createItems c pr.ID input.Items 1 tx1 with
      | none => (⟨500, "Failed to create PR items"⟩, st)
      | some tx2 =>
        match createHistories c pr.ID stages (input.Items.length + 1) tx2 with
        | none => (⟨500, "Failed to initialize approval history"⟩, st)
        | some tx3 =>
          if c.fails (input.Items.length + 4) then (⟨500, "Failed to commit transaction"⟩, st)
          else (⟨201, ""⟩, createPRNotification pr.ID StagePurchasing pr.Title c.userID tx3)

structure ApproveInput where
  Stage : String
  Comment : String
deriving DecidableEq, Repr

/-- Embeds `ApprovePurchaseRequest`. Write 0 is the update of the stage record, write 1
the save of the request, write 2 the commit. The notification goroutine is
launched before the commit. -/
def ApprovePurchaseRequest (c : Ctx) (id : Nat) (input : ApproveInput) (st : Store) :
    Response × Store :=
  if input.Stage = "" then (⟨400, bindError⟩, st)
  else if input.Stage ≠ c.role then
    (⟨403, "You are not authorized to approve at this stage"⟩, st)
  else
    match firstPR st.prs id with
    | none => (⟨404, "Purchase request not found"⟩, st)
    | some pr =>
      if pr.Status ≠ PRStatusPending then (⟨400, "Purchase request already processed"⟩, st)
      else if pr.CurrentStage ≠ input.Stage then
        (⟨400, "Purchase request not at this approval stage"⟩, st)
      else if c.fails 0 then (⟨500, "Failed to update approval history"⟩, st)
      else
        let hs := updateHistory st.histories pr.ID input.Stage StageStatusApproved c.userID
          input.Comment c.now
        let tx1 := { st with histories := hs }
        match pr.GetNextStage with
        | some nextStage =>
          if c.fails 1 then (⟨500, "Failed to update PR stage"⟩, st)
          else
            let tx2 := { tx1 with prs := savePR tx1.prs { pr with CurrentStage := nextStage } c.now }
            if c.fails 2 then
              (⟨500, "Failed to commit transaction"⟩,
                createPRNotification pr.ID nextStage pr.Title pr.RequesterID st)
            else (⟨200, ""⟩, createPRNotification pr.ID nextStage pr.Title pr.RequesterID tx2)
        | none =>
          if c.fails 1 then (⟨500, "Failed to approve PR"⟩, st)
          else
            let tx2 := { tx1 with prs := savePR tx1.prs { pr with Status := PRStatusApproved } c.now }
            if c.fails 2 then
              (⟨500, "Failed to commit transaction"⟩,
                notifyRequester pr.ID pr.RequesterID pr.Title "approved" st)
            else (⟨200, ""⟩, notifyRequester pr.ID pr.RequesterID pr.Title "approved" tx2)

structure RejectInput where
  Stage : String
  Reason : String
deriving DecidableEq, Repr

/-- Embeds `RejectPurchaseRequest`. Write 0 is the update of the stage record, write 1
the save of the request, write 2 the commit; the requester is notified after the
commit. -/
def RejectPurchaseRequest (c : Ctx) (id : Nat) (input : RejectInput) (st : Store) :
    Response × Store :=
  if input.Stage = "" ∨ input.Reason = "" then (⟨400, bindError⟩, st)
  else if input.Stage ≠ c.role then
    (⟨403, "You are not authorized to reject at this stage"⟩, st)
  else
    match firstPR st.prs id with
    | none => (⟨404, "Purchase request not found"⟩, st)
    | some pr =>
      if pr.Status ≠ PRStatusPending then (⟨400, "Purchase request already processed"⟩, st)
      else if pr.CurrentStage ≠ input.Stage then
        (⟨400, "Purchase request not at this approval stage"⟩, st)
      else if c.fails 0 then (⟨500, "Failed to update approval history"⟩, st)
      else
        let hs := updateHistory st.histories pr.ID input.Stage StageStatusRejected c.userID
          input.Reason c.now
        let tx1 := { st with histories := hs }
        if c.fails 1 then (⟨500, "Failed to reject PR"⟩, st)
        else
          let tx2 := { tx1 with prs := savePR tx1.prs { pr with Status := PRStatusRejected } c.now }
          if c.fails 2 then (⟨500, "Failed to commit transaction"⟩, st)
          else (⟨200, ""⟩, notifyRequester pr.ID pr.RequesterID pr.Title "rejected" tx2)

/-- Embeds `AddPRComment`. Write 0 creates the comment. -/
def AddPRComment (c : Ctx) (id : Nat) (comment : String) (st : Store) : Response × Store :=
  if comment = "" then (⟨400, bindError⟩, st)
  else
    match firstPR st.prs id with
    | none => (⟨404, "Purchase request not found"⟩, st)
    | some pr =>
      if c.fails 0 then (⟨500, "Failed to add comment"⟩, st)
      else
        (⟨201, ""⟩, { st with
          comments := st.comments ++
            [{ ID := st.commentSeq + 1, PurchaseRequestID := pr.ID, UserID := c.userID,
               Comment := comment, CreatedAt := c.now }]
          commentSeq := st.commentSeq + 1 })

/-! ## Material handlers (`handlers/material.go`, `handlers/material_usage.go`) -/

/-- Embeds `floatToString`: `string(rune(int(val)))`, the float truncated to an integer,
narrowed to a 32-bit rune and rendered as that code point (U+FFFD when it is not
a valid one). -/
def floatToString (val : ℚ) : String :=
  let n : Int := Int.tdiv val.num val.den
  let r : Int := (n + 2147483648) % 4294967296 - 2147483648
  if 0 ≤ r ∧ r.toNat.isValidChar then String.singleton (Char.ofNat r.toNat)
  else String.singleton (Char.ofNat 65533)

/-- The role names `createLowStockNotification` selects. -/
def lowStockRoles : List String :=
  ["director", "manager", "purchasing", "cost_control", "ceo", "project_director"]

/-- Embeds `createLowStockNotification`. -/
def createLowStockNotification (_materialID : Nat) (materialName : String)
    (currentStock minStock : ℚ) (st : Store) : Store :=
  let users := st.users.filter (fun u =>
    u.DeletedAt.isNone &&
      st.roles.any (fun r => decide (r.ID = u.RoleID) && decide (r.Name ∈ lowStockRoles)))
  { st with notifications := st.notifications ++ users.map (fun u =>
      { UserID := u.ID
        Title := "Low Stock Alert"
        Message := "Material '" ++ materialName ++ "' is low on stock. Current: " ++
          floatToString currentStock ++ ", Minimum: " ++ floatToString minStock
        NotifType := NotificationTypeSystem
        RelatedID := none
        IsRead := false }) }

structure CreateUsageInput where
  ProjectID : Nat
  MaterialID : Nat
  Quantity : ℚ
  UsageDate : Option Time
  DailyReportID : Option Nat
  Notes : String
deriving DecidableEq, Repr

/-- The `binding:"required"` tags of the usage input: the three numbers are non-zero. -/
def CreateUsageInput.bindOK (input : CreateUsageInput) : Bool :=
  decide (input.ProjectID ≠ 0) && decide (input.MaterialID ≠ 0) && decide (input.Quantity ≠ 0)

/-- Embeds `CreateMaterialUsage`. Write 0 creates the usage record, write 1 saves the
material, write 2 saves the BOM row when there is one (its error is not looked at),
write 3 is the commit. -/
def CreateMaterialUsage (c : Ctx) (input : CreateUsageInput) (st : Store) : Response × Store :=
  if input.bindOK = false then (⟨400, bindError⟩, st)
  else
    match firstProject st.projects input.ProjectID with
    | none => (⟨404, "Project not found"⟩, st)
    | some _ =>
      match firstMaterial st.materials input.MaterialID with
      | none => (⟨404, "Material not found"⟩, st)
      | some material =>
        if material.Stock < input.Quantity then (⟨400, "Insufficient material stock"⟩, st)
        else
          let usageDate := match input.UsageDate with
            | some d => d
            | none => c.now
          let cost := input.Quantity * material.UnitPrice
          let usage : MaterialUsage :=
            { ID := st.usageSeq + 1
              ProjectID := input.ProjectID
              MaterialID := input.MaterialID
              DailyReportID := input.DailyReportID
              Quantity := input.Quantity
              Cost := cost
              UsageDate := usageDate
              UsedBy := c.userID
              Notes := input.Notes
              CreatedAt := c.now
              UpdatedAt := c.now
              DeletedAt := none }
          if c.fails 0 then (⟨500, "Failed to create material usage record"⟩, st)
          else
            let tx1 := { st with usages := st.usages ++ [usage], usageSeq := st.usageSeq + 1 }
            let material1 := { material with Stock := material.Stock - input.Quantity }
            if c.fails 1 then (⟨500, "Failed to update material stock"⟩, st)
            else
              let tx2 := { tx1 with materials := saveMaterial tx1.materials material1 c.now }
              let tx3 := match firstBOMFor tx2.boms input.ProjectID input.MaterialID with
                | some bom =>
                  let bom1 := BOM.UpdateRemainingQty
                    { bom with UsedQty := bom.UsedQty + input.Quantity
                               ActualCost := bom.ActualCost + cost }
                  if c.fails 2 then tx2 else { tx2 with boms := saveBOM tx2.boms bom1 c.now }
                | none => tx2
              if c.fails 3 then (⟨500, "Failed to commit transaction"⟩, st)
              else if material1.IsLowStock then
                (⟨201, ""⟩,
                  createLowStockNotification material1.ID material1.Name material1.Stock material1.MinStock tx3)
              else (⟨201, ""⟩, tx3)

structure UpdateUsageInput where
  Quantity : ℚ
  UsageDate : Option Time
  Notes : String
deriving DecidableEq, Repr

/-- Embeds `UpdateMaterialUsage`. Write 0 saves the material and write 1 the BOM row (its
error is not looked at) when the quantity changes, write 2 saves the usage record,
write 3 is the commit. -/
def UpdateMaterialUsage (c : Ctx) (id : Nat) (input : UpdateUsageInput) (st : Store) :
    Response × Store :=
  match firstUsage st.usages id with
  | none => (⟨404, "Material usage record not found"⟩, st)
  | some usage =>
    let saveAndCommit (usage1 : MaterialUsage) (tx : Store) : Response × Store :=
      let usage2 := match input.UsageDate with
        | some d => { usage1 with UsageDate := d }
        | none => usage1
      let usage3 := { usage2 with Notes := input.Notes }
      if c.fails 2 then (⟨500, "Failed to update material usage"⟩, st)
      else
        let tx1 := { tx with usages := saveUsage tx.usages usage3 c.now }
        if c.fails 3 then (⟨500, "Failed to commit transaction"⟩, st)
        else (⟨200, ""⟩, tx1)
    if 0 < input.Quantity ∧ input.Quantity ≠ usage.Quantity then
      match firstMaterial st.materials usage.MaterialID with
      | none => (⟨404, "Material not found"⟩, st)
      | some material =>
        let diff := input.Quantity - usage.Quantity
        if 0 < diff ∧ material.Stock < diff then
          (⟨400, "Insufficient material stock for this adjustment"⟩, st)
        else
          let material1 := { material with Stock := material.Stock - diff }
          if c.fails 0 then (⟨500, "Failed to update material stock"⟩, st)
          else
            let tx1 := { st with materials := saveMaterial st.materials material1 c.now }
            let tx2 := match firstBOMFor tx1.boms usage.ProjectID usage.MaterialID with
              | some bom =>
                let costDiff := diff * material1.UnitPrice
                let bom1 := BOM.UpdateRemainingQty
                  { bom with UsedQty := bom.UsedQty + diff
                             ActualCost := bom.ActualCost + costDiff }
                if c.fails 1 then tx1 else { tx1 with boms := saveBOM tx1.boms bom1 c.now }
              | none => tx1
            saveAndCommit
              { usage with Quantity := input.Quantity
                           Cost := input.Quantity * material1.UnitPrice } tx2
    else saveAndCommit usage st

/-- Embeds `DeleteMaterialUsage`. Write 0 saves the material and write 1 the BOM row
(neither error is looked at), write 2 deletes the usage record (a soft delete),
write 3 is the commit. -/
def DeleteMaterialUsage (c : Ctx) (id : Nat) (st : Store) : Response × Store :=
  match firstUsage st.usages id with
  | none => (⟨404, "Material usage record not found"⟩, st)
  | some usage =>
    let tx1 := match firstMaterial st.materials usage.MaterialID with
      | some material =>
        let material1 := { material with Stock := material.Stock + usage.Quantity }
        if c.fails 0 then st else { st with materials := saveMaterial st.materials material1 c.now }
      | none => st
    let tx2 := match firstBOMFor tx1.boms usage.ProjectID usage.MaterialID with
      | some bom =>
        let bom1 := BOM.UpdateRemainingQty
          { bom with UsedQty := bom.UsedQty - usage.Quantity
                     ActualCost := bom.ActualCost - usage.Cost }
        if c.fails 1 then tx1 else { tx1 with boms := saveBOM tx1.boms bom1 c.now }
      | none => tx1
    if c.fails 2 then (⟨500, "Failed to delete material usage"⟩, st)
    else
      let tx3 := { tx2 with usages := tx2.usages.map (fun q =>
        if q.ID = usage.ID ∧ q.DeletedAt = none then { q with DeletedAt := some c.now } else q) }
      if c.fails 3 then (⟨500, "Failed to commit transaction"⟩, st)
      else (⟨200, ""⟩, tx3)

/-- Embeds `UpdateMaterialStock`, with the adjustment of the request body (required,
hence non-zero). Write 0 saves the material. -/
def UpdateMaterialStock (c : Ctx) (id : Nat) (adjustment : ℚ) (st : Store) : Response × Store :=
  if adjustment = 0 then (⟨400, bindError⟩, st)
  else
    match firstMaterial st.materials id with
    | none => (⟨404, "Material not found"⟩, st)
    | some material =>
      let newStock := material.Stock + adjustment
      if newStock < 0 then (⟨400, "Insufficient stock"⟩, st)
      else
        let material1 := { material with Stock := newStock }
        if c.fails 0 then (⟨500, "Failed to update stock"⟩, st)
        else
          let st1 := { st with materials := saveMaterial st.materials material1 c.now }
          if material1.IsLowStock then
            (⟨200, ""⟩,
              createLowStockNotification material1.ID material1.Name material1.Stock material1.MinStock st1)
          else (⟨200, ""⟩, st1)

/-- The request body of `UpdateMaterial`. -/
structure UpdateMaterialInput where
  Name : String
  Code : String
  Category : String
  UnitName : String
  UnitPrice : ℚ
  Stock : ℚ
  MinStock : ℚ
  Supplier : String
  Description : String
deriving DecidableEq, Repr

/-- The "Update fields" block of `UpdateMaterial`: texts are taken when non-empty,
the unit price when positive, stock and threshold when not negative, supplier and
description always. -/
def applyMaterialInput (material : Material) (input : UpdateMaterialInput) : Material :=
  { material with
    Name := if input.Name ≠ "" then input.Name else material.Name
    Code := if input.Code ≠ "" then input.Code else material.Code
    Category := if input.Category ≠ "" then input.Category else material.Category
    UnitName := if input.UnitName ≠ "" then input.UnitName else material.UnitName
    UnitPrice := if 0 < input.UnitPrice then input.UnitPrice else material.UnitPrice
    Stock := if 0 ≤ input.Stock then input.Stock else material.Stock
    MinStock := if 0 ≤ input.MinStock then input.MinStock else material.MinStock
    Supplier := input.Supplier
    Description := input.Description }

/-- The code-conflict query of `UpdateMaterial`:
`Where("code = ? AND id != ?", input.Code, id).First(&existing)` finds a row. -/
def codeTaken (materials : List Material) (code : String) (id : Nat) : Bool :=
  materials.any (fun m => decide (m.Code = code) && decide (m.ID ≠ id) && m.DeletedAt.isNone)

/-- Embeds `UpdateMaterial`. Write 0 saves the material. -/
def UpdateMaterial (c : Ctx) (id : Nat) (input : UpdateMaterialInput) (st : Store) :
    Response × Store :=
  match firstMaterial st.materials id with
  | none => (⟨404, "Material not found"⟩, st)
  | some material =>
    if input.Code ≠ "" ∧ input.Code ≠ material.Code ∧ codeTaken st.materials input.Code id = true
    then (⟨400, "Material code already exists"⟩, st)
    else if c.fails 0 then (⟨500, "Failed to update material"⟩, st)
    else
      (⟨200, ""⟩,
        { st with materials := saveMaterial st.materials (applyMaterialInput material input) c.now })

/-! ## BOM handlers (`handlers/bom.go`) -/

/-- Embeds `DB.First(&bom, id)`. -/
def firstBOM (boms : List BOM) (id : Nat) : Option BOM :=
  boms.find? (fun b => decide (b.ID = id) && b.DeletedAt.isNone)

structure CreateBOMInput where
  ProjectID : Nat
  MaterialID : Nat
  PlannedQty : ℚ
  Phase : String
  Notes : String
deriving DecidableEq, Repr

/-- The `binding:"required"` tags of the BOM input: the three numbers are non-zero. -/
def CreateBOMInput.bindOK (input : CreateBOMInput) : Bool :=
  decide (input.ProjectID ≠ 0) && decide (input.MaterialID ≠ 0) && decide (input.PlannedQty ≠ 0)

/-- The BOM row `CreateBOM` and `ImportBOMFromTemplate` build for a material. -/
def newBOM (id projectID materialID : Nat) (plannedQty unitPrice : ℚ) (phase notes : String)
    (now : Time) : BOM :=
  { ID := id
    ProjectID := projectID
    MaterialID := materialID
    PlannedQty := plannedQty
    UsedQty := 0
    RemainingQty := plannedQty
    EstimatedCost := plannedQty * unitPrice
    ActualCost := 0
    Phase := phase
    Notes := notes
    CreatedAt := now
    UpdatedAt := now
    DeletedAt := none }

/-- Embeds `CreateBOM`. Write 0 creates the row. -/
def CreateBOM (c : Ctx) (input : CreateBOMInput) (st : Store) : Response × Store :=
  if input.bindOK = false then (⟨400, bindError⟩, st)
  else
    match firstProject st.projects input.ProjectID with
    | none => (⟨404, "Project not found"⟩, st)
    | some _ =>
      match firstMaterial st.materials input.MaterialID with
      | none => (⟨404, "Material not found"⟩, st)
      | some material =>
        match firstBOMFor st.boms input.ProjectID input.MaterialID with
        | some _ =>
          (⟨400, "BOM item for this material already exists in this project"⟩, st)
        | none =>
          if c.fails 0 then (⟨500, "Failed to create BOM item"⟩, st)
          else
            (⟨201, ""⟩,
              { st with
                boms := st.boms ++ [newBOM (st.bomSeq + 1) input.ProjectID input.MaterialID
                  input.PlannedQty material.UnitPrice input.Phase input.Notes c.now]
                bomSeq := st.bomSeq + 1 })

structure UpdateBOMInput where
  PlannedQty : ℚ
  Phase : String
  Notes : String
deriving DecidableEq, Repr

/-- The "Update fields" block of `UpdateBOM`: a positive planned quantity is taken,
the remaining quantity recomputed and, when the material is found, the estimated
cost recomputed from its price; phase and notes are always taken. -/
def applyBOMInput (bom : BOM) (input : UpdateBOMInput) (materials : List Material) : BOM :=
  let bom1 :=
    if 0 < input.PlannedQty then
      let b := BOM.UpdateRemainingQty { bom with PlannedQty := input.PlannedQty }
      match firstMaterial materials b.MaterialID with
      | some material => { b with EstimatedCost := b.PlannedQty * material.UnitPrice }
      | none => b
    else bom
  { bom1 with Phase := input.Phase, Notes := input.Notes }

/-- Embeds `UpdateBOM`. Write 0 saves the row. -/
def UpdateBOM (c : Ctx) (id : Nat) (input : UpdateBOMInput) (st : Store) : Response × Store :=
  match firstBOM st.boms id with
  | none => (⟨404, "BOM item not found"⟩, st)
  | some bom =>
    if c.fails 0 then (⟨500, "Failed to update BOM item"⟩, st)
    else (⟨200, ""⟩, { st with boms := saveBOM st.boms (applyBOMInput bom input st.materials) c.now })

/-- The soft delete of the BOM row with key `id`. -/
def softDeleteBOM (boms : List BOM) (id : Nat) (now : Time) : List BOM :=
  boms.map (fun q => if q.ID = id ∧ q.DeletedAt = none then { q with DeletedAt := some now } else q)

/-- Embeds `DeleteBOM`. Write 0 deletes the row (a soft delete). -/
def DeleteBOM (c : Ctx) (id : Nat) (st : Store) : Response × Store :=
  match firstBOM st.boms id with
  | none => (⟨404, "BOM item not found"⟩, st)
  | some bom =>
    if 0 < bom.UsedQty then
      (⟨400, "Cannot delete BOM item with recorded material usage"⟩, st)
    else if c.fails 0 then (⟨500, "Failed to delete BOM item"⟩, st)
    else (⟨200, ""⟩, { st with boms := softDeleteBOM st.boms bom.ID c.now })

/-- The usage events `CalculateBOMUsage` reads for a BOM row:
`Where("project_id = ? AND material_id = ?", projectID, materialID).Find(&usages)`. -/
def usagesFor (usages : List MaterialUsage) (projectID materialID : Nat) : List MaterialUsage :=
  usages.filter (fun u => decide (u.ProjectID = projectID) && decide (u.MaterialID = materialID)
    && u.DeletedAt.isNone)

/-- The inner loop of `CalculateBOMUsage` and the update of the row: used quantity
and actual cost are the running sums over the usage events, the remaining
quantity is recomputed. -/
def recalcBOM (usages : List MaterialUsage) (projectID : Nat) (b : BOM) : BOM :=
  let us := usagesFor usages projectID b.MaterialID
  BOM.UpdateRemainingQty
    { b with UsedQty := us.foldl (fun acc u => acc + u.Quantity) 0
             ActualCost := us.foldl (fun acc u => acc + u.Cost) 0 }

/-- The outer loop of `CalculateBOMUsage` over the rows it fetched: write `k` saves
the first of them (its error is not looked at). -/
def recalcLoop (c : Ctx) (projectID : Nat) : List BOM → Nat → Store → Store
  | [], _, st => st
  | b :: rest, k, st =>
    recalcLoop c projectID rest (k + 1)
      (if c.fails k then st
       else { st with boms := saveBOM st.boms (recalcBOM st.usages projectID b) c.now })

/-- The rows `CalculateBOMUsage` fetches: `Where("project_id = ?", projectID).Find(&boms)`. -/
def bomsOfProject (boms : List BOM) (projectID : Nat) : List BOM :=
  boms.filter (fun b => decide (b.ProjectID = projectID) && b.DeletedAt.isNone)

/-- Embeds `CalculateBOMUsage`, as far as the store goes: the answer is 200 in both
branches. -/
def CalculateBOMUsage (c : Ctx) (projectID : Nat) (st : Store) : Response × Store :=
  if (bomsOfProject st.boms projectID).length = 0 then (⟨200, ""⟩, st)
  else (⟨200, ""⟩, recalcLoop c projectID (bomsOfProject st.boms projectID) 0 st)

structure ImportItem where
  MaterialID : Nat
  PlannedQty : ℚ
  Phase : String
  Notes : String
deriving DecidableEq, Repr

structure ImportInput where
  ProjectID : Nat
  Items : List ImportItem
deriving DecidableEq, Repr

/-- The `binding` tags of the import input: `project_id` is required, `items` is
required with `min=1`. -/
def ImportInput.bindOK (input : ImportInput) : Bool :=
  decide (input.ProjectID ≠ 0) && decide (1 ≤ input.Items.length)

/-- The item loop of `ImportBOMFromTemplate`, carrying the transaction, the created
rows and the collected errors; write `k` is the create for the item at position `k`. -/
def importLoop (c : Ctx) (projectID : Nat) :
    List ImportItem → Nat → Store → List BOM → List String → Store × List BOM × List String
  | [], _, tx, created, errors => (tx, created, errors)
  | item :: rest, k, tx, created, errors =>
    match firstMaterial tx.materials item.MaterialID with
    | none =>
      importLoop c projectID rest (k + 1) tx created
        (errors ++ ["Material ID " ++ toString item.MaterialID ++ " not found"])
    | some material =>
      match firstBOMFor tx.boms projectID item.MaterialID with
      | some _ =>
        importLoop c projectID rest (k + 1) tx created
          (errors ++ ["Material '" ++ material.Name ++ "' already exists in BOM"])
      | none =>
        if c.fails k then
          importLoop c projectID rest (k + 1) tx created
            (errors ++ ["Failed to create BOM for material ID " ++ toString item.MaterialID])
        else
          let bom := newBOM (tx.bomSeq + 1) projectID item.MaterialID item.PlannedQty
            material.UnitPrice item.Phase item.Notes c.now
          importLoop c projectID rest (k + 1)
            { tx with boms := tx.boms ++ [bom], bomSeq := tx.bomSeq + 1 } (created ++ [bom]) errors

/-- Embeds `ImportBOMFromTemplate`. Writes `0..n-1` are the creates of the `n` items,
write `n` is the commit. -/
def ImportBOMFromTemplate (c : Ctx) (input : ImportInput) (st : Store) : Response × Store :=
  if input.bindOK = false then (⟨400, bindError⟩, st)
  else
    match firstProject st.projects input.ProjectID with
    | none => (⟨404, "Project not found"⟩, st)
    | some _ =>
      match importLoop c input.ProjectID input.Items 0 st [] [] with
      | (tx, created, _) =>
        if created.length = 0 then (⟨400, "No BOM items were created"⟩, st)
        else if c.fails input.Items.length then (⟨500, "Failed to commit transaction"⟩, st)
        else (⟨201, ""⟩, tx)

/-! ## Sequences of workflow calls -/

/-- One call of the purchase-request API, with the context it is made in. -/
inductive PRCall where
  | create (c : Ctx) (input : CreatePRInput)
  | approve (c : Ctx) (id : Nat) (input : ApproveInput)
  | reject (c : Ctx) (id : Nat) (input : RejectInput)
  | comment (c : Ctx) (id : Nat) (text : String)

/-- The handler a call is routed to. -/
def PRCall.apply : PRCall → Store → Response × Store
  | .create c input, st => CreatePurchaseRequest c input st
  | .approve c id input, st => ApprovePurchaseRequest c id input st
  | .reject c id input, st => RejectPurchaseRequest c id input st
  | .comment c id text, st => AddPRComment c id text st

/-- The store after a sequence of calls, each one succeeding or failing. -/
def runCalls : Store → List PRCall → Store
  | st, [] => st
  | st, call :: rest => runCalls (call.apply st).2 rest

/-- A call is a decision (approve or reject) on the request `id`. -/
def PRCall.decides : PRCall → Nat → Bool
  | .approve _ i _, id => decide (i = id)
  | .reject _ i _, id => decide (i = id)
  | _, _ => false

/-- The stage records of request `id` for `stage`. -/
def stageRecords (st : Store) (id : Nat) (stage : String) : List ApprovalHistory :=
  st.histories.filter (fun h => decide (h.PurchaseRequestID = id) && decide (h.Stage = stage))

/-- All stage records of request `id`, in table order. -/
def recordsOf (st : Store) (id : Nat) : List ApprovalHistory :=
  st.histories.filter (fun h => decide (h.PurchaseRequestID = id))

/-- The values `current_stage` of request `id` takes along a sequence of calls,
starting with its value in `st` (nothing is listed while the request does not exist). -/
def stageTrace (id : Nat) : Store → List PRCall → List String
  | st, [] => ((firstPR st.prs id).map (fun p => p.CurrentStage)).toList
  | st, call :: rest =>
    ((firstPR st.prs id).map (fun p => p.CurrentStage)).toList ++
      stageTrace id (call.apply st).2 rest

/-- The position of a stage in the fixed order of `stages` (3 for any other label). -/
def stageIndex (stage : String) : Nat := stages.indexOf stage

/-- One move of `current_stage`: it stays, or it goes to the stage `GetNextStage`
gives, which is the next one in the order of `stages`. -/
def StageMove (a b : String) : Prop :=
  b = a ∨ (nextStageOf a = some b ∧ stageIndex b = stageIndex a + 1)

/-- Keys are handed out in increasing order: no request and no stage record carries
a request key beyond the last one handed out. -/
def Store.KeysFresh (st : Store) : Prop :=
  (∀ p ∈ st.prs, p.ID ≤ st.prSeq) ∧ (∀ h ∈ st.histories, h.PurchaseRequestID ≤ st.prSeq)

/-- The store with empty tables. -/
def Store.empty : Store :=
  { roles := [], users := [], projects := [], materials := [], boms := [], usages := [],
    prs := [], items := [], histories := [], comments := [], notifications := [],
    bomSeq := 0, usageSeq := 0, prSeq := 0, itemSeq := 0, historySeq := 0, commentSeq := 0 }

/-- The states of one request's workflow: request status, current stage, and the
outcomes of the Purchasing, Cost Control and GM records in this order. -/
def workflowStates : List (String × String × List String) :=
  [ (PRStatusPending, StagePurchasing, [StageStatusPending, StageStatusPending, StageStatusPending]),
    (PRStatusPending, StageCostControl, [StageStatusApproved, StageStatusPending, StageStatusPending]),
    (PRStatusPending, StageGM, [StageStatusApproved, StageStatusApproved, StageStatusPending]),
    (PRStatusApproved, StageGM, [StageStatusApproved, StageStatusApproved, StageStatusApproved]),
    (PRStatusRejected, StagePurchasing, [StageStatusRejected, StageStatusPending, StageStatusPending]),
    (PRStatusRejected, StageCostControl, [StageStatusApproved, StageStatusRejected, StageStatusPending]),
    (PRStatusRejected, StageGM, [StageStatusApproved, StageStatusApproved, StageStatusRejected]) ]

/-- The workflow invariant of request `id`: it exists, it has one record per stage
in the order of `stages`, and status, current stage and record outcomes form one of
the `workflowStates`. -/
def WorkflowInv (st : Store) (id : Nat) : Prop :=
  ∃ pr, firstPR st.prs id = some pr ∧
    (recordsOf st id).map (fun h => h.Stage) = stages ∧
    (pr.Status, pr.CurrentStage, (recordsOf st id).map (fun h => h.Status)) ∈ workflowStates

/-- The stores reachable for request `id`: a successful create of `id` on a store
with fresh keys, followed by any calls. -/
inductive Reachable : Store → Nat → Prop where
  | create (c : Ctx) (input : CreatePRInput) (st : Store) :
      st.KeysFresh → (CreatePurchaseRequest c input st).1.status = 201 →
      Reachable (CreatePurchaseRequest c input st).2 (st.prSeq + 1)
  | step (call : PRCall) (st : Store) (id : Nat) :
      Reachable st id → Reachable (call.apply st).2 id

/-- Status and current stage of request `id`, when it exists. -/
def statusAndStage (st : Store) (id : Nat) : Option (String × String) :=
  (firstPR st.prs id).map (fun p => (p.Status, p.CurrentStage))

/-- The outcomes of the stage records of request `id`, in the order of the table. -/
def outcomesOf (st : Store) (id : Nat) : List (String × String) :=
  (recordsOf st id).map (fun h => (h.Stage, h.Status))

/-- What a successful decision with outcome `status` makes of the request row `pr`:
an approval moves it to the next stage, or approves it when there is none; a
rejection rejects it where it stands. -/
def DecisionOn (pr pr' : PurchaseRequest) (status : String) : Prop :=
  pr'.ID = pr.ID ∧ pr'.DeletedAt = pr.DeletedAt ∧
  ((status = StageStatusApproved ∧ pr.GetNextStage = some pr'.CurrentStage ∧
      pr'.Status = pr.Status) ∨
   (status = StageStatusApproved ∧ pr.GetNextStage = none ∧
      pr'.CurrentStage = pr.CurrentStage ∧ pr'.Status = PRStatusApproved) ∨
   (status = StageStatusRejected ∧ pr'.CurrentStage = pr.CurrentStage ∧
      pr'.Status = PRStatusRejected))

/-! ## Scenario data -/

/-- A context without store faults. -/
def ctxOf (userID : Nat) (role : String) (instant : Nat) : Ctx :=
  { userID := userID, role := role, now := ⟨2024, instant⟩, fails := fun _ => false }

/-- A create request with two items. -/
def demoCreate : CreatePRInput :=
  { ProjectID := 1, Title := "Semen", Description := "", Priority := "",
    RequiredDate := none, TotalAmount := 500,
    Items := [ ⟨1, 10, "sak", 30, "", ""⟩, ⟨2, 4, "m3", 50, "", ""⟩ ] }

/-- The store after the create of the scenario: request 1 at Purchasing. -/
def demoCreated : Store := (CreatePurchaseRequest (ctxOf 7 "tim_lapangan" 1) demoCreate Store.empty).2

/-- Request 1 after Purchasing approved. -/
def demoAtCostControl : Store :=
  (ApprovePurchaseRequest (ctxOf 8 "Purchasing" 2) 1 ⟨"Purchasing", "ok"⟩ demoCreated).2

/-- Request 1 after Purchasing and Cost Control approved. -/
def demoAtGM : Store :=
  (ApprovePurchaseRequest (ctxOf 9 "Cost Control" 3) 1 ⟨"Cost Control", "ok"⟩ demoAtCostControl).2

/-- Request 1 after all three stages approved. -/
def demoApproved : Store :=
  (ApprovePurchaseRequest (ctxOf 10 "GM" 4) 1 ⟨"GM", "ok"⟩ demoAtGM).2

/-- A store with project 1 and material 1 (unit price 10, threshold 20) holding
`stock` units, and no usage yet. -/
def ledgerStore (stock : ℚ) : Store :=
  { Store.empty with
    projects := [⟨1, "Gudang", none⟩]
    materials := [{ ID := 1, Name := "Semen", Code := "SMN", Category := "Structural",
                    UnitName := "sak", UnitPrice := 10, Stock := stock, MinStock := 20,
                    Supplier := "", Description := "", CreatedAt := ⟨2024, 0⟩,
                    UpdatedAt := ⟨2024, 0⟩, DeletedAt := none }] }

/-- A usage request for project 1 and material 1. -/
def usageOf (quantity : ℚ) : CreateUsageInput :=
  { ProjectID := 1, MaterialID := 1, Quantity := quantity, UsageDate := none,
    DailyReportID := none, Notes := "" }

/-- The stock of material 1. -/
def stockOf (st : Store) : Option ℚ :=
  (firstMaterial st.materials 1).map (fun m => m.Stock)

/-- First call of the run on an empty stock: a usage of quantity -5 is recorded. -/
def negativeUsageStep1 : Response × Store :=
  CreateMaterialUsage (ctxOf 7 "tim_lapangan" 1) (usageOf (-5)) (ledgerStore 0)

/-- Second call: the stock is adjusted by -5. -/
def negativeUsageStep2 : Response × Store :=
  UpdateMaterialStock (ctxOf 7 "tim_lapangan" 2) 1 (-5) negativeUsageStep1.2

/-- Third call: usage 1 is deleted. -/
def negativeUsageStep3 : Response × Store :=
  DeleteMaterialUsage (ctxOf 7 "tim_lapangan" 3) 1 negativeUsageStep2.2

/-- Request 1 after Purchasing approved and Cost Control rejected with reason "budget". -/
def demoRejected : Store :=
  (RejectPurchaseRequest (ctxOf 9 "Cost Control" 3) 1 ⟨"Cost Control", "budget"⟩
    demoAtCostControl).2

/-- The number of live requests created in the year of `now`: the count the comment
"Count PRs created this year" of `generatePRNumber` announces. -/
def prCountInYear (now : Time) (st : Store) : Nat :=
  (st.prs.filter (fun p => decide (p.CreatedAt.Year = now.Year) && p.DeletedAt.isNone)).length

/-- A store with project 1, material 1 (stock 100, unit price 10, threshold 20), a BOM
row for the pair planned at 200, and user 3 holding the role `purchasing`. -/
def siteStore : Store :=
  { ledgerStore 100 with
    roles := [⟨1, "purchasing"⟩]
    users := [⟨3, "Budi", 1, none⟩]
    boms := [newBOM 1 1 1 200 10 "foundation" "" ⟨2024, 0⟩]
    bomSeq := 1 }

/-- A context in which exactly the write numbered `k` fails. -/
def ctxFailing (k : Nat) : Ctx :=
  { userID := 7, role := "tim_lapangan", now := ⟨2024, 1⟩, fails := fun i => decide (i = k) }

/-- Planned quantity, used quantity, remaining quantity, estimated cost and actual
cost of the BOM row of project 1 and material 1. -/
def bomFigures (st : Store) : Option (ℚ × ℚ × ℚ × ℚ × ℚ) :=
  (firstBOMFor st.boms 1 1).map
    (fun b => (b.PlannedQty, b.UsedQty, b.RemainingQty, b.EstimatedCost, b.ActualCost))

/-- Quantity and cost of the live usage events, in table order. -/
def usageFigures (st : Store) : List (ℚ × ℚ) :=
  (st.usages.filter (fun u => u.DeletedAt.isNone)).map (fun u => (u.Quantity, u.Cost))

/-- The scenario of the specification: 90 units recorded against the stock of 100. -/
def recorded90 : Response × Store :=
  CreateMaterialUsage (ctxOf 7 "tim_lapangan" 1) (usageOf 90) siteStore

/-- The recorded usage of 90 units changed to 60 units. -/
def updatedTo60 : Response × Store :=
  UpdateMaterialUsage (ctxOf 7 "tim_lapangan" 2) 1 ⟨60, none, ""⟩ recorded90.2

/-- The recorded usage of 90 units changed to 100 units, which takes the last 10
units of the stock. -/
def updatedTo100 : Response × Store :=
  UpdateMaterialUsage (ctxOf 7 "tim_lapangan" 2) 1 ⟨100, none, ""⟩ recorded90.2

/-- The recorded usage of 90 units deleted again. -/
def deleted90 : Response × Store :=
  DeleteMaterialUsage (ctxOf 7 "tim_lapangan" 2) 1 recorded90.2

/-- Every BOM row carries the remaining quantity its planned and used quantities
give. -/
def Store.BOMConsistent (st : Store) : Prop :=
  ∀ b ∈ st.boms, b.RemainingQty = b.PlannedQty - b.UsedQty

/-- Keys of usage events are handed out in increasing order: no event carries a key
beyond the last one handed out. -/
def Store.UsageKeysFresh (st : Store) : Prop :=
  ∀ u ∈ st.usages, u.ID ≤ st.usageSeq

/-- The live usage events, in table order. -/
def liveUsages (st : Store) : List MaterialUsage :=
  st.usages.filter (fun u => u.DeletedAt.isNone)

/-- The mutating calls on materials, BOM rows and usage events, each with the
context it runs in. -/
inductive LedgerCall where
  | addEntry (c : Ctx) (input : CreateBOMInput)
  | importBatch (c : Ctx) (input : ImportInput)
  | updateEntry (c : Ctx) (id : Nat) (input : UpdateBOMInput)
  | removeEntry (c : Ctx) (id : Nat)
  | recordUsage (c : Ctx) (input : CreateUsageInput)
  | updateUsage (c : Ctx) (id : Nat) (input : UpdateUsageInput)
  | deleteUsage (c : Ctx) (id : Nat)
  | recalculate (c : Ctx) (projectID : Nat)
  | adjustStock (c : Ctx) (id : Nat) (adjustment : ℚ)
  | updateMaterial (c : Ctx) (id : Nat) (input : UpdateMaterialInput)

/-- The handler behind a ledger call. -/
def LedgerCall.apply : LedgerCall → Store → Response × Store
  | .addEntry c input, st => CreateBOM c input st
  | .importBatch c input, st => ImportBOMFromTemplate c input st
  | .updateEntry c id input, st => UpdateBOM c id input st
  | .removeEntry c id, st => DeleteBOM c id st
  | .recordUsage c input, st => CreateMaterialUsage c input st
  | .updateUsage c id input, st => UpdateMaterialUsage c id input st
  | .deleteUsage c id, st => DeleteMaterialUsage c id st
  | .recalculate c projectID, st => CalculateBOMUsage c projectID st
  | .adjustStock c id adjustment, st => UpdateMaterialStock c id adjustment st
  | .updateMaterial c id input, st => UpdateMaterial c id input st

/-- The store after a sequence of ledger calls. -/
def runLedger : Store → List LedgerCall → Store
  | st, [] => st
  | st, call :: rest => runLedger (call.apply st).2 rest

/-- A run on the site store: 90 units recorded, the usage changed to 60 units, the
planned quantity of the entry raised to 250, another 15 units recorded, the first
usage deleted and the project recalculated. -/
def siteRun : List LedgerCall :=
  [ .recordUsage (ctxOf 7 "tim_lapangan" 1) (usageOf 90),
    .updateUsage (ctxOf 7 "tim_lapangan" 2) 1 ⟨60, none, ""⟩,
    .updateEntry (ctxOf 7 "tim_lapangan" 3) 1 ⟨250, "foundation", ""⟩,
    .recordUsage (ctxOf 7 "tim_lapangan" 4) (usageOf 15),
    .deleteUsage (ctxOf 7 "tim_lapangan" 5) 1,
    .recalculate (ctxOf 7 "tim_lapangan" 6) 1 ]

/-- Planned, used and remaining quantity of every BOM row, in table order. -/
def bomQuantities (st : Store) : List (ℚ × ℚ × ℚ) :=
  st.boms.map (fun b => (b.PlannedQty, b.UsedQty, b.RemainingQty))

/-! ## The report of `CalculateBOMUsage` -/

/-- The float64 values a division of two finite numbers yields in Go: a finite
quotient or, when the divisor is zero, an infinity or NaN. -/
inductive Float64 where
  | finite (q : ℚ)
  | posInf
  | negInf
  | nan
deriving DecidableEq, Repr

/-- The float64 division `x / y` of finite operands: a zero divisor gives NaN for
`0 / 0` and an infinity with the sign of `x` otherwise (no panic, no error). -/
def Float64.div (x y : ℚ) : Float64 :=
  if y = 0 then
    if x = 0 then .nan else if 0 < x then .posInf else .negInf
  else .finite (x / y)

/-- The float64 product `v * 100`: infinities and NaN stay what they are. -/
def Float64.mul100 : Float64 → Float64
  | .finite q => .finite (q * 100)
  | .posInf => .posInf
  | .negInf => .negInf
  | .nan => .nan

/-- A float64 value is a number: neither an infinity nor NaN. -/
def Float64.isFinite : Float64 → Bool
  | .finite _ => true
  | _ => false

/-- The `stats` object of the answer of `CalculateBOMUsage`. The branch for a
project without rows reports zeros under the keys `total_items`,
`total_estimated`, `total_actual`, `total_variance` and `usage_percentage`, and has
no key `variance_percentage` (`none`); the other branch names the last figure
`avg_usage_percentage`. -/
structure BOMStats where
  TotalItems : Nat
  TotalEstimated : ℚ
  TotalActual : ℚ
  TotalVariance : ℚ
  VariancePercentage : Option Float64
  AvgUsagePercentage : ℚ
deriving DecidableEq, Repr

/-- The accumulators `totalEstimated`, `totalActual` and `totalUsagePercentage` of
the loop of `CalculateBOMUsage`, over the rows it fetched; they are read from the
rows as the loop leaves them in memory, whether or not the save succeeds. -/
def recalcTotals (usages : List MaterialUsage) (projectID : Nat) :
    List BOM → ℚ × ℚ × ℚ → ℚ × ℚ × ℚ
  | [], acc => acc
  | b :: rest, (totalEstimated, totalActual, totalUsagePercentage) =>
    let b1 := recalcBOM usages projectID b
    recalcTotals usages projectID rest
      (totalEstimated + b1.EstimatedCost, totalActual + b1.ActualCost,
        totalUsagePercentage + b1.CalculateUsagePercentage)

/-- The `stats` object `CalculateBOMUsage` answers with. -/
def CalculateBOMUsageStats (projectID : Nat) (st : Store) : BOMStats :=
  let boms := bomsOfProject st.boms projectID
  if boms.length = 0 then
    { TotalItems := 0, TotalEstimated := 0, TotalActual := 0, TotalVariance := 0,
      VariancePercentage := none, AvgUsagePercentage := 0 }
  else
    match recalcTotals st.usages projectID boms (0, 0, 0) with
    | (totalEstimated, totalActual, totalUsagePercentage) =>
      let avgUsagePercentage := totalUsagePercentage / (boms.length : ℚ)
      let variance := totalActual - totalEstimated
      { TotalItems := boms.length, TotalEstimated := totalEstimated,
        TotalActual := totalActual, TotalVariance := variance,
        VariancePercentage := some (Float64.div variance totalEstimated).mul100,
        AvgUsagePercentage := avgUsagePercentage }

/-- The `warnings` list (`errors` on a 400 answer) of `ImportBOMFromTemplate`. -/
def importWarnings (c : Ctx) (input : ImportInput) (st : Store) : List String :=
  (importLoop c input.ProjectID input.Items 0 st [] []).2.2

/-- The rows `ImportBOMFromTemplate` collects in `createdBOMs`. -/
def importCreated (c : Ctx) (input : ImportInput) (st : Store) : List BOM :=
  (importLoop c input.ProjectID input.Items 0 st [] []).2.1

/-! ## Seeded roles (`pkg/database/database.go`) -/

/-- The `Name` fields of the `defaultRoles` slice of `SeedDefaultRoles`, in order. -/
def defaultRoles : List String :=
  ["ceo", "project_director", "director", "manager", "cost_control", "purchasing",
    "tim_lapangan"]

/-! ## Properties of the BOM table -/

/-- Key, planned quantity and estimated cost of every BOM row, in table order. -/
def planOf (st : Store) : List (Nat × ℚ × ℚ) :=
  st.boms.map (fun b => (b.ID, b.PlannedQty, b.EstimatedCost))

/-- The primary key of the BOM table: no two rows carry the same key. -/
def Store.BOMKeysUnique (st : Store) : Prop :=
  (st.boms.map (fun b => b.ID)).Nodup

/-- The live BOM rows, in table order. -/
def liveBOMs (st : Store) : List BOM :=
  st.boms.filter (fun b => b.DeletedAt.isNone)

/-- No two live BOM rows are for the same project and material. -/
def Store.PairsUnique (st : Store) : Prop :=
  (liveBOMs st).Pairwise (fun a b => ¬ (a.ProjectID = b.ProjectID ∧ a.MaterialID = b.MaterialID))

/-- The calls that create BOM rows. -/
def LedgerCall.createsEntries : LedgerCall → Bool
  | .addEntry _ _ => true
  | .importBatch _ _ => true
  | _ => false

/-- The call that updates a BOM row from a request body. -/
def LedgerCall.updatesEntry : LedgerCall → Bool
  | .updateEntry _ _ _ => true
  | _ => false

/-- The sum of the quantities of the usage events `CalculateBOMUsage` reads for a
project and a material. -/
def usedTotal (usages : List MaterialUsage) (projectID materialID : Nat) : ℚ :=
  ((usagesFor usages projectID materialID).map (fun u => u.Quantity)).sum

/-- The sum of the costs of the usage events `CalculateBOMUsage` reads for a project
and a material. -/
def costTotal (usages : List MaterialUsage) (projectID materialID : Nat) : ℚ :=
  ((usagesFor usages projectID materialID).map (fun u => u.Cost)).sum

/-! ## Scenario data for the BOM claims -/

/-- The site store with a second material, sand, at unit price 10. -/
def yardStore : Store :=
  { siteStore with
    materials := siteStore.materials ++
      [{ ID := 2, Name := "Pasir", Code := "PSR", Category := "Structural",
         UnitName := "m3", UnitPrice := 10, Stock := 50, MinStock := 5,
         Supplier := "", Description := "", CreatedAt := ⟨2024, 0⟩,
         UpdatedAt := ⟨2024, 0⟩, DeletedAt := none }] }

/-- The yard store after an entry for material 2 with planned quantity -200 is
added: the estimated costs 2000 and -2000 sum to zero. -/
def cancelStore : Store :=
  (CreateBOM (ctxOf 7 "manager" 1) ⟨1, 2, -200, "", ""⟩ yardStore).2

/-- The cancelling store after 90 units of material 1 are used. -/
def cancelUsedStore : Store :=
  (CreateMaterialUsage (ctxOf 7 "tim_lapangan" 2) (usageOf 90) cancelStore).2

/-- A change of the unit price of material 1 to 20 that keeps its stock of 90 and
its threshold of 20. -/
def priceTo20 : UpdateMaterialInput :=
  { Name := "", Code := "", Category := "", UnitName := "", UnitPrice := 20, Stock := 90,
    MinStock := 20, Supplier := "", Description := "" }

/-- A run on the site store: 10 units recorded at unit price 10, the unit price
changed to 20, the usage changed to 20 units. -/
def priceDriftRun : List LedgerCall :=
  [ .recordUsage (ctxOf 7 "tim_lapangan" 1) (usageOf 10),
    .updateMaterial (ctxOf 7 "manager" 2) 1 priceTo20,
    .updateUsage (ctxOf 7 "tim_lapangan" 3) 1 ⟨20, none, ""⟩ ]

/-- The store after the price-drift run. -/
def priceDriftStore : Store := runLedger siteStore priceDriftRun

/-- A run on the site store without any call that creates or updates a BOM entry:
90 units recorded, the unit price changed to 20, the usage changed to 60 units,
the stock adjusted by 5, the project recalculated, the usage deleted. -/
def usageRun : List LedgerCall :=
  [ .recordUsage (ctxOf 7 "tim_lapangan" 1) (usageOf 90),
    .updateMaterial (ctxOf 7 "manager" 2) 1 { priceTo20 with Stock := 10 },
    .updateUsage (ctxOf 7 "tim_lapangan" 3) 1 ⟨60, none, ""⟩,
    .adjustStock (ctxOf 7 "manager" 4) 1 5,
    .recalculate (ctxOf 7 "manager" 5) 1,
    .deleteUsage (ctxOf 7 "tim_lapangan" 6) 1 ]

/-- A batch for project 1: material 1 (already in the BOM), material 2 twice, and
material 9, which does not exist. -/
def yardBatch : ImportInput :=
  { ProjectID := 1
    Items := [⟨1, 10, "", ""⟩, ⟨2, 20, "", ""⟩, ⟨2, 30, "", ""⟩, ⟨9, 5, "", ""⟩] }

/-- A batch for project 1 none of whose items can be created. -/
def deadBatch : ImportInput :=
  { ProjectID := 1, Items := [⟨1, 10, "", ""⟩, ⟨9, 5, "", ""⟩] }

/-- Project, material and planned quantity of the live BOM rows, in table order. -/
def bomPairs (st : Store) : List (Nat × Nat × ℚ) :=
  (liveBOMs st).map (fun b => (b.ProjectID, b.MaterialID, b.PlannedQty))

/-- The recalculation of project 1 on the store after the price-drift run. -/
def recalcDrift : Response × Store :=
  CalculateBOMUsage (ctxOf 7 "manager" 9) 1 priceDriftStore

/-- The status codes answered along a sequence of ledger calls. -/
def ledgerStatuses : Store → List LedgerCall → List Nat
  | _, [] => []
  | st, call :: rest => (call.apply st).1.status :: ledgerStatuses (call.apply st).2 rest

/-- The delete of usage 1 on the store after the price-drift run. -/
def driftDeleted : Response × Store :=
  DeleteMaterialUsage (ctxOf 7 "tim_lapangan" 9) 1 priceDriftStore

end CostControl

namespace CostControl

/-! ## Store queries: basic facts -/

theorem firstPR_some {prs : List PurchaseRequest} {id : Nat} {pr : PurchaseRequest}
    (h : firstPR prs id = some pr) : pr.ID = id ∧ pr.DeletedAt = none ∧ pr ∈ prs := by
  unfold firstPR at h
  have h1 := List.find?_some h
  have h2 := List.mem_of_find?_eq_some h
  simp at h1
  exact ⟨h1.1, h1.2, h2⟩

theorem firstPR_append {prs : List PurchaseRequest} {id : Nat} {pr : PurchaseRequest}
    (h : firstPR prs id = some pr) (l : List PurchaseRequest) :
    firstPR (prs ++ l) id = some pr := by
  unfold firstPR at h ⊢
  simp [List.find?_append, h]

theorem firstPR_append_fresh (prs : List PurchaseRequest) (id : Nat) (p : PurchaseRequest)
    (hfresh : ∀ q ∈ prs, q.ID ≠ id) (hid : p.ID = id) (hlive : p.DeletedAt = none) :
    firstPR (prs ++ [p]) id = some p := by
  unfold firstPR
  rw [List.find?_append]
  have hnone : List.find? (fun q => decide (q.ID = id) && q.DeletedAt.isNone) prs = none := by
    rw [List.find?_eq_none]
    intro q hq
    simp [hfresh q hq]
  simp [hnone, hid, hlive]

theorem firstPR_savePR_other (prs : List PurchaseRequest) (id : Nat) (p : PurchaseRequest)
    (now : Time) (hne : p.ID ≠ id) : firstPR (savePR prs p now) id = firstPR prs id := by
  unfold firstPR savePR
  induction prs with
  | nil => rfl
  | cons q qs ih =>
    simp only [List.map_cons, List.find?_cons]
    by_cases hq : q.ID = p.ID
    · have : q.ID ≠ id := by rw [hq]; exact hne
      simp [hq, hne, this, ih]
    · simp [hq, ih]

theorem firstPR_savePR_same {prs : List PurchaseRequest} {id : Nat} {pr : PurchaseRequest}
    (h : firstPR prs id = some pr) (p : PurchaseRequest) (now : Time)
    (hid : p.ID = id) (hlive : p.DeletedAt = none) :
    firstPR (savePR prs p now) id = some { p with UpdatedAt := now } := by
  unfold firstPR savePR at *
  induction prs with
  | nil => simp at h
  | cons q qs ih =>
    simp only [List.map_cons, List.find?_cons] at h ⊢
    by_cases hq : q.ID = p.ID
    · simp [hq, hid, hlive]
    · have : q.ID ≠ id := by rw [← hid]; exact hq
      simp [this] at h
      simp [hq, this, ih h]

theorem savePR_ids (prs : List PurchaseRequest) (p : PurchaseRequest) (now : Time) :
    (savePR prs p now).map (fun q => q.ID) = prs.map (fun q => q.ID) := by
  unfold savePR
  rw [List.map_map]
  apply List.map_congr_left
  intro q _
  by_cases hq : q.ID = p.ID <;> simp [hq]

/-- Filtering the stage records on request key and stage commutes with the update
of the approve and reject handlers. -/
theorem filter_updateHistory (hs : List ApprovalHistory) (prID : Nat) (stage status : String)
    (approverID : Nat) (comment : String) (now : Time) (q : Nat → String → Bool) :
    (updateHistory hs prID stage status approverID comment now).filter
        (fun h => q h.PurchaseRequestID h.Stage) =
      updateHistory (hs.filter (fun h => q h.PurchaseRequestID h.Stage))
        prID stage status approverID comment now := by
  unfold updateHistory
  rw [List.filter_map]
  congr 1
  apply List.filter_congr
  intro h _
  by_cases hm : h.PurchaseRequestID = prID ∧ h.Stage = stage <;> simp [hm]

/-- The update leaves alone every list of records none of which it selects. -/
theorem updateHistory_of_not_selected (hs : List ApprovalHistory) (prID : Nat)
    (stage status : String) (approverID : Nat) (comment : String) (now : Time)
    (hno : ∀ h ∈ hs, ¬ (h.PurchaseRequestID = prID ∧ h.Stage = stage)) :
    updateHistory hs prID stage status approverID comment now = hs := by
  unfold updateHistory
  conv_rhs => rw [← List.map_id hs]
  apply List.map_congr_left
  intro h hh
  simp [hno h hh]

/-- The update rewrites every record of a list all of which it selects. -/
theorem updateHistory_of_selected (hs : List ApprovalHistory) (prID : Nat)
    (stage status : String) (approverID : Nat) (comment : String) (now : Time)
    (hall : ∀ h ∈ hs, h.PurchaseRequestID = prID ∧ h.Stage = stage) :
    updateHistory hs prID stage status approverID comment now =
      hs.map (fun h => { h with Status := status, ApproverID := some approverID,
                                Comment := comment, ApprovedAt := some now, UpdatedAt := now }) := by
  unfold updateHistory
  apply List.map_congr_left
  intro h hh
  simp [hall h hh]

/-! ## The handlers, case by case -/

theorem approve_ok {c : Ctx} {id : Nat} {input : ApproveInput} {st st' : Store}
    {resp : Response} (h : ApprovePurchaseRequest c id input st = (resp, st'))
    (hok : resp.status = 200) :
    ∃ pr, firstPR st.prs id = some pr ∧ input.Stage ≠ "" ∧ input.Stage = c.role ∧
      pr.Status = PRStatusPending ∧ pr.CurrentStage = input.Stage ∧
      st'.histories = updateHistory st.histories pr.ID input.Stage StageStatusApproved
        c.userID input.Comment c.now ∧
      st'.prs = savePR st.prs
        (match pr.GetNextStage with
          | some nextStage => { pr with CurrentStage := nextStage }
          | none => { pr with Status := PRStatusApproved }) c.now ∧
      st'.prSeq = st.prSeq := by
  unfold ApprovePurchaseRequest at h
  repeat' split at h
  all_goals first
    | (cases h; simp at hok; done)
    | (cases h; refine ⟨_, by assumption, ?_⟩; simp_all [createPRNotification, notifyRequester])

theorem approve_fail {c : Ctx} {id : Nat} {input : ApproveInput} {st st' : Store}
    {resp : Response} (h : ApprovePurchaseRequest c id input st = (resp, st'))
    (hfail : resp.status ≠ 200) :
    st'.prs = st.prs ∧ st'.histories = st.histories ∧ st'.prSeq = st.prSeq := by
  unfold ApprovePurchaseRequest at h
  repeat' split at h
  all_goals first
    | (cases h; simp at hfail; done)
    | (cases h; simp [createPRNotification, notifyRequester])

theorem reject_ok {c : Ctx} {id : Nat} {input : RejectInput} {st st' : Store}
    {resp : Response} (h : RejectPurchaseRequest c id input st = (resp, st'))
    (hok : resp.status = 200) :
    ∃ pr, firstPR st.prs id = some pr ∧ input.Stage ≠ "" ∧ input.Reason ≠ "" ∧
      input.Stage = c.role ∧ pr.Status = PRStatusPending ∧ pr.CurrentStage = input.Stage ∧
      st'.histories = updateHistory st.histories pr.ID input.Stage StageStatusRejected
        c.userID input.Reason c.now ∧
      st'.prs = savePR st.prs { pr with Status := PRStatusRejected } c.now ∧
      st'.prSeq = st.prSeq := by
  unfold RejectPurchaseRequest at h
  repeat' split at h
  all_goals first
    | (cases h; simp at hok; done)
    | (cases h; refine ⟨_, by assumption, ?_⟩; simp_all [notifyRequester])

theorem reject_fail {c : Ctx} {id : Nat} {input : RejectInput} {st st' : Store}
    {resp : Response} (h : RejectPurchaseRequest c id input st = (resp, st'))
    (hfail : resp.status ≠ 200) : st' = st := by
  unfold RejectPurchaseRequest at h
  repeat' split at h
  all_goals first
    | (cases h; simp at hfail; done)
    | (cases h; rfl)

theorem comment_frame {c : Ctx} {id : Nat} {text : String} {st st' : Store}
    {resp : Response} (h : AddPRComment c id text st = (resp, st')) :
    st'.prs = st.prs ∧ st'.histories = st.histories ∧ st'.prSeq = st.prSeq := by
  unfold AddPRComment at h
  repeat' split at h
  all_goals (cases h; simp)

theorem createItems_frame (c : Ctx) (prID : Nat) (items : List PRItemInput) :
    ∀ (k : Nat) (tx tx' : Store), createItems c prID items k tx = some tx' →
      tx'.prs = tx.prs ∧ tx'.histories = tx.histories ∧ tx'.prSeq = tx.prSeq ∧
      tx'.users = tx.users ∧ tx'.roles = tx.roles ∧ tx'.notifications = tx.notifications := by
  induction items with
  | nil =>
    intro k tx tx' h
    simp [createItems] at h
    subst h
    simp
  | cons item rest ih =>
    intro k tx tx' h
    simp only [createItems] at h
    split at h
    · cases h
    · have := ih _ _ _ h
      simpa using this

theorem createHistories_spec (c : Ctx) (prID : Nat) (sts : List String) :
    ∀ (k : Nat) (tx tx' : Store), createHistories c prID sts k tx = some tx' →
      tx'.prs = tx.prs ∧ tx'.prSeq = tx.prSeq ∧
      ∃ rows, tx'.histories = tx.histories ++ rows ∧
        rows.map (fun h => (h.PurchaseRequestID, h.Stage, h.Status, h.ApproverID)) =
          sts.map (fun s => (prID, s, StageStatusPending, none)) := by
  induction sts with
  | nil =>
    intro k tx tx' h
    simp [createHistories] at h
    subst h
    exact ⟨rfl, rfl, [], by simp, rfl⟩
  | cons s rest ih =>
    intro k tx tx' h
    simp only [createHistories] at h
    split at h
    · cases h
    · obtain ⟨h1, h2, rows, h3, h4⟩ := ih _ _ _ h
      refine ⟨by simpa using h1, by simpa using h2,
        { ID := tx.historySeq + 1, PurchaseRequestID := prID, Stage := s,
          Status := StageStatusPending, ApproverID := none, Comment := "", ApprovedAt := none,
          CreatedAt := c.now, UpdatedAt := c.now } :: rows, ?_, ?_⟩
      · simpa using h3
      · simp [h4]

theorem create_ok {c : Ctx} {input : CreatePRInput} {st st' : Store} {resp : Response}
    (h : CreatePurchaseRequest c input st = (resp, st')) (hok : resp.status = 201) :
    ∃ pr rows, st'.prs = st.prs ++ [pr] ∧ pr.ID = st.prSeq + 1 ∧ pr.DeletedAt = none ∧
      pr.Status = PRStatusPending ∧ pr.CurrentStage = StagePurchasing ∧
      st'.prSeq = st.prSeq + 1 ∧ st'.histories = st.histories ++ rows ∧
      rows.map (fun h => (h.PurchaseRequestID, h.Stage, h.Status, h.ApproverID)) =
        stages.map (fun s => (st.prSeq + 1, s, StageStatusPending, none)) ∧
      1 ≤ input.Items.length := by
  unfold CreatePurchaseRequest at h
  dsimp only at h
  repeat' split at h
  all_goals first
    | (cases h; simp at hok; done)
    | skip
  have hbind : ¬ input.bindOK = false := by assumption
  cases h
  obtain ⟨i1, i2, i3, -⟩ := createItems_frame _ _ _ _ _ _ (by assumption)
  obtain ⟨j1, j2, rows, j3, j4⟩ := createHistories_spec _ _ _ _ _ _ (by assumption)
  refine ⟨{ ID := st.prSeq + 1, PRNumber := generatePRNumber c.now st,
            ProjectID := input.ProjectID, RequesterID := c.userID, Title := input.Title,
            Description := input.Description, Priority := priorityOrDefault input.Priority,
            Status := PRStatusPending, TotalAmount := input.TotalAmount,
            RequiredDate := input.RequiredDate, CurrentStage := StagePurchasing,
            CreatedAt := c.now, UpdatedAt := c.now, DeletedAt := none },
    rows, ?_, rfl, rfl, rfl, rfl, ?_, ?_, j4, ?_⟩
  · simp only [createPRNotification]
    rw [j1, i1]
  · simp only [createPRNotification]
    rw [j2, i3]
  · simp only [createPRNotification]
    rw [j3, i2]
  · by_contra hlen
    apply hbind
    have hzero : input.Items.length = 0 := by omega
    simp [CreatePRInput.bindOK, hzero]

theorem create_fail {c : Ctx} {input : CreatePRInput} {st st' : Store} {resp : Response}
    (h : CreatePurchaseRequest c input st = (resp, st')) (hfail : resp.status ≠ 201) :
    st' = st := by
  unfold CreatePurchaseRequest at h
  dsimp only at h
  repeat' split at h
  all_goals first
    | (cases h; simp at hfail; done)
    | (cases h; rfl)

/-! ## Stage records under a decision -/

theorem stageRecords_update_same (st : Store) (id : Nat) (stage status : String)
    (approverID : Nat) (comment : String) (now : Time) :
    (updateHistory st.histories id stage status approverID comment now).filter
        (fun h => decide (h.PurchaseRequestID = id) && decide (h.Stage = stage)) =
      (stageRecords st id stage).map (fun h =>
        { h with Status := status, ApproverID := some approverID, Comment := comment,
                 ApprovedAt := some now, UpdatedAt := now }) := by
  rw [filter_updateHistory st.histories id stage status approverID comment now
    (fun a b => decide (a = id) && decide (b = stage))]
  apply updateHistory_of_selected
  intro h hh
  simpa using (List.mem_filter.mp hh).2

theorem stageRecords_update_other (st : Store) (id : Nat) (stage status : String)
    (approverID : Nat) (comment : String) (now : Time) (id2 : Nat) (stage2 : String)
    (hne : id2 ≠ id ∨ stage2 ≠ stage) :
    (updateHistory st.histories id stage status approverID comment now).filter
        (fun h => decide (h.PurchaseRequestID = id2) && decide (h.Stage = stage2)) =
      stageRecords st id2 stage2 := by
  rw [filter_updateHistory st.histories id stage status approverID comment now
    (fun a b => decide (a = id2) && decide (b = stage2))]
  apply updateHistory_of_not_selected
  intro h hh
  have hsel := (List.mem_filter.mp hh).2
  simp only [Bool.and_eq_true, decide_eq_true_eq] at hsel
  rintro ⟨h1, h2⟩
  rcases hne with hne | hne
  · exact hne (hsel.1.symm.trans h1)
  · exact hne (hsel.2.symm.trans h2)

/-! ## Claims C1 to C3 -/

/-- C1: a successful approve is an approve of a pending request at its current
stage `s` by a caller whose role is `s`. It turns every stage record of the
request for `s` into an approved one carrying the caller, the comment and the
time, and leaves every other stage record as it was. From Purchasing the request
moves to Cost Control and from Cost Control to GM, still pending; at GM the
request becomes approved and stays at GM. -/
theorem approve_success_effect (c : Ctx) (id : Nat) (input : ApproveInput) (st st' : Store)
    (resp : Response) (h : ApprovePurchaseRequest c id input st = (resp, st'))
    (hok : resp.status = 200) :
    ∃ pr pr', firstPR st.prs id = some pr ∧ pr.Status = PRStatusPending ∧
      pr.CurrentStage = input.Stage ∧ c.role = input.Stage ∧
      firstPR st'.prs id = some pr' ∧
      stageRecords st' id input.Stage = (stageRecords st id input.Stage).map (fun r =>
        { r with Status := StageStatusApproved, ApproverID := some c.userID,
                 Comment := input.Comment, ApprovedAt := some c.now, UpdatedAt := c.now }) ∧
      (∀ id2 stage2, id2 ≠ id ∨ stage2 ≠ input.Stage →
        stageRecords st' id2 stage2 = stageRecords st id2 stage2) ∧
      (input.Stage = StagePurchasing →
        pr'.CurrentStage = StageCostControl ∧ pr'.Status = PRStatusPending) ∧
      (input.Stage = StageCostControl →
        pr'.CurrentStage = StageGM ∧ pr'.Status = PRStatusPending) ∧
      (input.Stage = StageGM → pr'.Status = PRStatusApproved ∧ pr'.CurrentStage = StageGM) := by
  obtain ⟨pr, hpr, -, hrole, hpend, hstage, hhist, hprs, -⟩ := approve_ok h hok
  obtain ⟨hid, hlive, -⟩ := firstPR_some hpr
  have hfirst := firstPR_savePR_same hpr
    (match pr.GetNextStage with
      | some nextStage => { pr with CurrentStage := nextStage }
      | none => { pr with Status := PRStatusApproved }) c.now
    (by cases pr.GetNextStage <;> exact hid) (by cases pr.GetNextStage <;> exact hlive)
  rw [← hprs] at hfirst
  refine ⟨pr, _, hpr, hpend, hstage, hrole.symm, hfirst, ?_, ?_, ?_, ?_, ?_⟩
  · unfold stageRecords
    rw [hhist, hid]
    exact stageRecords_update_same st id input.Stage _ _ _ _
  · intro id2 stage2 hne
    unfold stageRecords
    rw [hhist, hid]
    exact stageRecords_update_other st id input.Stage _ _ _ _ id2 stage2 hne
  · intro hs
    have hcur : pr.CurrentStage = StagePurchasing := hstage.trans hs
    simp [PurchaseRequest.GetNextStage, nextStageOf, hcur, hpend]
  · intro hs
    have hcur : pr.CurrentStage = StageCostControl := hstage.trans hs
    simp [PurchaseRequest.GetNextStage, nextStageOf, hcur, hpend, StageCostControl, StagePurchasing]
  · intro hs
    have hcur : pr.CurrentStage = StageGM := hstage.trans hs
    simp [PurchaseRequest.GetNextStage, nextStageOf, hcur, StageCostControl, StagePurchasing, StageGM]

/-- C1, on the scenario: after the create, Purchasing, Cost Control and GM approve
in this order; the request moves to Cost Control, to GM, and is then approved at GM. -/
theorem approve_success_effect_witness :
    (∃ p, firstPR demoAtCostControl.prs 1 = some p ∧
      p.CurrentStage = StageCostControl ∧ p.Status = PRStatusPending) ∧
    (∃ p, firstPR demoAtGM.prs 1 = some p ∧
      p.CurrentStage = StageGM ∧ p.Status = PRStatusPending) ∧
    (∃ p, firstPR demoApproved.prs 1 = some p ∧
      p.Status = PRStatusApproved ∧ p.CurrentStage = StageGM) ∧
    outcomesOf demoApproved 1 =
      [("Purchasing", "approved"), ("Cost Control", "approved"), ("GM", "approved")] := by
  obtain ⟨_, p1, -, -, -, -, a1, -, -, b1, -, -⟩ :=
    approve_success_effect (ctxOf 8 "Purchasing" 2) 1 ⟨"Purchasing", "ok"⟩ demoCreated
      demoAtCostControl _ rfl (by decide)
  obtain ⟨_, p2, -, -, -, -, a2, -, -, -, b2, -⟩ :=
    approve_success_effect (ctxOf 9 "Cost Control" 3) 1 ⟨"Cost Control", "ok"⟩
      demoAtCostControl demoAtGM _ rfl (by decide)
  obtain ⟨_, p3, -, -, -, -, a3, -, -, -, -, b3⟩ :=
    approve_success_effect (ctxOf 10 "GM" 4) 1 ⟨"GM", "ok"⟩ demoAtGM demoApproved _ rfl
      (by decide)
  exact ⟨⟨p1, a1, b1 rfl⟩, ⟨p2, a2, b2 rfl⟩, ⟨p3, a3, b3 rfl⟩, by decide⟩

/-- C2, as stated, fails: request 1 is pending at Purchasing; a caller with role
Purchasing who asks to approve stage GM is answered 403 (the role check comes
first), not with the stale-transition error. -/
theorem approve_wrong_stage_counterexample :
    statusAndStage demoCreated 1 = some ("pending", "Purchasing") ∧
    ApprovePurchaseRequest (ctxOf 8 "Purchasing" 2) 1 ⟨"GM", "ok"⟩ demoCreated =
      (⟨403, "You are not authorized to approve at this stage"⟩, demoCreated) :=
  ⟨by decide, rfl⟩

/-- C2, amended: an approve whose stage is not the request's current stage, or whose
request is not pending, fails and leaves the whole store unchanged. When the
caller's role equals the requested stage the failure is the stale-transition
error (400, "already processed" or "not at this approval stage"); when the role
differs it is 403; a request without a stage is a binding error. -/
theorem approve_stale_fails (c : Ctx) (id : Nat) (input : ApproveInput) (st : Store)
    (pr : PurchaseRequest) (hpr : firstPR st.prs id = some pr)
    (hstale : pr.Status ≠ PRStatusPending ∨ pr.CurrentStage ≠ input.Stage) :
    (ApprovePurchaseRequest c id input st).2 = st ∧
    (ApprovePurchaseRequest c id input st).1.status ≠ 200 ∧
    (input.Stage ≠ "" → c.role = input.Stage →
      (ApprovePurchaseRequest c id input st).1 = ⟨400, "Purchase request already processed"⟩ ∨
      (ApprovePurchaseRequest c id input st).1 =
        ⟨400, "Purchase request not at this approval stage"⟩) ∧
    (input.Stage ≠ "" → c.role ≠ input.Stage →
      (ApprovePurchaseRequest c id input st).1 =
        ⟨403, "You are not authorized to approve at this stage"⟩) ∧
    (input.Stage = "" → (ApprovePurchaseRequest c id input st).1 = ⟨400, bindError⟩) := by
  unfold ApprovePurchaseRequest
  by_cases h1 : input.Stage = ""
  · simp [h1]
  · by_cases h2 : input.Stage = c.role
    · by_cases h3 : pr.Status = PRStatusPending
      · have h4 : pr.CurrentStage ≠ input.Stage := by
          rcases hstale with hs | hs
          · exact absurd h3 hs
          · exact hs
        have h4' : ¬ pr.CurrentStage = c.role := by rw [← h2]; exact h4
        have h1' : ¬ c.role = "" := by rw [← h2]; exact h1
        simp [h1', h2, hpr, h3, h4']
      · have h1' : ¬ c.role = "" := by rw [← h2]; exact h1
        simp [h1', h2, hpr, h3]
    · have h2' : ¬ c.role = input.Stage := fun e => h2 e.symm
      simp [h1, h2, h2']

/-- C2, amended, on the scenario: asking again for the Purchasing approval after it
was given, with the Purchasing role, is answered with the stale-transition error
and changes nothing. -/
theorem approve_stale_fails_witness :
    (ApprovePurchaseRequest (ctxOf 8 "Purchasing" 5) 1 ⟨"Purchasing", "again"⟩
      demoAtCostControl).2 = demoAtCostControl ∧
    (ApprovePurchaseRequest (ctxOf 8 "Purchasing" 5) 1 ⟨"Purchasing", "again"⟩
      demoAtCostControl).1 = ⟨400, "Purchase request not at this approval stage"⟩ := by
  cases hp : firstPR demoAtCostControl.prs 1 with
  | none => exact absurd hp (by decide)
  | some p =>
    have hs : statusAndStage demoAtCostControl 1 = some ("pending", "Cost Control") := by
      decide
    simp only [statusAndStage, hp, Option.map_some', Option.some.injEq, Prod.mk.injEq] at hs
    have hw := approve_stale_fails (ctxOf 8 "Purchasing" 5) 1 ⟨"Purchasing", "again"⟩
      demoAtCostControl p hp (Or.inr (by rw [hs.2]; decide))
    exact ⟨hw.1, rfl⟩

/-- C3: when the caller's role differs from the requested stage, approve and
reject both answer 403 and leave the whole store (requests, stage records,
notifications) unchanged, whatever the request key and the store are. The
requests carry their required fields: a stage, and a reason for reject. -/
theorem role_mismatch_forbidden (c : Ctx) (id : Nat) (st : Store)
    (stage comment reason : String) (hstage : stage ≠ "") (hreason : reason ≠ "")
    (hrole : c.role ≠ stage) :
    ApprovePurchaseRequest c id ⟨stage, comment⟩ st =
      (⟨403, "You are not authorized to approve at this stage"⟩, st) ∧
    RejectPurchaseRequest c id ⟨stage, reason⟩ st =
      (⟨403, "You are not authorized to reject at this stage"⟩, st) := by
  have hrole' : ¬ stage = c.role := fun e => hrole e.symm
  simp [ApprovePurchaseRequest, RejectPurchaseRequest, hstage, hreason, hrole']

/-- C3, on the scenario: a caller with role `manager` asks for the GM decision on
request 1. -/
theorem role_mismatch_forbidden_witness :
    ApprovePurchaseRequest (ctxOf 11 "manager" 5) 1 ⟨"GM", "ok"⟩ demoAtGM =
      (⟨403, "You are not authorized to approve at this stage"⟩, demoAtGM) ∧
    RejectPurchaseRequest (ctxOf 11 "manager" 5) 1 ⟨"GM", "no"⟩ demoAtGM =
      (⟨403, "You are not authorized to reject at this stage"⟩, demoAtGM) :=
  role_mismatch_forbidden (ctxOf 11 "manager" 5) 1 demoAtGM "GM" "ok" "no"
    (by decide) (by decide) (by decide)

/-! ## The effect of one call on requests and stage records -/

/-- One call leaves requests and stage records alone, or is a successful decision
on a pending request at its current stage, or is a successful create. -/
theorem apply_effect (call : PRCall) (st : Store) :
    ((call.apply st).2.prs = st.prs ∧ (call.apply st).2.histories = st.histories ∧
      (call.apply st).2.prSeq = st.prSeq) ∨
    (∃ id pr pr' status uid comment now,
      call.decides id = true ∧ (call.apply st).1.status = 200 ∧
      firstPR st.prs id = some pr ∧ pr.Status = PRStatusPending ∧
      (call.apply st).2.histories =
        updateHistory st.histories id pr.CurrentStage status uid comment now ∧
      (call.apply st).2.prs = savePR st.prs pr' now ∧
      (call.apply st).2.prSeq = st.prSeq ∧ DecisionOn pr pr' status) ∨
    (∃ pr rows, (call.apply st).2.prs = st.prs ++ [pr] ∧ pr.ID = st.prSeq + 1 ∧
      pr.DeletedAt = none ∧ pr.Status = PRStatusPending ∧
      pr.CurrentStage = StagePurchasing ∧ (call.apply st).2.prSeq = st.prSeq + 1 ∧
      (call.apply st).2.histories = st.histories ++ rows ∧
      rows.map (fun h => (h.PurchaseRequestID, h.Stage, h.Status, h.ApproverID)) =
        stages.map (fun s => (st.prSeq + 1, s, StageStatusPending, none))) := by
  cases call with
  | create c input =>
    simp only [PRCall.apply]
    cases hres : CreatePurchaseRequest c input st with
    | mk resp st' =>
      by_cases hok : resp.status = 201
      · obtain ⟨pr, rows, h1, h2, h3, h4, h5, h6, h7, h8, -⟩ := create_ok hres hok
        exact Or.inr (Or.inr ⟨pr, rows, h1, h2, h3, h4, h5, h6, h7, h8⟩)
      · have := create_fail hres hok
        subst this
        exact Or.inl ⟨rfl, rfl, rfl⟩
  | approve c id input =>
    simp only [PRCall.apply]
    cases hres : ApprovePurchaseRequest c id input st with
    | mk resp st' =>
      by_cases hok : resp.status = 200
      · obtain ⟨pr, hpr, -, -, hpend, hstage, hhist, hprs, hseq⟩ := approve_ok hres hok
        obtain ⟨hid, -, -⟩ := firstPR_some hpr
        refine Or.inr (Or.inl ⟨id, pr, _, StageStatusApproved, c.userID, input.Comment, c.now,
          by simp [PRCall.decides], hok, hpr, hpend, ?_, hprs, hseq, ?_⟩)
        · rw [hhist, hid, hstage]
        · cases hnext : pr.GetNextStage with
          | none => exact ⟨rfl, rfl, Or.inr (Or.inl ⟨rfl, hnext, rfl, rfl⟩)⟩
          | some next => exact ⟨rfl, rfl, Or.inl ⟨rfl, hnext, rfl⟩⟩
      · exact Or.inl (approve_fail hres hok)
  | reject c id input =>
    simp only [PRCall.apply]
    cases hres : RejectPurchaseRequest c id input st with
    | mk resp st' =>
      by_cases hok : resp.status = 200
      · obtain ⟨pr, hpr, -, -, -, hpend, hstage, hhist, hprs, hseq⟩ := reject_ok hres hok
        obtain ⟨hid, -, -⟩ := firstPR_some hpr
        refine Or.inr (Or.inl ⟨id, pr, _, StageStatusRejected, c.userID, input.Reason, c.now,
          by simp [PRCall.decides], hok, hpr, hpend, ?_, hprs, hseq, ?_⟩)
        · rw [hhist, hid, hstage]
        · exact ⟨rfl, rfl, Or.inr (Or.inr ⟨rfl, rfl, rfl⟩)⟩
      · have := reject_fail hres hok
        subst this
        exact Or.inl ⟨rfl, rfl, rfl⟩
  | comment c id text =>
    simp only [PRCall.apply]
    cases hres : AddPRComment c id text st with
    | mk resp st' => exact Or.inl (comment_frame hres)

/-! ## A decided request is final -/

theorem decided_stays (call : PRCall) (st : Store) (id : Nat) (pr : PurchaseRequest)
    (hpr : firstPR st.prs id = some pr) (hdone : pr.Status ≠ PRStatusPending) :
    firstPR (call.apply st).2.prs id = some pr := by
  rcases apply_effect call st with ⟨h1, -, -⟩ | ⟨id0, pr0, pr', status, uid, comment, now,
      -, -, hpr0, hpend, -, hprs, -, hdec⟩ | ⟨p, rows, hprs, -⟩
  · rw [h1]; exact hpr
  · rw [hprs]
    by_cases hid : id0 = id
    · subst hid
      rw [hpr] at hpr0
      cases hpr0
      exact absurd hpend hdone
    · rw [firstPR_savePR_other]
      · exact hpr
      · rw [hdec.1, (firstPR_some hpr0).1]
        exact hid
  · rw [hprs]
    exact firstPR_append hpr _

theorem decided_stays_run (calls : List PRCall) :
    ∀ (st : Store) (id : Nat) (pr : PurchaseRequest), firstPR st.prs id = some pr →
      pr.Status ≠ PRStatusPending → firstPR (runCalls st calls).prs id = some pr := by
  induction calls with
  | nil => intro st id pr hpr _; exact hpr
  | cons call rest ih =>
    intro st id pr hpr hdone
    exact ih _ id pr (decided_stays call st id pr hpr hdone) hdone

theorem decision_on_decided_fails (call : PRCall) (st : Store) (id : Nat)
    (pr : PurchaseRequest) (hpr : firstPR st.prs id = some pr)
    (hdone : pr.Status ≠ PRStatusPending) (hcall : call.decides id = true) :
    (call.apply st).1.status ≠ 200 := by
  intro hok
  cases call with
  | create c input => simp [PRCall.decides] at hcall
  | comment c i text => simp [PRCall.decides] at hcall
  | approve c i input =>
    simp only [PRCall.decides, decide_eq_true_eq] at hcall
    subst hcall
    simp only [PRCall.apply] at hok
    have hres : ApprovePurchaseRequest c i input st =
        ((ApprovePurchaseRequest c i input st).1, (ApprovePurchaseRequest c i input st).2) := rfl
    obtain ⟨pr0, hpr0, -, -, hpend, -⟩ := approve_ok hres hok
    rw [hpr] at hpr0
    cases hpr0
    exact hdone hpend
  | reject c i input =>
    simp only [PRCall.decides, decide_eq_true_eq] at hcall
    subst hcall
    simp only [PRCall.apply] at hok
    have hres : RejectPurchaseRequest c i input st =
        ((RejectPurchaseRequest c i input st).1, (RejectPurchaseRequest c i input st).2) := rfl
    obtain ⟨pr0, hpr0, -, -, -, hpend, -⟩ := reject_ok hres hok
    rw [hpr] at hpr0
    cases hpr0
    exact hdone hpend

/-! ## Claims C4 and C5 -/

/-- C4: a successful reject is a reject of a pending request at its current stage
`s`. It turns every stage record of the request for `s` into a rejected one
carrying the caller and the reason, sets the request's status to rejected and
leaves its current stage at `s`; every other stage record (the approved ones of
earlier stages, the pending ones of later stages) is as before; and after any
further calls every approve or reject of that request fails. -/
theorem reject_success_effect (c : Ctx) (id : Nat) (input : RejectInput) (st st' : Store)
    (resp : Response) (h : RejectPurchaseRequest c id input st = (resp, st'))
    (hok : resp.status = 200) :
    ∃ pr pr', firstPR st.prs id = some pr ∧ pr.Status = PRStatusPending ∧
      pr.CurrentStage = input.Stage ∧
      firstPR st'.prs id = some pr' ∧ pr'.Status = PRStatusRejected ∧
      pr'.CurrentStage = input.Stage ∧
      stageRecords st' id input.Stage = (stageRecords st id input.Stage).map (fun r =>
        { r with Status := StageStatusRejected, ApproverID := some c.userID,
                 Comment := input.Reason, ApprovedAt := some c.now, UpdatedAt := c.now }) ∧
      (∀ id2 stage2, id2 ≠ id ∨ stage2 ≠ input.Stage →
        stageRecords st' id2 stage2 = stageRecords st id2 stage2) ∧
      (∀ (calls : List PRCall) (call : PRCall), call.decides id = true →
        (call.apply (runCalls st' calls)).1.status ≠ 200) := by
  obtain ⟨pr, hpr, -, -, -, hpend, hstage, hhist, hprs, -⟩ := reject_ok h hok
  obtain ⟨hid, hlive, -⟩ := firstPR_some hpr
  have hfirst := firstPR_savePR_same hpr { pr with Status := PRStatusRejected } c.now hid hlive
  rw [← hprs] at hfirst
  refine ⟨pr, _, hpr, hpend, hstage, hfirst, rfl, hstage, ?_, ?_, ?_⟩
  · unfold stageRecords
    rw [hhist, hid]
    exact stageRecords_update_same st id input.Stage _ _ _ _
  · intro id2 stage2 hne
    unfold stageRecords
    rw [hhist, hid]
    exact stageRecords_update_other st id input.Stage _ _ _ _ id2 stage2 hne
  · intro calls call hcall
    have hdone : ({ ({ pr with Status := PRStatusRejected } : PurchaseRequest) with
        UpdatedAt := c.now } : PurchaseRequest).Status ≠ PRStatusPending := by
      simp [PRStatusRejected, PRStatusPending]
    exact decision_on_decided_fails call _ id _ (decided_stays_run calls st' id _ hfirst hdone)
      hdone hcall

/-- C4, on the scenario: Purchasing approves, Cost Control rejects with reason
"budget". The request is rejected at Cost Control, the Purchasing record is still
approved, the GM record still pending, and a later GM approve fails. -/
theorem reject_success_effect_witness :
    statusAndStage demoRejected 1 = some ("rejected", "Cost Control") ∧
    outcomesOf demoRejected 1 =
      [("Purchasing", "approved"), ("Cost Control", "rejected"), ("GM", "pending")] ∧
    (stageRecords demoRejected 1 "Cost Control").map (fun r => (r.ApproverID, r.Comment)) =
      [(some 9, "budget")] ∧
    (ApprovePurchaseRequest (ctxOf 10 "GM" 4) 1 ⟨"GM", "ok"⟩ demoRejected).1.status ≠ 200 := by
  obtain ⟨_, _, -, -, -, -, -, -, -, -, hlater⟩ :=
    reject_success_effect (ctxOf 9 "Cost Control" 3) 1 ⟨"Cost Control", "budget"⟩
      demoAtCostControl demoRejected _ rfl (by decide)
  exact ⟨by decide, by decide, by decide,
    hlater [] (.approve (ctxOf 10 "GM" 4) 1 ⟨"GM", "ok"⟩) rfl⟩

theorem create_new_request (c : Ctx) (input : CreatePRInput) (st st' : Store)
    (resp : Response) (h : CreatePurchaseRequest c input st = (resp, st'))
    (hok : resp.status = 201) (hfresh : st.KeysFresh) :
    1 ≤ input.Items.length ∧ firstPR st.prs (st.prSeq + 1) = none ∧
    ∃ pr, firstPR st'.prs (st.prSeq + 1) = some pr ∧ pr.Status = PRStatusPending ∧
      pr.CurrentStage = StagePurchasing ∧
      (recordsOf st' (st.prSeq + 1)).map (fun r => (r.Stage, r.Status, r.ApproverID)) =
        [(StagePurchasing, StageStatusPending, none),
         (StageCostControl, StageStatusPending, none),
         (StageGM, StageStatusPending, none)] := by
  obtain ⟨pr, rows, hprs, hid, hlive, hstat, hstage, -, hhist, hrows, hitems⟩ := create_ok h hok
  have hnew : ∀ q ∈ st.prs, q.ID ≠ st.prSeq + 1 := by
    intro q hq
    have := hfresh.1 q hq
    omega
  refine ⟨hitems, ?_, pr, ?_, hstat, hstage, ?_⟩
  · unfold firstPR
    rw [List.find?_eq_none]
    intro q hq
    simp [hnew q hq]
  · rw [hprs]
    exact firstPR_append_fresh st.prs _ pr hnew hid hlive
  · unfold recordsOf
    rw [hhist, List.filter_append]
    have hold : st.histories.filter
        (fun r => decide (r.PurchaseRequestID = st.prSeq + 1)) = [] := by
      rw [List.filter_eq_nil_iff]
      intro r hr
      have := hfresh.2 r hr
      simp
      omega
    have hrowsid : ∀ r ∈ rows, r.PurchaseRequestID = st.prSeq + 1 := by
      intro r hr
      have hmem : (r.PurchaseRequestID, r.Stage, r.Status, r.ApproverID) ∈
          rows.map (fun h => (h.PurchaseRequestID, h.Stage, h.Status, h.ApproverID)) :=
        List.mem_map.mpr ⟨r, hr, rfl⟩
      rw [hrows] at hmem
      simp [stages] at hmem
      rcases hmem with hm | hm | hm <;> exact hm.1
    have hnewrows : rows.filter (fun r => decide (r.PurchaseRequestID = st.prSeq + 1)) = rows := by
      rw [List.filter_eq_self]
      intro r hr
      simp [hrowsid r hr]
    rw [hold, hnewrows, List.nil_append]
    have hproj : rows.map (fun r => (r.Stage, r.Status, r.ApproverID)) =
        (rows.map (fun h => (h.PurchaseRequestID, h.Stage, h.Status, h.ApproverID))).map
          (fun t => t.2) := by
      rw [List.map_map]
      rfl
    rw [hproj, hrows]
    rfl

/-- C5: a successful create has at least one item; on a store whose keys are fresh
it adds a request under a key that named no request before, pending and at
Purchasing, and the stage records of that request are exactly three, for
Purchasing, Cost Control and GM in this order, each pending and without approver. -/
theorem create_success_effect (c : Ctx) (input : CreatePRInput) (st st' : Store)
    (resp : Response) (h : CreatePurchaseRequest c input st = (resp, st'))
    (hok : resp.status = 201) (hfresh : st.KeysFresh) :
    1 ≤ input.Items.length ∧ firstPR st.prs (st.prSeq + 1) = none ∧
    ∃ pr, firstPR st'.prs (st.prSeq + 1) = some pr ∧ pr.Status = PRStatusPending ∧
      pr.CurrentStage = StagePurchasing ∧
      (recordsOf st' (st.prSeq + 1)).map (fun r => (r.Stage, r.Status, r.ApproverID)) =
        [(StagePurchasing, StageStatusPending, none),
         (StageCostControl, StageStatusPending, none),
         (StageGM, StageStatusPending, none)] :=
  create_new_request c input st st' resp h hok hfresh

theorem keysFresh_empty : Store.empty.KeysFresh := by
  constructor <;> intro x hx <;> simp [Store.empty] at hx

/-- C5, on the scenario: the create with two items on the empty store gives
request 1, pending at Purchasing, with its three pending stage records. -/
theorem create_success_effect_witness :
    statusAndStage demoCreated 1 = some ("pending", "Purchasing") ∧
    (recordsOf demoCreated 1).map (fun r => (r.Stage, r.Status, r.ApproverID)) =
      [("Purchasing", "pending", none), ("Cost Control", "pending", none),
       ("GM", "pending", none)] := by
  obtain ⟨-, -, p, h1, h2, h3, h4⟩ :=
    create_success_effect (ctxOf 7 "tim_lapangan" 1) demoCreate Store.empty demoCreated _ rfl
      (by decide) keysFresh_empty
  refine ⟨?_, h4⟩
  have h1' : firstPR demoCreated.prs 1 = some p := h1
  simp [statusAndStage, h1', h2, h3, PRStatusPending, StagePurchasing]

/-! ## Claim C6: the current stage only moves forward -/

theorem stageMove_of_next (pr : PurchaseRequest) (next : String)
    (h : pr.GetNextStage = some next) : StageMove pr.CurrentStage next := by
  refine Or.inr ⟨h, ?_⟩
  unfold PurchaseRequest.GetNextStage nextStageOf at h
  by_cases h1 : pr.CurrentStage = StagePurchasing
  · rw [if_pos h1] at h
    cases h
    rw [h1]
    decide
  · rw [if_neg h1] at h
    by_cases h2 : pr.CurrentStage = StageCostControl
    · rw [if_pos h2] at h
      cases h
      rw [h2]
      decide
    · rw [if_neg h2] at h
      cases h

theorem stage_move_step (call : PRCall) (st : Store) (id : Nat) (pr : PurchaseRequest)
    (hpr : firstPR st.prs id = some pr) :
    ∃ pr', firstPR (call.apply st).2.prs id = some pr' ∧
      StageMove pr.CurrentStage pr'.CurrentStage := by
  rcases apply_effect call st with ⟨h1, -, -⟩ | ⟨id0, pr0, pr', status, uid, comment, now,
      -, -, hpr0, -, -, hprs, -, hdec⟩ | ⟨p, rows, hprs, -⟩
  · exact ⟨pr, by rw [h1]; exact hpr, Or.inl rfl⟩
  · rw [hprs]
    have hid0 := (firstPR_some hpr0).1
    by_cases hid : id0 = id
    · subst hid
      rw [hpr] at hpr0
      cases hpr0
      have hlive := (firstPR_some hpr).2.1
      refine ⟨_, firstPR_savePR_same hpr pr' now (hdec.1.trans hid0)
        (hdec.2.1.trans hlive), ?_⟩
      rcases hdec.2.2 with ⟨-, hnext, -⟩ | ⟨-, -, hsame, -⟩ | ⟨-, hsame, -⟩
      · exact stageMove_of_next pr _ hnext
      · exact Or.inl hsame
      · exact Or.inl hsame
    · refine ⟨pr, ?_, Or.inl rfl⟩
      rw [firstPR_savePR_other]
      · exact hpr
      · rw [hdec.1, hid0]
        exact hid
  · exact ⟨pr, by rw [hprs]; exact firstPR_append hpr _, Or.inl rfl⟩

theorem stageTrace_head (id : Nat) (st : Store) (calls : List PRCall) (pr : PurchaseRequest)
    (hpr : firstPR st.prs id = some pr) :
    ∃ l, stageTrace id st calls = pr.CurrentStage :: l := by
  cases calls with
  | nil => exact ⟨[], by simp [stageTrace, hpr]⟩
  | cons call rest => exact ⟨stageTrace id (call.apply st).2 rest, by simp [stageTrace, hpr]⟩

theorem stageTrace_chain (id : Nat) (calls : List PRCall) :
    ∀ st : Store, List.Chain' StageMove (stageTrace id st calls) := by
  induction calls with
  | nil =>
    intro st
    cases hpr : firstPR st.prs id <;> simp [stageTrace, hpr]
  | cons call rest ih =>
    intro st
    cases hpr : firstPR st.prs id with
    | none => simpa [stageTrace, hpr] using ih (call.apply st).2
    | some pr =>
      obtain ⟨pr', hpr', hmove⟩ := stage_move_step call st id pr hpr
      obtain ⟨l, hl⟩ := stageTrace_head id (call.apply st).2 rest pr' hpr'
      have hrest := ih (call.apply st).2
      rw [hl] at hrest
      simp only [stageTrace, hpr, Option.map_some', Option.toList_some, List.singleton_append,
        hl]
      exact List.Chain'.cons hmove hrest

/-- C6: along every sequence of create, approve, reject and comment calls, each
succeeding or failing, consecutive values of a request's current stage are equal
or the second is the stage `GetNextStage` gives for the first, one position further
in the order Purchasing, Cost Control, GM: no stage is skipped and none is
revisited: the positions of the values in that order never decrease. -/
theorem current_stage_only_advances (id : Nat) (calls : List PRCall) (st : Store) :
    List.Chain' StageMove (stageTrace id st calls) ∧
    List.Sorted (fun a b : Nat => a ≤ b) ((stageTrace id st calls).map stageIndex) := by
  have hchain := stageTrace_chain id calls st
  refine ⟨hchain, ?_⟩
  unfold List.Sorted
  rw [← List.chain'_iff_pairwise, List.chain'_map]
  refine List.Chain'.imp ?_ hchain
  intro a b hab
  rcases hab with hab | ⟨-, hab⟩
  · rw [hab]
  · omega

/-! ## The workflow invariant -/

theorem updateHistory_prids (hs : List ApprovalHistory) (prID : Nat) (stage status : String)
    (approverID : Nat) (comment : String) (now : Time) :
    (updateHistory hs prID stage status approverID comment now).map
        (fun h => (h.PurchaseRequestID, h.Stage)) =
      hs.map (fun h => (h.PurchaseRequestID, h.Stage)) := by
  unfold updateHistory
  rw [List.map_map]
  apply List.map_congr_left
  intro h _
  by_cases hm : h.PurchaseRequestID = prID ∧ h.Stage = stage <;> simp [hm]

theorem keysFresh_step (call : PRCall) (st : Store) (hfresh : st.KeysFresh) :
    (call.apply st).2.KeysFresh := by
  rcases apply_effect call st with ⟨h1, h2, h3⟩ | ⟨id0, pr0, pr', status, uid, comment, now,
      -, -, hpr0, -, hhist, hprs, hseq, hdec⟩ | ⟨p, rows, hprs, hid, -, -, -, hseq, hhist, hrows⟩
  · unfold Store.KeysFresh
    rw [h1, h2, h3]
    exact hfresh
  · unfold Store.KeysFresh
    rw [hprs, hhist, hseq]
    constructor
    · intro q hq
      have hmem : q.ID ∈ (savePR st.prs pr' now).map (fun q => q.ID) :=
        List.mem_map.mpr ⟨q, hq, rfl⟩
      rw [savePR_ids] at hmem
      obtain ⟨q0, hq0, he⟩ := List.mem_map.mp hmem
      rw [← he]
      exact hfresh.1 q0 hq0
    · intro r hr
      have hmem : (r.PurchaseRequestID, r.Stage) ∈
          (updateHistory st.histories id0 pr0.CurrentStage status uid comment now).map
            (fun h => (h.PurchaseRequestID, h.Stage)) := List.mem_map.mpr ⟨r, hr, rfl⟩
      rw [updateHistory_prids] at hmem
      obtain ⟨r0, hr0, he⟩ := List.mem_map.mp hmem
      have he1 : r0.PurchaseRequestID = r.PurchaseRequestID := congrArg Prod.fst he
      rw [← he1]
      exact hfresh.2 r0 hr0
  · unfold Store.KeysFresh
    rw [hprs, hhist, hseq]
    constructor
    · intro q hq
      rcases List.mem_append.mp hq with hq | hq
      · have := hfresh.1 q hq
        omega
      · simp at hq
        rw [hq, hid]
    · intro r hr
      rcases List.mem_append.mp hr with hr | hr
      · have := hfresh.2 r hr
        omega
      · have hmem : (r.PurchaseRequestID, r.Stage, r.Status, r.ApproverID) ∈
            rows.map (fun h => (h.PurchaseRequestID, h.Stage, h.Status, h.ApproverID)) :=
          List.mem_map.mpr ⟨r, hr, rfl⟩
        rw [hrows] at hmem
        obtain ⟨s0, -, he⟩ := List.mem_map.mp hmem
        have he1 : st.prSeq + 1 = r.PurchaseRequestID := congrArg Prod.fst he
        omega

theorem records_three {l : List ApprovalHistory} (h : l.map (fun r => r.Stage) = stages) :
    ∃ a b c, l = [a, b, c] ∧ a.Stage = StagePurchasing ∧ b.Stage = StageCostControl ∧
      c.Stage = StageGM := by
  rcases l with _ | ⟨a, _ | ⟨b, _ | ⟨c, _ | ⟨d, t⟩⟩⟩⟩ <;> simp [stages] at h
  exact ⟨a, b, c, rfl, h⟩

theorem recordsOf_key (st : Store) (id : Nat) (r : ApprovalHistory)
    (hr : r ∈ recordsOf st id) : r.PurchaseRequestID = id := by
  unfold recordsOf at hr
  simpa using (List.mem_filter.mp hr).2

theorem workflowInv_create (c : Ctx) (input : CreatePRInput) (st st' : Store)
    (resp : Response) (h : CreatePurchaseRequest c input st = (resp, st'))
    (hok : resp.status = 201) (hfresh : st.KeysFresh) :
    WorkflowInv st' (st.prSeq + 1) := by
  obtain ⟨-, -, pr, hpr, hstat, hstage, hrec⟩ :=
    create_new_request c input st st' resp h hok hfresh
  refine ⟨pr, hpr, ?_, ?_⟩
  · have := congrArg (List.map (fun t : String × String × Option Nat => t.1)) hrec
    simpa [List.map_map, Function.comp_def, stages] using this
  · have := congrArg (List.map (fun t : String × String × Option Nat => t.2.1)) hrec
    simp only [List.map_map, Function.comp_def, List.map_cons, List.map_nil] at this
    rw [this, hstat, hstage]
    simp [workflowStates]

theorem next_some (pr : PurchaseRequest) (x : String) (h : pr.GetNextStage = some x) :
    (pr.CurrentStage = StagePurchasing ∧ x = StageCostControl) ∨
    (pr.CurrentStage = StageCostControl ∧ x = StageGM) := by
  unfold PurchaseRequest.GetNextStage nextStageOf at h
  by_cases h1 : pr.CurrentStage = StagePurchasing
  · rw [if_pos h1] at h
    exact Or.inl ⟨h1, (Option.some.inj h).symm⟩
  · rw [if_neg h1] at h
    by_cases h2 : pr.CurrentStage = StageCostControl
    · rw [if_pos h2] at h
      exact Or.inr ⟨h2, (Option.some.inj h).symm⟩
    · rw [if_neg h2] at h
      cases h

theorem next_none (pr : PurchaseRequest) (h : pr.GetNextStage = none) :
    pr.CurrentStage ≠ StagePurchasing ∧ pr.CurrentStage ≠ StageCostControl := by
  unfold PurchaseRequest.GetNextStage nextStageOf at h
  by_cases h1 : pr.CurrentStage = StagePurchasing
  · rw [if_pos h1] at h
    cases h
  · rw [if_neg h1] at h
    by_cases h2 : pr.CurrentStage = StageCostControl
    · rw [if_pos h2] at h
      cases h
    · exact ⟨h1, h2⟩

/-- The table of workflow states is closed under a decision at the current stage of
a pending request. -/
theorem workflowStates_decision (a b c : ApprovalHistory) (id : Nat)
    (pr pr' : PurchaseRequest) (status : String) (uid : Nat) (comment : String) (now : Time)
    (ha : a.Stage = StagePurchasing) (hb : b.Stage = StageCostControl) (hc : c.Stage = StageGM)
    (hka : a.PurchaseRequestID = id) (hkb : b.PurchaseRequestID = id)
    (hkc : c.PurchaseRequestID = id) (hpend : pr.Status = PRStatusPending)
    (htable : (pr.Status, pr.CurrentStage, [a.Status, b.Status, c.Status]) ∈ workflowStates)
    (hdec : DecisionOn pr pr' status) :
    (pr'.Status, pr'.CurrentStage,
      (updateHistory [a, b, c] id pr.CurrentStage status uid comment now).map
        (fun r => r.Status)) ∈ workflowStates := by
  have htable' :
      (pr.CurrentStage = "Purchasing" ∧ a.Status = "pending" ∧ b.Status = "pending" ∧
        c.Status = "pending") ∨
      (pr.CurrentStage = "Cost Control" ∧ a.Status = "approved" ∧ b.Status = "pending" ∧
        c.Status = "pending") ∨
      (pr.CurrentStage = "GM" ∧ a.Status = "approved" ∧ b.Status = "approved" ∧
        c.Status = "pending") := by
    rw [hpend] at htable
    simpa [workflowStates, StagePurchasing, StageCostControl, StageGM, PRStatusPending,
      PRStatusApproved, PRStatusRejected, StageStatusPending, StageStatusApproved,
      StageStatusRejected] using htable
  have ha' : a.Stage = "Purchasing" := ha
  have hb' : b.Stage = "Cost Control" := hb
  have hc' : c.Stage = "GM" := hc
  rcases hdec.2.2 with ⟨hs, hnext, hst⟩ | ⟨hs, hnext, hcs, hst⟩ | ⟨hs, hcs, hst⟩
  · rw [hst, hpend, hs]
    rcases next_some pr _ hnext with ⟨hcur, hx⟩ | ⟨hcur, hx⟩
    · rcases htable' with ⟨-, h1, h2, h3⟩ | ⟨hcur', -⟩ | ⟨hcur', -⟩
      · rw [hx, hcur]
        simp [updateHistory, workflowStates, StagePurchasing, StageCostControl, StageGM,
          PRStatusPending, PRStatusApproved, PRStatusRejected, StageStatusPending,
          StageStatusApproved, StageStatusRejected, ha', hb', hc', hka, hkb, hkc, h1, h2, h3]
      · rw [hcur] at hcur'; exact absurd hcur' (by decide)
      · rw [hcur] at hcur'; exact absurd hcur' (by decide)
    · rcases htable' with ⟨hcur', -⟩ | ⟨-, h1, h2, h3⟩ | ⟨hcur', -⟩
      · rw [hcur] at hcur'; exact absurd hcur' (by decide)
      · rw [hx, hcur]
        simp [updateHistory, workflowStates, StagePurchasing, StageCostControl, StageGM,
          PRStatusPending, PRStatusApproved, PRStatusRejected, StageStatusPending,
          StageStatusApproved, StageStatusRejected, ha', hb', hc', hka, hkb, hkc, h1, h2, h3]
      · rw [hcur] at hcur'; exact absurd hcur' (by decide)
  · rw [hst, hcs, hs]
    obtain ⟨n1, n2⟩ := next_none pr hnext
    rcases htable' with ⟨hcur', -⟩ | ⟨hcur', -⟩ | ⟨hcur, h1, h2, h3⟩
    · exact absurd hcur' n1
    · exact absurd hcur' n2
    · rw [hcur]
      simp [updateHistory, workflowStates, StagePurchasing, StageCostControl, StageGM,
        PRStatusPending, PRStatusApproved, PRStatusRejected, StageStatusPending,
        StageStatusApproved, StageStatusRejected, ha', hb', hc', hka, hkb, hkc, h1, h2, h3]
  · rw [hst, hcs, hs]
    rcases htable' with ⟨hcur, h1, h2, h3⟩ | ⟨hcur, h1, h2, h3⟩ | ⟨hcur, h1, h2, h3⟩
    all_goals
      rw [hcur]
      simp [updateHistory, workflowStates, StagePurchasing, StageCostControl, StageGM,
        PRStatusPending, PRStatusApproved, PRStatusRejected, StageStatusPending,
        StageStatusApproved, StageStatusRejected, ha', hb', hc', hka, hkb, hkc, h1, h2, h3]

theorem workflowInv_step (call : PRCall) (st : Store) (id : Nat) (hfresh : st.KeysFresh)
    (hinv : WorkflowInv st id) : WorkflowInv (call.apply st).2 id := by
  obtain ⟨pr, hpr, hstages, htable⟩ := hinv
  rcases apply_effect call st with ⟨h1, h2, -⟩ | ⟨id0, pr0, pr', status, uid, comment, now,
      -, -, hpr0, hpend, hhist, hprs, -, hdec⟩ | ⟨p, rows, hprs, hid, -, -, -, -, hhist, hrows⟩
  · refine ⟨pr, by rw [h1]; exact hpr, ?_, ?_⟩
    · unfold recordsOf; rw [h2]; exact hstages
    · unfold recordsOf; rw [h2]; exact htable
  · have hid0 := (firstPR_some hpr0).1
    have hrec : recordsOf (call.apply st).2 id =
        updateHistory (recordsOf st id) id0 pr0.CurrentStage status uid comment now := by
      unfold recordsOf
      rw [hhist]
      exact filter_updateHistory st.histories id0 pr0.CurrentStage status uid comment now
        (fun a _ => decide (a = id))
    by_cases hid : id0 = id
    · subst hid
      rw [hpr] at hpr0
      cases hpr0
      have hlive := (firstPR_some hpr).2.1
      have hfirst := firstPR_savePR_same hpr pr' now (hdec.1.trans hid0) (hdec.2.1.trans hlive)
      rw [← hprs] at hfirst
      obtain ⟨a, b, c, habc, ha, hb, hc⟩ := records_three hstages
      have hka := recordsOf_key st id0 a (by rw [habc]; simp)
      have hkb := recordsOf_key st id0 b (by rw [habc]; simp)
      have hkc := recordsOf_key st id0 c (by rw [habc]; simp)
      refine ⟨_, hfirst, ?_, ?_⟩
      · rw [hrec]
        have := congrArg (List.map (fun t : Nat × String => t.2))
          (updateHistory_prids (recordsOf st id0) id0 pr.CurrentStage status uid comment now)
        simpa [List.map_map, Function.comp_def, hstages] using this
      · rw [hrec, habc]
        rw [habc] at htable
        exact workflowStates_decision a b c id0 pr pr' status uid comment now ha hb hc
          hka hkb hkc hpend htable hdec
    · have hsame : recordsOf (call.apply st).2 id = recordsOf st id := by
        rw [hrec]
        apply updateHistory_of_not_selected
        intro r hr hsel
        exact hid (hsel.1.symm.trans (recordsOf_key st id r hr))
      refine ⟨pr, ?_, by rw [hsame]; exact hstages, by rw [hsame]; exact htable⟩
      rw [hprs, firstPR_savePR_other]
      · exact hpr
      · rw [hdec.1, hid0]
        exact hid
  · have hle : id ≤ st.prSeq := by
      obtain ⟨hpid, -, hmem⟩ := firstPR_some hpr
      have := hfresh.1 pr hmem
      omega
    have hsame : recordsOf (call.apply st).2 id = recordsOf st id := by
      unfold recordsOf
      rw [hhist, List.filter_append]
      have hnone : rows.filter (fun r => decide (r.PurchaseRequestID = id)) = [] := by
        rw [List.filter_eq_nil_iff]
        intro r hr
        have hmem : (r.PurchaseRequestID, r.Stage, r.Status, r.ApproverID) ∈
            rows.map (fun h => (h.PurchaseRequestID, h.Stage, h.Status, h.ApproverID)) :=
          List.mem_map.mpr ⟨r, hr, rfl⟩
        rw [hrows] at hmem
        obtain ⟨s0, -, he⟩ := List.mem_map.mp hmem
        have he1 : st.prSeq + 1 = r.PurchaseRequestID := congrArg Prod.fst he
        simp
        omega
      rw [hnone, List.append_nil]
    exact ⟨pr, by rw [hprs]; exact firstPR_append hpr _, by rw [hsame]; exact hstages,
      by rw [hsame]; exact htable⟩

theorem reachable_inv (st : Store) (id : Nat) (h : Reachable st id) :
    st.KeysFresh ∧ WorkflowInv st id := by
  induction h with
  | create c input st0 hfresh hok =>
    exact ⟨keysFresh_step (.create c input) st0 hfresh,
      workflowInv_create c input st0 _ _ rfl hok hfresh⟩
  | step call st0 id0 _ ih =>
    exact ⟨keysFresh_step call st0 ih.1, workflowInv_step call st0 id0 ih.1 ih.2⟩

theorem stageRecords_eq (st : Store) (id : Nat) (stage : String) :
    stageRecords st id stage = (recordsOf st id).filter (fun r => decide (r.Stage = stage)) := by
  unfold stageRecords recordsOf
  rw [List.filter_filter]
  apply List.filter_congr
  intro r _
  rw [Bool.and_comm]

/-- Under the workflow invariant the record at the current stage carries the
status of the request. -/
theorem current_record_status (st : Store) (id : Nat) (pr : PurchaseRequest)
    (hinv : WorkflowInv st id) (hpr : firstPR st.prs id = some pr) :
    (stageRecords st id pr.CurrentStage).map (fun r => r.Status) = [pr.Status] := by
  obtain ⟨pr0, hpr0, hstages, htable⟩ := hinv
  rw [hpr] at hpr0
  cases hpr0
  obtain ⟨a, b, c, habc, ha, hb, hc⟩ := records_three hstages
  have ha' : a.Stage = "Purchasing" := ha
  have hb' : b.Stage = "Cost Control" := hb
  have hc' : c.Stage = "GM" := hc
  rw [stageRecords_eq, habc]
  rw [habc] at htable
  simp only [workflowStates, List.map_cons, List.map_nil, List.mem_cons, Prod.mk.injEq,
    List.cons.injEq, and_true, List.mem_singleton, List.not_mem_nil, or_false] at htable
  rcases htable with ⟨h0, hcur, h1, h2, h3⟩ | ⟨h0, hcur, h1, h2, h3⟩ | ⟨h0, hcur, h1, h2, h3⟩ |
    ⟨h0, hcur, h1, h2, h3⟩ | ⟨h0, hcur, h1, h2, h3⟩ | ⟨h0, hcur, h1, h2, h3⟩ |
    ⟨h0, hcur, h1, h2, h3⟩
  all_goals
    rw [hcur, h0]
    simp [List.filter_cons, StagePurchasing, StageCostControl, StageGM, PRStatusPending,
      PRStatusApproved, PRStatusRejected, StageStatusPending, StageStatusApproved,
      StageStatusRejected, ha', hb', hc', h1, h2, h3]

theorem finalised_step (call : PRCall) (st : Store) (id : Nat) (hinv : WorkflowInv st id)
    (i : Nat) (r : ApprovalHistory) (hr : st.histories[i]? = some r)
    (hid : r.PurchaseRequestID = id) (hfinal : r.Status ≠ PRStatusPending) :
    (call.apply st).2.histories[i]? = some r := by
  rcases apply_effect call st with ⟨-, h2, -⟩ | ⟨id0, pr0, pr', status, uid, comment, now,
      -, -, hpr0, hpend, hhist, -, -, -⟩ | ⟨p, rows, -, -, -, -, -, -, hhist, -⟩
  · rw [h2]; exact hr
  · rw [hhist]
    unfold updateHistory
    rw [List.getElem?_map, hr, Option.map_some']
    have hno : ¬ (r.PurchaseRequestID = id0 ∧ r.Stage = pr0.CurrentStage) := by
      rintro ⟨hk, hs⟩
      have hidd : id0 = id := hk.symm.trans hid
      subst hidd
      have hstat := current_record_status st id0 pr0 hinv hpr0
      have hmem : r ∈ stageRecords st id0 pr0.CurrentStage := by
        unfold stageRecords
        rw [List.mem_filter]
        exact ⟨List.getElem?_mem hr, by simp [hk, hs]⟩
      have hmem2 : r.Status ∈ (stageRecords st id0 pr0.CurrentStage).map (fun r => r.Status) :=
        List.mem_map.mpr ⟨r, hmem, rfl⟩
      rw [hstat, hpend] at hmem2
      simp at hmem2
      exact hfinal hmem2
    rw [if_neg hno]
  · rw [hhist]
    have hlt : i < st.histories.length := by
      by_contra hge
      rw [List.getElem?_eq_none (by omega)] at hr
      cases hr
    rw [List.getElem?_append_left hlt]
    exact hr

theorem finalised_run (calls : List PRCall) :
    ∀ (st : Store) (id : Nat), st.KeysFresh → WorkflowInv st id →
      ∀ (i : Nat) (r : ApprovalHistory), st.histories[i]? = some r →
        r.PurchaseRequestID = id → r.Status ≠ PRStatusPending →
        (runCalls st calls).histories[i]? = some r := by
  induction calls with
  | nil => intro st id _ _ i r hr _ _; exact hr
  | cons call rest ih =>
    intro st id hfresh hinv i r hr hid hfinal
    exact ih _ id (keysFresh_step call st hfresh) (workflowInv_step call st id hfresh hinv) i r
      (finalised_step call st id hinv i r hr hid hfinal) hid hfinal

theorem reachable_demoAtCostControl : Reachable demoAtCostControl 1 :=
  Reachable.step (.approve (ctxOf 8 "Purchasing" 2) 1 ⟨"Purchasing", "ok"⟩) demoCreated 1
    (Reachable.create (ctxOf 7 "tim_lapangan" 1) demoCreate Store.empty keysFresh_empty
      (by decide))

theorem reachable_demoApproved : Reachable demoApproved 1 :=
  Reachable.step (.approve (ctxOf 10 "GM" 4) 1 ⟨"GM", "ok"⟩) demoAtGM 1
    (Reachable.step (.approve (ctxOf 9 "Cost Control" 3) 1 ⟨"Cost Control", "ok"⟩)
      demoAtCostControl 1 reachable_demoAtCostControl)

/-! ## Claims C7 and C8 -/

/-- C7, as stated, fails: after the create and the three approvals request 1 is
approved with current stage GM, and its GM record is approved, not pending. -/
theorem current_stage_record_counterexample :
    Reachable demoApproved 1 ∧
    statusAndStage demoApproved 1 = some ("approved", "GM") ∧
    (stageRecords demoApproved 1 "GM").map (fun r => r.Status) = ["approved"] :=
  ⟨reachable_demoApproved, by decide, by decide⟩

/-- C7, amended: in every state reachable from a create by any calls, the request
has exactly one stage record for its current stage, and the outcome of that record
equals the status of the request: pending while the request is pending, approved
once it is approved, rejected once it is rejected. -/
theorem current_stage_record_follows_status (st : Store) (id : Nat) (pr : PurchaseRequest)
    (hreach : Reachable st id) (hpr : firstPR st.prs id = some pr) :
    (stageRecords st id pr.CurrentStage).map (fun r => r.Status) = [pr.Status] ∧
    (pr.Status = PRStatusPending →
      ∀ r ∈ stageRecords st id pr.CurrentStage, r.Status = StageStatusPending) := by
  have hstat := current_record_status st id pr (reachable_inv st id hreach).2 hpr
  refine ⟨hstat, ?_⟩
  intro hpend r hr
  have hmem : r.Status ∈ (stageRecords st id pr.CurrentStage).map (fun r => r.Status) :=
    List.mem_map.mpr ⟨r, hr, rfl⟩
  rw [hstat, hpend] at hmem
  simpa using hmem

/-- C7, amended, on the scenario: request 1 is pending at Cost Control after the
Purchasing approval, and its Cost Control record is pending. -/
theorem current_stage_record_follows_status_witness :
    statusAndStage demoAtCostControl 1 = some ("pending", "Cost Control") ∧
    (stageRecords demoAtCostControl 1 "Cost Control").map (fun r => r.Status) = ["pending"] := by
  cases hp : firstPR demoAtCostControl.prs 1 with
  | none => exact absurd hp (by decide)
  | some p =>
    have hs : statusAndStage demoAtCostControl 1 = some ("pending", "Cost Control") := by
      decide
    have hw := (current_stage_record_follows_status demoAtCostControl 1 p
      reachable_demoAtCostControl hp).1
    refine ⟨hs, ?_⟩
    simp only [statusAndStage, hp, Option.map_some', Option.some.injEq, Prod.mk.injEq] at hs
    rw [hs.1, hs.2] at hw
    exact hw

/-- C8: in every state reachable from a create by any calls, a stage record of the
request whose outcome is approved or rejected is the same row, field by field
(outcome, approver, comment, approval time), after any further sequence of calls. -/
theorem finalised_record_immutable (st : Store) (id : Nat) (hreach : Reachable st id)
    (i : Nat) (r : ApprovalHistory) (hr : st.histories[i]? = some r)
    (hid : r.PurchaseRequestID = id)
    (hfinal : r.Status = StageStatusApproved ∨ r.Status = StageStatusRejected)
    (calls : List PRCall) :
    (runCalls st calls).histories[i]? = some r := by
  obtain ⟨hfresh, hinv⟩ := reachable_inv st id hreach
  refine finalised_run calls st id hfresh hinv i r hr hid ?_
  rcases hfinal with h | h <;> rw [h] <;> decide

/-- C8, on the scenario: the Purchasing record of request 1, approved by user 8, is
unchanged after a second Purchasing approve, a Purchasing reject and the Cost
Control approve. -/
theorem finalised_record_immutable_witness :
    (demoAtCostControl.histories[0]?).map (fun r => (r.Stage, r.Status, r.ApproverID)) =
      some ("Purchasing", "approved", some 8) ∧
    (runCalls demoAtCostControl
      [.approve (ctxOf 12 "Purchasing" 5) 1 ⟨"Purchasing", "again"⟩,
       .reject (ctxOf 12 "Purchasing" 6) 1 ⟨"Purchasing", "no"⟩,
       .approve (ctxOf 9 "Cost Control" 7) 1 ⟨"Cost Control", "ok"⟩]).histories[0]? =
      demoAtCostControl.histories[0]? := by
  cases hr : demoAtCostControl.histories[0]? with
  | none => exact absurd hr (by decide)
  | some r =>
    have hs : (demoAtCostControl.histories[0]?).map
        (fun r => (r.PurchaseRequestID, r.Stage, r.Status, r.ApproverID)) =
        some (1, "Purchasing", "approved", some 8) := by decide
    simp only [hr, Option.map_some', Option.some.injEq, Prod.mk.injEq] at hs
    refine ⟨by simp [hs.2.1, hs.2.2.1, hs.2.2.2], ?_⟩
    exact finalised_record_immutable demoAtCostControl 1 reachable_demoAtCostControl 0 r hr
      hs.1 (Or.inl hs.2.2.1) _

/-! ## Claims C9 and C10: the stock of a material -/

/-- C9 fails on the code: on a store whose only material has stock 0, recording a
usage of quantity -5 succeeds and raises the stock to 5, adjusting the stock by -5
succeeds and brings it to 0, and deleting the usage succeeds and adds its quantity
-5 to the stock, which ends at -5. -/
theorem stock_negative_after_negative_usage :
    stockOf (ledgerStore 0) = some 0 ∧
    (negativeUsageStep1.1.status, stockOf negativeUsageStep1.2) = (201, some 5) ∧
    (negativeUsageStep2.1.status, stockOf negativeUsageStep2.2) = (200, some 0) ∧
    (negativeUsageStep3.1.status, stockOf negativeUsageStep3.2) = (200, some (-5)) := by
  decide!

/-- C10: for a usage request that carries its required fields and names an
existing project and an existing material, a quantity above the material's stock
is answered 400 "Insufficient material stock" and the whole store (stock, BOM
entries, usage events) is unchanged. -/
theorem record_usage_insufficient_stock (c : Ctx) (input : CreateUsageInput) (st : Store)
    (project : Project) (material : Material) (hbind : input.bindOK = true)
    (hproject : firstProject st.projects input.ProjectID = some project)
    (hmaterial : firstMaterial st.materials input.MaterialID = some material)
    (hq : material.Stock < input.Quantity) :
    CreateMaterialUsage c input st = (⟨400, "Insufficient material stock"⟩, st) := by
  unfold CreateMaterialUsage
  simp [hbind, hproject, hmaterial, hq]

/-- C10, on the scenario: 150 units asked of a stock of 100 are refused and the
stock stays 100. -/
theorem record_usage_insufficient_stock_witness :
    CreateMaterialUsage (ctxOf 7 "tim_lapangan" 1) (usageOf 150) (ledgerStore 100) =
      (⟨400, "Insufficient material stock"⟩, ledgerStore 100) ∧
    stockOf (ledgerStore 100) = some 100 :=
  ⟨record_usage_insufficient_stock (ctxOf 7 "tim_lapangan" 1) (usageOf 150) (ledgerStore 100)
    ⟨1, "Gudang", none⟩ _ (by decide) rfl rfl (by decide), by decide⟩

/-! ## Rows found and rows saved -/

/-- Saving over the rows a predicate selects: when the row found is selected and
the saved row satisfies the search, the search finds the saved row. -/
theorem find_map_same {α : Type} (p : α → Bool) (sel : α → Prop) [DecidablePred sel]
    (new : α) (l : List α) (x : α) (h : l.find? p = some x) (hsel : sel x)
    (hnew : p new = true) :
    (l.map (fun q => if sel q then new else q)).find? p = some new := by
  induction l with
  | nil => simp at h
  | cons q qs ih =>
    simp only [List.map_cons, List.find?_cons] at h ⊢
    by_cases hq : sel q
    · simp [hq, hnew]
    · cases hpq : p q with
      | true =>
        rw [hpq] at h
        simp only [Option.some.injEq] at h
        exact absurd (h ▸ hsel) hq
      | false =>
        rw [hpq] at h
        simp [hq, hpq, ih h]

/-- Saving over rows the search does not accept, by a row it does not accept,
leaves the search result alone. -/
theorem find_map_other {α : Type} (p : α → Bool) (sel : α → Prop) [DecidablePred sel]
    (new : α) (l : List α) (hsel : ∀ q ∈ l, sel q → p q = false) (hnew : p new = false) :
    (l.map (fun q => if sel q then new else q)).find? p = l.find? p := by
  induction l with
  | nil => rfl
  | cons q qs ih =>
    have ih' := ih (fun r hr => hsel r (List.mem_cons_of_mem _ hr))
    simp only [List.map_cons, List.find?_cons]
    by_cases hq : sel q
    · simp [hq, hnew, hsel q (List.mem_cons_self _ _) hq, ih']
    · simp [hq, ih']

theorem firstMaterial_some {ms : List Material} {id : Nat} {m : Material}
    (h : firstMaterial ms id = some m) : m.ID = id ∧ m.DeletedAt = none ∧ m ∈ ms := by
  unfold firstMaterial at h
  have h1 := List.find?_some h
  have h2 := List.mem_of_find?_eq_some h
  simp at h1
  exact ⟨h1.1, h1.2, h2⟩

theorem firstMaterial_saveMaterial {ms : List Material} {id : Nat} {m : Material}
    (h : firstMaterial ms id = some m) (m1 : Material) (now : Time)
    (hid : m1.ID = m.ID) (hlive : m1.DeletedAt = none) :
    firstMaterial (saveMaterial ms m1 now) id = some { m1 with UpdatedAt := now } := by
  obtain ⟨hmid, -, -⟩ := firstMaterial_some h
  unfold firstMaterial saveMaterial at *
  exact find_map_same _ (fun q => q.ID = m1.ID) { m1 with UpdatedAt := now } ms m h hid.symm
    (by simp [hid, hmid, hlive])

theorem firstBOMFor_some {bs : List BOM} {pid mid : Nat} {b : BOM}
    (h : firstBOMFor bs pid mid = some b) :
    b.ProjectID = pid ∧ b.MaterialID = mid ∧ b.DeletedAt = none ∧ b ∈ bs := by
  unfold firstBOMFor at h
  have h1 := List.find?_some h
  have h2 := List.mem_of_find?_eq_some h
  simp at h1
  exact ⟨h1.1.1, h1.1.2, h1.2, h2⟩

theorem firstBOMFor_saveBOM {bs : List BOM} {pid mid : Nat} {b : BOM}
    (h : firstBOMFor bs pid mid = some b) (b1 : BOM) (now : Time)
    (hid : b1.ID = b.ID) (hp : b1.ProjectID = b.ProjectID) (hm : b1.MaterialID = b.MaterialID)
    (hlive : b1.DeletedAt = none) :
    firstBOMFor (saveBOM bs b1 now) pid mid = some { b1 with UpdatedAt := now } := by
  obtain ⟨hbp, hbm, -, -⟩ := firstBOMFor_some h
  unfold firstBOMFor saveBOM at *
  exact find_map_same _ (fun q => q.ID = b1.ID) { b1 with UpdatedAt := now } bs b h hid.symm
    (by simp [hp, hm, hbp, hbm, hlive])

theorem firstBOM_some {bs : List BOM} {id : Nat} {b : BOM}
    (h : firstBOM bs id = some b) : b.ID = id ∧ b.DeletedAt = none ∧ b ∈ bs := by
  unfold firstBOM at h
  have h1 := List.find?_some h
  have h2 := List.mem_of_find?_eq_some h
  simp at h1
  exact ⟨h1.1, h1.2, h2⟩

theorem firstUsage_some {us : List MaterialUsage} {id : Nat} {u : MaterialUsage}
    (h : firstUsage us id = some u) : u.ID = id ∧ u.DeletedAt = none ∧ u ∈ us := by
  unfold firstUsage at h
  have h1 := List.find?_some h
  have h2 := List.mem_of_find?_eq_some h
  simp at h1
  exact ⟨h1.1, h1.2, h2⟩

theorem firstUsage_saveUsage {us : List MaterialUsage} {id : Nat} {u : MaterialUsage}
    (h : firstUsage us id = some u) (u1 : MaterialUsage) (now : Time)
    (hid : u1.ID = u.ID) (hlive : u1.DeletedAt = none) :
    firstUsage (saveUsage us u1 now) id = some { u1 with UpdatedAt := now } := by
  obtain ⟨huid, -, -⟩ := firstUsage_some h
  unfold firstUsage saveUsage at *
  exact find_map_same _ (fun q => q.ID = u1.ID) { u1 with UpdatedAt := now } us u h hid.symm
    (by simp [hid, huid, hlive])

theorem firstMaterial_saveMaterial_other (ms : List Material) (id2 : Nat) (m1 : Material)
    (now : Time) (hne : m1.ID ≠ id2) :
    firstMaterial (saveMaterial ms m1 now) id2 = firstMaterial ms id2 := by
  unfold firstMaterial saveMaterial
  apply find_map_other
  · intro q _ hq
    have : q.ID ≠ id2 := by rw [hq]; exact hne
    simp [this]
  · simp [hne]

/-! ## Claim C15: manual stock adjustment -/

/-- C15, as stated, fails: the stock of material 1 is 100 and the adjustment 0 would
leave it at 100, which is not negative, but the call is answered 400 as a request
without its required field; the store is unchanged. -/
theorem adjust_stock_zero_counterexample :
    stockOf (ledgerStore 100) = some 100 ∧
    UpdateMaterialStock (ctxOf 7 "manager" 1) 1 0 (ledgerStore 100) =
      (⟨400, bindError⟩, ledgerStore 100) := by
  refine ⟨by decide, ?_⟩
  simp [UpdateMaterialStock]

/-- C15, amended: for an existing material with stock `s` and a signed adjustment
`d`: when `d = 0` the answer is 400 (the required field is missing) and the store
is unchanged; when `d ≠ 0` and `s + d < 0` the answer is 400 "Insufficient stock"
and the store is unchanged; when `d ≠ 0` and `s + d ≥ 0`, the save succeeding, the
answer is 200 and the material's row is the old row with stock `s + d` (and the
bookkeeping time of the save), while every other material, every BOM row and
every usage event is as before. -/
theorem adjust_stock_effect (c : Ctx) (id : Nat) (d : ℚ) (st : Store) (material : Material)
    (hm : firstMaterial st.materials id = some material) :
    (d = 0 → UpdateMaterialStock c id d st = (⟨400, bindError⟩, st)) ∧
    (d ≠ 0 → material.Stock + d < 0 →
      UpdateMaterialStock c id d st = (⟨400, "Insufficient stock"⟩, st)) ∧
    (d ≠ 0 → ¬ material.Stock + d < 0 → c.fails 0 = false →
      (UpdateMaterialStock c id d st).1.status = 200 ∧
      firstMaterial (UpdateMaterialStock c id d st).2.materials id =
        some { material with Stock := material.Stock + d, UpdatedAt := c.now } ∧
      (∀ id2, id2 ≠ id → firstMaterial (UpdateMaterialStock c id d st).2.materials id2 =
        firstMaterial st.materials id2) ∧
      (UpdateMaterialStock c id d st).2.boms = st.boms ∧
      (UpdateMaterialStock c id d st).2.usages = st.usages) := by
  obtain ⟨hid, hlive, -⟩ := firstMaterial_some hm
  have hsame := firstMaterial_saveMaterial hm
    { material with Stock := material.Stock + d } c.now rfl hlive
  have hother : ∀ id2, id2 ≠ id →
      firstMaterial (saveMaterial st.materials
        { material with Stock := material.Stock + d } c.now) id2 =
      firstMaterial st.materials id2 := by
    intro id2 hne
    apply firstMaterial_saveMaterial_other
    exact fun e => hne (e.symm.trans hid)
  refine ⟨?_, ?_, ?_⟩
  · intro hd
    simp [UpdateMaterialStock, hd]
  · intro hd hneg
    simp [UpdateMaterialStock, hd, hm, hneg]
  · intro hd hnn hf
    unfold UpdateMaterialStock
    simp only [hd, hm, hnn, hf, if_false, Bool.false_eq_true]
    split
    · exact ⟨rfl, hsame, hother, rfl, rfl⟩
    · exact ⟨rfl, hsame, hother, rfl, rfl⟩

/-- C15, amended, on the scenario: a stock of 100 adjusted by -150 is refused and
stays 100; adjusted by -100, the boundary, it becomes 0; adjusted by -30 it becomes
70. -/
theorem adjust_stock_effect_witness :
    UpdateMaterialStock (ctxOf 7 "manager" 1) 1 (-150) (ledgerStore 100) =
      (⟨400, "Insufficient stock"⟩, ledgerStore 100) ∧
    (UpdateMaterialStock (ctxOf 7 "manager" 1) 1 (-100) (ledgerStore 100)).1.status = 200 ∧
    stockOf (UpdateMaterialStock (ctxOf 7 "manager" 1) 1 (-100) (ledgerStore 100)).2 =
      some 0 ∧
    (UpdateMaterialStock (ctxOf 7 "manager" 1) 1 (-30) (ledgerStore 100)).1.status = 200 ∧
    stockOf (UpdateMaterialStock (ctxOf 7 "manager" 1) 1 (-30) (ledgerStore 100)).2 =
      some 70 := by
  cases hm : firstMaterial (ledgerStore 100).materials 1 with
  | none => exact absurd hm (by decide)
  | some m =>
    have hs : stockOf (ledgerStore 100) = some 100 := by decide
    simp only [stockOf, hm, Option.map_some', Option.some.injEq] at hs
    have h1 := (adjust_stock_effect (ctxOf 7 "manager" 1) 1 (-150) (ledgerStore 100) m
      hm).2.1 (by norm_num) (by rw [hs]; norm_num)
    have h2 := (adjust_stock_effect (ctxOf 7 "manager" 1) 1 (-100) (ledgerStore 100) m
      hm).2.2 (by norm_num) (by rw [hs]; norm_num) rfl
    have h3 := (adjust_stock_effect (ctxOf 7 "manager" 1) 1 (-30) (ledgerStore 100) m
      hm).2.2 (by norm_num) (by rw [hs]; norm_num) rfl
    refine ⟨h1, h2.1, ?_, h3.1, ?_⟩
    · rw [stockOf, h2.2.1]
      simp only [Option.map_some', hs]
      norm_num
    · rw [stockOf, h3.2.1]
      simp only [Option.map_some', hs]
      norm_num

/-! ## Claims C17 and C18: creating a purchase request -/

theorem create_status (c : Ctx) (input : CreatePRInput) (st : Store) :
    (CreatePurchaseRequest c input st).1.status = 400 ∨
    (CreatePurchaseRequest c input st).1.status = 500 ∨
    (CreatePurchaseRequest c input st).1.status = 201 := by
  unfold CreatePurchaseRequest
  dsimp only
  repeat' split
  all_goals simp

/-- C17 fails on the code: the handler never looks the project up. On the store
without any project, the create for project 1 is answered 201 and persists the
request, its two items and its three stage records when the store accepts the
writes; when the store refuses the insert of the request, the answer is 500
"Failed to create purchase request"; and no create is ever answered 404, whatever
the context, the input and the store. -/
theorem create_without_project :
    firstProject Store.empty.projects demoCreate.ProjectID = none ∧
    (CreatePurchaseRequest (ctxOf 7 "tim_lapangan" 1) demoCreate Store.empty).1.status = 201 ∧
    (demoCreated.prs.map (fun p => (p.ID, p.ProjectID)), demoCreated.items.length,
      demoCreated.histories.length) = ([(1, 1)], 2, 3) ∧
    CreatePurchaseRequest (ctxFailing 0) demoCreate Store.empty =
      (⟨500, "Failed to create purchase request"⟩, Store.empty) ∧
    ∀ (c : Ctx) (input : CreatePRInput) (st : Store),
      (CreatePurchaseRequest c input st).1.status ≠ 404 := by
  refine ⟨by decide, by decide, by decide, by decide, ?_⟩
  intro c input st
  rcases create_status c input st with h | h | h <;> rw [h] <;> decide

theorem pad4_length (k : Nat) :
    (pad4 k).length = (4 - (toString k).length) + (toString k).length := by
  unfold pad4
  rw [String.length_append]
  have hmk : ∀ l : List Char, (String.mk l).length = l.length := fun _ => rfl
  rw [hmk, List.length_replicate]

theorem generatePRNumber_eq (now : Time) (st : Store) :
    generatePRNumber now st = "PR-" ++ toString now.Year ++ "-" ++ "0001" := by
  have hpad : pad4 (0 + 1) = "0001" := by decide
  show "PR-" ++ toString now.Year ++ "-" ++ pad4 (0 + 1) = _
  rw [hpad]

/-- C18 fails on the code: the count query fails on the repository's driver and its
error is not looked at, so the count stays 0 and every number is the one for
sequence 1. After the first create of 2024 one request of that year exists and
carries PR-2024-0001; the number generated for the next create is PR-2024-0001
again, not PR-2024-0002; the insert of that request, refused by the store as the
unique index on the number demands, is answered 500; and whatever the year and the
store, the number is "PR-" + year + "-0001". -/
theorem pr_number_ignores_count :
    prCountInYear ⟨2024, 5⟩ demoCreated = 1 ∧
    demoCreated.prs.map (fun p => p.PRNumber) = ["PR-2024-0001"] ∧
    generatePRNumber ⟨2024, 5⟩ demoCreated = "PR-2024-0001" ∧
    CreatePurchaseRequest (ctxFailing 0) demoCreate demoCreated =
      (⟨500, "Failed to create purchase request"⟩, demoCreated) ∧
    ∀ (now : Time) (st : Store),
      generatePRNumber now st = "PR-" ++ toString now.Year ++ "-" ++ "0001" := by
  refine ⟨by decide, by decide, by decide, ?_, generatePRNumber_eq⟩
  simp [CreatePurchaseRequest, ctxFailing, demoCreate, CreatePRInput.bindOK]

/-! ## Claims C19 and C20: BOM entries -/

theorem firstBOMFor_append_new (bs : List BOM) (pid mid : Nat) (b : BOM)
    (hnone : firstBOMFor bs pid mid = none) (hp : b.ProjectID = pid) (hm : b.MaterialID = mid)
    (hlive : b.DeletedAt = none) : firstBOMFor (bs ++ [b]) pid mid = some b := by
  unfold firstBOMFor at *
  rw [List.find?_append, hnone]
  simp [hp, hm, hlive]

/-- C19, as stated, fails: project 1 and material 1 exist and have no BOM entry, but
the request with planned quantity 0 is answered 400 as a request without its
required field, and no entry is created. -/
theorem add_entry_zero_counterexample :
    firstBOMFor (ledgerStore 100).boms 1 1 = none ∧
    CreateBOM (ctxOf 7 "manager" 1) ⟨1, 1, 0, "", ""⟩ (ledgerStore 100) =
      (⟨400, bindError⟩, ledgerStore 100) := by
  refine ⟨by decide, ?_⟩
  simp [CreateBOM, CreateBOMInput.bindOK]

/-- C19, amended: for a BOM request that names an existing project and an existing
material: when the planned quantity (or one of the two keys) is zero the answer is
400 (a required field is missing) and the store is unchanged; otherwise, when a
live entry for the pair exists the answer is 400 "BOM item for this material
already exists in this project" and the store is unchanged; and when none exists,
the create succeeding, the answer is 201 and the table gains one row, the entry of
the pair, with the planned quantity of the request, used quantity 0, actual cost
0, remaining quantity equal to the planned quantity and estimated cost planned
quantity times the material's unit price. -/
theorem add_entry_effect (c : Ctx) (input : CreateBOMInput) (st : Store) (project : Project)
    (material : Material)
    (hproject : firstProject st.projects input.ProjectID = some project)
    (hmaterial : firstMaterial st.materials input.MaterialID = some material) :
    (input.ProjectID = 0 ∨ input.MaterialID = 0 ∨ input.PlannedQty = 0 →
      CreateBOM c input st = (⟨400, bindError⟩, st)) ∧
    (input.ProjectID ≠ 0 → input.MaterialID ≠ 0 → input.PlannedQty ≠ 0 →
      ∀ existing, firstBOMFor st.boms input.ProjectID input.MaterialID = some existing →
        CreateBOM c input st =
          (⟨400, "BOM item for this material already exists in this project"⟩, st)) ∧
    (input.ProjectID ≠ 0 → input.MaterialID ≠ 0 → input.PlannedQty ≠ 0 →
      firstBOMFor st.boms input.ProjectID input.MaterialID = none → c.fails 0 = false →
      (CreateBOM c input st).1.status = 201 ∧
      ∃ b, (CreateBOM c input st).2.boms = st.boms ++ [b] ∧
        firstBOMFor (CreateBOM c input st).2.boms input.ProjectID input.MaterialID = some b ∧
        b.PlannedQty = input.PlannedQty ∧ b.UsedQty = 0 ∧ b.ActualCost = 0 ∧
        b.RemainingQty = input.PlannedQty ∧
        b.EstimatedCost = input.PlannedQty * material.UnitPrice) := by
  refine ⟨?_, ?_, ?_⟩
  · intro hzero
    have hbind : input.bindOK = false := by
      rcases hzero with h | h | h <;> simp [CreateBOMInput.bindOK, h]
    simp [CreateBOM, hbind]
  · intro hp hmid hq existing hex
    have hbind : input.bindOK = true := by simp [CreateBOMInput.bindOK, hp, hmid, hq]
    simp [CreateBOM, hbind, hproject, hmaterial, hex]
  · intro hp hmid hq hnone hf
    have hbind : input.bindOK = true := by simp [CreateBOMInput.bindOK, hp, hmid, hq]
    have hres : CreateBOM c input st = (⟨201, ""⟩,
        { st with
          boms := st.boms ++ [newBOM (st.bomSeq + 1) input.ProjectID input.MaterialID
            input.PlannedQty material.UnitPrice input.Phase input.Notes c.now]
          bomSeq := st.bomSeq + 1 }) := by
      simp [CreateBOM, hbind, hproject, hmaterial, hnone, hf]
    rw [hres]
    refine ⟨rfl, _, rfl, ?_, rfl, rfl, rfl, rfl, rfl⟩
    exact firstBOMFor_append_new st.boms _ _ _ hnone rfl rfl rfl

/-- C19, amended, on the scenario: a second entry for project 1 and material 1 is
refused; on the store without the entry, planning 200 units at unit price 10
gives an entry with remaining quantity 200 and estimated cost 2000, and planning
-5 units gives an entry with remaining quantity -5 and estimated cost -50. -/
theorem add_entry_effect_witness :
    CreateBOM (ctxOf 7 "manager" 1) ⟨1, 1, 50, "", ""⟩ siteStore =
      (⟨400, "BOM item for this material already exists in this project"⟩, siteStore) ∧
    bomFigures (CreateBOM (ctxOf 7 "manager" 1) ⟨1, 1, 200, "", ""⟩ (ledgerStore 100)).2 =
      some (200, 0, 200, 2000, 0) ∧
    (CreateBOM (ctxOf 7 "manager" 1) ⟨1, 1, -5, "", ""⟩ (ledgerStore 100)).1.status = 201 ∧
    bomFigures (CreateBOM (ctxOf 7 "manager" 1) ⟨1, 1, -5, "", ""⟩ (ledgerStore 100)).2 =
      some (-5, 0, -5, -50, 0) := by
  cases hm : firstMaterial (ledgerStore 100).materials 1 with
  | none => exact absurd hm (by decide)
  | some m =>
    cases hb : firstBOMFor siteStore.boms 1 1 with
    | none => exact absurd hb (by decide!)
    | some b =>
      have h1 := (add_entry_effect (ctxOf 7 "manager" 1) ⟨1, 1, 50, "", ""⟩ siteStore
        ⟨1, "Gudang", none⟩ m rfl hm).2.1 (by decide) (by decide) (by norm_num) b hb
      have h2 := (add_entry_effect (ctxOf 7 "manager" 1) ⟨1, 1, -5, "", ""⟩ (ledgerStore 100)
        ⟨1, "Gudang", none⟩ m rfl hm).2.2 (by decide) (by decide) (by norm_num) (by decide) rfl
      exact ⟨h1, by decide!, h2.1, by decide!⟩

/-- The usage event `CreateMaterialUsage` builds. -/
theorem record_usage_ok {c : Ctx} {input : CreateUsageInput} {st st' : Store}
    {resp : Response} (h : CreateMaterialUsage c input st = (resp, st'))
    (hok : resp.status = 201) :
    ∃ project material, firstProject st.projects input.ProjectID = some project ∧
      firstMaterial st.materials input.MaterialID = some material ∧
      input.bindOK = true ∧ ¬ material.Stock < input.Quantity ∧
      c.fails 0 = false ∧ c.fails 1 = false ∧ c.fails 3 = false ∧
      st'.materials = saveMaterial st.materials
        { material with Stock := material.Stock - input.Quantity } c.now ∧
      st'.usages = st.usages ++
        [{ ID := st.usageSeq + 1, ProjectID := input.ProjectID, MaterialID := input.MaterialID,
           DailyReportID := input.DailyReportID, Quantity := input.Quantity,
           Cost := input.Quantity * material.UnitPrice,
           UsageDate := (match input.UsageDate with
             | some d => d
             | none => c.now),
           UsedBy := c.userID, Notes := input.Notes, CreatedAt := c.now, UpdatedAt := c.now,
           DeletedAt := none }] ∧
      st'.boms = (match firstBOMFor st.boms input.ProjectID input.MaterialID with
        | some bom =>
          if c.fails 2 = true then st.boms
          else saveBOM st.boms (BOM.UpdateRemainingQty
            { bom with UsedQty := bom.UsedQty + input.Quantity
                       ActualCost := bom.ActualCost + input.Quantity * material.UnitPrice })
            c.now
        | none => st.boms) ∧
      st'.notifications =
        (if Material.IsLowStock
            { material with Stock := material.Stock - input.Quantity } = true then
          (createLowStockNotification material.ID material.Name
            (material.Stock - input.Quantity) material.MinStock st).notifications
         else st.notifications) ∧
      st'.usageSeq = st.usageSeq + 1 ∧ st'.projects = st.projects ∧
      st'.bomSeq = st.bomSeq := by
  unfold CreateMaterialUsage at h
  dsimp only at h
  repeat' split at h
  all_goals first
    | (cases h; simp at hok; done)
    | (cases h
       refine ⟨_, _, by assumption, by assumption, ?_⟩
       simp_all [createLowStockNotification])

/-- C11: a usage recorded with answer 201 is a usage of a quantity `q` not above
the stock `s` of an existing material with unit price `p`. The material's row
becomes the old row with stock `s - q`; the usage table gains one event with
quantity `q` and cost `q * p`; the BOM entry of the pair, when there is one and
its save does not fail, becomes the old row with used quantity raised by `q`,
actual cost raised by `q * p` and remaining quantity planned minus the new used
quantity (without an entry the BOM table is unchanged); and the low-stock
notifications (one for every user of the notified roles) are appended exactly when
`s - q` is at most the threshold. -/
theorem record_usage_effect (c : Ctx) (input : CreateUsageInput) (st st' : Store)
    (resp : Response) (h : CreateMaterialUsage c input st = (resp, st'))
    (hok : resp.status = 201) :
    ∃ material, firstMaterial st.materials input.MaterialID = some material ∧
      input.Quantity ≤ material.Stock ∧
      firstMaterial st'.materials input.MaterialID =
        some { material with Stock := material.Stock - input.Quantity, UpdatedAt := c.now } ∧
      (∃ e, st'.usages = st.usages ++ [e] ∧ e.ProjectID = input.ProjectID ∧
        e.MaterialID = input.MaterialID ∧ e.Quantity = input.Quantity ∧
        e.Cost = input.Quantity * material.UnitPrice ∧ e.DeletedAt = none) ∧
      (∀ bom, firstBOMFor st.boms input.ProjectID input.MaterialID = some bom →
        c.fails 2 = false →
        firstBOMFor st'.boms input.ProjectID input.MaterialID =
          some { bom with UsedQty := bom.UsedQty + input.Quantity
                          ActualCost := bom.ActualCost + input.Quantity * material.UnitPrice
                          RemainingQty := bom.PlannedQty - (bom.UsedQty + input.Quantity)
                          UpdatedAt := c.now }) ∧
      (firstBOMFor st.boms input.ProjectID input.MaterialID = none → st'.boms = st.boms) ∧
      (material.Stock - input.Quantity ≤ material.MinStock →
        st'.notifications = (createLowStockNotification material.ID material.Name
          (material.Stock - input.Quantity) material.MinStock st).notifications) ∧
      (¬ material.Stock - input.Quantity ≤ material.MinStock →
        st'.notifications = st.notifications) := by
  obtain ⟨project, material, -, hm, -, hq, -, -, -, hmat, huse, hbom, hnot, -⟩ :=
    record_usage_ok h hok
  obtain ⟨-, hlive, -⟩ := firstMaterial_some hm
  refine ⟨material, hm, not_lt.mp hq, ?_, ⟨_, huse, rfl, rfl, rfl, rfl, rfl⟩, ?_, ?_, ?_, ?_⟩
  · rw [hmat]
    exact firstMaterial_saveMaterial hm _ c.now rfl hlive
  · intro bom hb hf
    obtain ⟨-, -, hblive, -⟩ := firstBOMFor_some hb
    rw [hbom, hb]
    simp only [hf, Bool.false_eq_true, if_false]
    exact firstBOMFor_saveBOM hb _ c.now rfl rfl rfl hblive
  · intro hb
    rw [hbom, hb]
  · intro hlow
    rw [hnot, if_pos (by simpa [Material.IsLowStock] using hlow)]
  · intro hlow
    rw [hnot, if_neg (by simpa [Material.IsLowStock] using hlow)]

/-- C11, on the scenario: 90 units taken from a stock of 100 with threshold 20 leave
a stock of 10, store an event of quantity 90 and cost 900, raise the used quantity
of the BOM entry from 0 to 90 and its actual cost to 900 with 110 remaining, and
notify user 3. -/
theorem record_usage_effect_witness :
    stockOf recorded90.2 = some 10 ∧
    usageFigures recorded90.2 = [(90, 900)] ∧
    bomFigures recorded90.2 = some (200, 90, 110, 2000, 900) ∧
    recorded90.2.notifications.map (fun n => (n.UserID, n.Title)) =
      [(3, "Low Stock Alert")] := by
  cases hm : firstMaterial siteStore.materials 1 with
  | none => exact absurd hm (by decide)
  | some m =>
    have hs : stockOf siteStore = some 100 := by decide
    simp only [stockOf, hm, Option.map_some', Option.some.injEq] at hs
    obtain ⟨m1, hm1, -, hstock, -⟩ :=
      record_usage_effect (ctxOf 7 "tim_lapangan" 1) (usageOf 90) siteStore recorded90.2
        recorded90.1 rfl (by decide!)
    have hmm : m1 = m := Option.some.inj (hm1.symm.trans hm)
    subst hmm
    have hstock' : stockOf recorded90.2 = some (m1.Stock - 90) := by
      rw [stockOf]
      exact congrArg (Option.map (fun m => m.Stock)) hstock
    rw [hs] at hstock'
    refine ⟨?_, by decide!, by decide!, by decide!⟩
    rw [hstock']
    norm_num

/-- C14 fails on the code: with the save of the BOM row failing and every other
write succeeding, recording 90 units is answered 201, the stock is persisted as
10 and the usage event is persisted, while the BOM entry of the pair keeps used
quantity 0, actual cost 0 and remaining quantity 200. -/
theorem record_usage_partial_on_bom_failure :
    bomFigures siteStore = some (200, 0, 200, 2000, 0) ∧
    (CreateMaterialUsage (ctxFailing 2) (usageOf 90) siteStore).1.status = 201 ∧
    stockOf (CreateMaterialUsage (ctxFailing 2) (usageOf 90) siteStore).2 = some 10 ∧
    usageFigures (CreateMaterialUsage (ctxFailing 2) (usageOf 90) siteStore).2 = [(90, 900)] ∧
    bomFigures (CreateMaterialUsage (ctxFailing 2) (usageOf 90) siteStore).2 =
      some (200, 0, 200, 2000, 0) := by
  decide!

/-! ## Claim C13: updating a usage -/

theorem update_usage_ok {c : Ctx} {id : Nat} {input : UpdateUsageInput} {st st' : Store}
    {resp : Response} (h : UpdateMaterialUsage c id input st = (resp, st'))
    (hok : resp.status = 200) :
    ∃ usage, firstUsage st.usages id = some usage ∧
      ((0 < input.Quantity ∧ input.Quantity ≠ usage.Quantity ∧
        ∃ material, firstMaterial st.materials usage.MaterialID = some material ∧
          ¬ (0 < input.Quantity - usage.Quantity ∧
              material.Stock < input.Quantity - usage.Quantity) ∧
          st'.materials = saveMaterial st.materials
            { material with Stock := material.Stock - (input.Quantity - usage.Quantity) }
            c.now ∧
          st'.boms = (match firstBOMFor st.boms usage.ProjectID usage.MaterialID with
            | some bom =>
              if c.fails 1 = true then st.boms
              else saveBOM st.boms (BOM.UpdateRemainingQty
                { bom with UsedQty := bom.UsedQty + (input.Quantity - usage.Quantity)
                           ActualCost := bom.ActualCost +
                             (input.Quantity - usage.Quantity) * material.UnitPrice })
                c.now
            | none => st.boms) ∧
          ∃ u1, st'.usages = saveUsage st.usages u1 c.now ∧ u1.ID = usage.ID ∧
            u1.DeletedAt = usage.DeletedAt ∧ u1.Quantity = input.Quantity ∧
            u1.Cost = input.Quantity * material.UnitPrice) ∨
       (¬ (0 < input.Quantity ∧ input.Quantity ≠ usage.Quantity) ∧
        st'.materials = st.materials ∧ st'.boms = st.boms ∧
        ∃ u1, st'.usages = saveUsage st.usages u1 c.now ∧ u1.ID = usage.ID ∧
          u1.DeletedAt = usage.DeletedAt ∧ u1.Quantity = usage.Quantity ∧
          u1.Cost = usage.Cost)) := by
  unfold UpdateMaterialUsage at h
  dsimp only at h
  repeat' split at h
  all_goals first
    | (cases h; simp at hok; done)
    | (cases h
       refine ⟨_, by assumption, ?_⟩
       first
         | (refine Or.inr ⟨by assumption, rfl, rfl, _, rfl, rfl, rfl, rfl, rfl⟩)
         | (refine Or.inl ⟨?_, ?_, _, by assumption, by assumption, ?_, ?_,
              _, rfl, rfl, rfl, rfl, rfl⟩ <;> simp_all))

/-- C13, as stated, fails: usage 1 has quantity 90 and the stock is 10. An update
to the new quantity 0, and one to the new quantity -3, are answered 200 and leave
the event's quantity at 90 and the stock at 10. -/
theorem update_usage_nonpositive_counterexample :
    usageFigures recorded90.2 = [(90, 900)] ∧ stockOf recorded90.2 = some 10 ∧
    (UpdateMaterialUsage (ctxOf 7 "tim_lapangan" 2) 1 ⟨0, none, ""⟩ recorded90.2).1.status =
      200 ∧
    usageFigures (UpdateMaterialUsage (ctxOf 7 "tim_lapangan" 2) 1 ⟨0, none, ""⟩
      recorded90.2).2 = [(90, 900)] ∧
    stockOf (UpdateMaterialUsage (ctxOf 7 "tim_lapangan" 2) 1 ⟨0, none, ""⟩
      recorded90.2).2 = some 10 ∧
    (UpdateMaterialUsage (ctxOf 7 "tim_lapangan" 2) 1 ⟨-3, none, ""⟩ recorded90.2).1.status =
      200 ∧
    usageFigures (UpdateMaterialUsage (ctxOf 7 "tim_lapangan" 2) 1 ⟨-3, none, ""⟩
      recorded90.2).2 = [(90, 900)] ∧
    stockOf (UpdateMaterialUsage (ctxOf 7 "tim_lapangan" 2) 1 ⟨-3, none, ""⟩
      recorded90.2).2 = some 10 := by
  decide!

/-- What a 200 answer of `UpdateMaterialUsage` means for the stock, the event and
the BOM entry, and the refusal of an increase beyond the stock. -/
theorem update_usage_changes (c : Ctx) (id : Nat) (input : UpdateUsageInput) (st st' : Store)
    (resp : Response) (usage : MaterialUsage) (material : Material)
    (h : UpdateMaterialUsage c id input st = (resp, st'))
    (husage : firstUsage st.usages id = some usage)
    (hmaterial : firstMaterial st.materials usage.MaterialID = some material) :
    (0 < input.Quantity → 0 < input.Quantity - usage.Quantity →
      material.Stock < input.Quantity - usage.Quantity →
      resp = ⟨400, "Insufficient material stock for this adjustment"⟩ ∧ st' = st) ∧
    (0 < input.Quantity → resp.status = 200 →
      (firstMaterial st'.materials usage.MaterialID).map (fun m => m.Stock) =
        some (material.Stock - (input.Quantity - usage.Quantity)) ∧
      (∃ u, firstUsage st'.usages id = some u ∧ u.Quantity = input.Quantity) ∧
      (input.Quantity ≠ usage.Quantity →
        ∀ bom, firstBOMFor st.boms usage.ProjectID usage.MaterialID = some bom →
          c.fails 1 = false →
          firstBOMFor st'.boms usage.ProjectID usage.MaterialID =
            some { bom with
              UsedQty := bom.UsedQty + (input.Quantity - usage.Quantity)
              ActualCost := bom.ActualCost +
                (input.Quantity - usage.Quantity) * material.UnitPrice
              RemainingQty := bom.PlannedQty -
                (bom.UsedQty + (input.Quantity - usage.Quantity))
              UpdatedAt := c.now }) ∧
      (input.Quantity = usage.Quantity → st'.boms = st.boms)) ∧
    (¬ 0 < input.Quantity → resp.status = 200 →
      st'.materials = st.materials ∧ st'.boms = st.boms ∧
      ∃ u, firstUsage st'.usages id = some u ∧ u.Quantity = usage.Quantity ∧
        u.Cost = usage.Cost) := by
  obtain ⟨-, hulive, -⟩ := firstUsage_some husage
  obtain ⟨-, hmlive, -⟩ := firstMaterial_some hmaterial
  refine ⟨?_, ?_, ?_⟩
  · intro hpos hd hs
    have hne : input.Quantity ≠ usage.Quantity := by
      intro e
      rw [e, sub_self] at hd
      exact lt_irrefl _ hd
    have hres : UpdateMaterialUsage c id input st =
        (⟨400, "Insufficient material stock for this adjustment"⟩, st) := by
      simp [UpdateMaterialUsage, husage, hmaterial, hpos, hne, hd, hs]
    rw [hres] at h
    cases h
    exact ⟨rfl, rfl⟩
  · intro hpos hok
    obtain ⟨usage0, hu0, hcase⟩ := update_usage_ok h hok
    have hue : usage0 = usage := Option.some.inj (hu0.symm.trans husage)
    subst hue
    rcases hcase with ⟨-, hne, m0, hm0, -, hmat, hbom, u1, huse, hid1, hlive1, hq1, -⟩ |
      ⟨hnot, hmat, hbom, u1, huse, hid1, hlive1, hq1, -⟩
    · have hme : m0 = material := Option.some.inj (hm0.symm.trans hmaterial)
      subst hme
      refine ⟨?_, ⟨{ u1 with UpdatedAt := c.now }, ?_, hq1⟩, ?_, ?_⟩
      · rw [hmat, firstMaterial_saveMaterial hm0
          { m0 with Stock := m0.Stock - (input.Quantity - usage0.Quantity) } c.now rfl hmlive]
        rfl
      · rw [huse]
        exact firstUsage_saveUsage husage u1 c.now hid1 (hlive1.trans hulive)
      · intro _ bom hb hf
        obtain ⟨-, -, hblive, -⟩ := firstBOMFor_some hb
        rw [hbom, hb]
        simp only [hf, Bool.false_eq_true, if_false]
        exact firstBOMFor_saveBOM hb _ c.now rfl rfl rfl hblive
      · intro e
        exact absurd e hne
    · have heq : input.Quantity = usage0.Quantity := by
        by_contra hne
        exact hnot ⟨hpos, hne⟩
      refine ⟨?_, ⟨{ u1 with UpdatedAt := c.now }, ?_, hq1.trans heq.symm⟩, ?_, ?_⟩
      · rw [hmat, hmaterial, heq, sub_self, sub_zero]
        rfl
      · rw [huse]
        exact firstUsage_saveUsage husage u1 c.now hid1 (hlive1.trans hulive)
      · intro hne
        exact absurd heq hne
      · intro _
        exact hbom
  · intro hnpos hok
    obtain ⟨usage0, hu0, hcase⟩ := update_usage_ok h hok
    have hue : usage0 = usage := Option.some.inj (hu0.symm.trans husage)
    subst hue
    rcases hcase with ⟨hpos, -⟩ | ⟨-, hmat, hbom, u1, huse, hid1, hlive1, hq1, hc1⟩
    · exact absurd hpos hnpos
    · refine ⟨hmat, hbom, { u1 with UpdatedAt := c.now }, ?_, hq1, hc1⟩
      rw [huse]
      exact firstUsage_saveUsage husage u1 c.now hid1 (hlive1.trans hulive)


theorem update_usage_status (c : Ctx) (id : Nat) (input : UpdateUsageInput) (st : Store)
    (usage : MaterialUsage) (material : Material)
    (husage : firstUsage st.usages id = some usage)
    (hmaterial : firstMaterial st.materials usage.MaterialID = some material)
    (hstock : ¬ (0 < input.Quantity ∧ 0 < input.Quantity - usage.Quantity ∧
      material.Stock < input.Quantity - usage.Quantity))
    (h0 : 0 < input.Quantity → c.fails 0 = false) (h2 : c.fails 2 = false)
    (h3 : c.fails 3 = false) :
    (UpdateMaterialUsage c id input st).1.status = 200 := by
  unfold UpdateMaterialUsage
  simp only [husage]
  by_cases hq : 0 < input.Quantity ∧ input.Quantity ≠ usage.Quantity
  · have hs : ¬ (0 < input.Quantity - usage.Quantity ∧
        material.Stock < input.Quantity - usage.Quantity) := fun hh => hstock ⟨hq.1, hh⟩
    rw [if_pos hq]
    simp only [hmaterial]
    rw [if_neg hs]
    simp only [h0 hq.1, h2, h3, Bool.false_eq_true, if_false]
  · rw [if_neg hq]
    simp only [h2, h3, Bool.false_eq_true, if_false]

/-- C13, amended: for a usage event with quantity `old` of an existing material
with stock `s` and unit price `p`, and an update with new quantity `q`, let
`delta = q - old`. When `q > 0`, `delta > 0` and `delta > s`, the answer is 400
"Insufficient material stock for this adjustment" and the store is unchanged.
When `q > 0` and not (`delta > 0` and `delta > s`), the writes of the material, of
the event and the commit succeeding, the answer is 200, the stock becomes
`s - delta`, the event's quantity becomes `q`, and, when `q` differs from `old`,
the BOM entry of the pair (its save not failing) becomes the old row with used
quantity raised by `delta`, actual cost raised by `delta * p` and remaining
quantity planned minus the new used quantity. When `q` is zero or negative, the
write of the event and the commit succeeding, the answer is 200, materials and
BOM entries are unchanged and the event keeps its quantity and cost. -/
theorem update_usage_effect (c : Ctx) (id : Nat) (input : UpdateUsageInput) (st st' : Store)
    (resp : Response) (usage : MaterialUsage) (material : Material)
    (h : UpdateMaterialUsage c id input st = (resp, st'))
    (husage : firstUsage st.usages id = some usage)
    (hmaterial : firstMaterial st.materials usage.MaterialID = some material) :
    (0 < input.Quantity → 0 < input.Quantity - usage.Quantity →
      material.Stock < input.Quantity - usage.Quantity →
      resp = ⟨400, "Insufficient material stock for this adjustment"⟩ ∧ st' = st) ∧
    (0 < input.Quantity →
      ¬ (0 < input.Quantity - usage.Quantity ∧
        material.Stock < input.Quantity - usage.Quantity) →
      c.fails 0 = false → c.fails 2 = false → c.fails 3 = false →
      resp.status = 200 ∧
      (firstMaterial st'.materials usage.MaterialID).map (fun m => m.Stock) =
        some (material.Stock - (input.Quantity - usage.Quantity)) ∧
      (∃ u, firstUsage st'.usages id = some u ∧ u.Quantity = input.Quantity) ∧
      (input.Quantity ≠ usage.Quantity →
        ∀ bom, firstBOMFor st.boms usage.ProjectID usage.MaterialID = some bom →
          c.fails 1 = false →
          firstBOMFor st'.boms usage.ProjectID usage.MaterialID =
            some { bom with
              UsedQty := bom.UsedQty + (input.Quantity - usage.Quantity)
              ActualCost := bom.ActualCost +
                (input.Quantity - usage.Quantity) * material.UnitPrice
              RemainingQty := bom.PlannedQty -
                (bom.UsedQty + (input.Quantity - usage.Quantity))
              UpdatedAt := c.now }) ∧
      (input.Quantity = usage.Quantity → st'.boms = st.boms)) ∧
    (¬ 0 < input.Quantity → c.fails 2 = false → c.fails 3 = false →
      resp.status = 200 ∧
      st'.materials = st.materials ∧ st'.boms = st.boms ∧
      ∃ u, firstUsage st'.usages id = some u ∧ u.Quantity = usage.Quantity ∧
        u.Cost = usage.Cost) := by
  have hchanges := update_usage_changes c id input st st' resp usage material h husage
    hmaterial
  have hresp : resp = (UpdateMaterialUsage c id input st).1 := by rw [h]
  refine ⟨hchanges.1, ?_, ?_⟩
  · intro hpos hs h0 h2 h3
    have hok : resp.status = 200 := by
      rw [hresp]
      exact update_usage_status c id input st usage material husage hmaterial
        (fun hh => hs hh.2) (fun _ => h0) h2 h3
    exact ⟨hok, hchanges.2.1 hpos hok⟩
  · intro hnpos h2 h3
    have hok : resp.status = 200 := by
      rw [hresp]
      exact update_usage_status c id input st usage material husage hmaterial
        (fun hh => hnpos hh.1) (fun hp => absurd hp hnpos) h2 h3
    exact ⟨hok, hchanges.2.2 hnpos hok⟩

/-- C13, amended, on the scenario: the usage of 90 units changed to 60 is answered
200 and returns 30 units to the stock of 10, the BOM entry going from 90 used to
60 used, 140 remaining and actual cost 600. Changed to 100 units, which takes
exactly the 10 units in stock, it is answered 200 and leaves stock 0. Asking for
150 units is refused. -/
theorem update_usage_effect_witness :
    updatedTo60.1.status = 200 ∧
    stockOf updatedTo60.2 = some 40 ∧ usageFigures updatedTo60.2 = [(60, 600)] ∧
    bomFigures updatedTo60.2 = some (200, 60, 140, 2000, 600) ∧
    updatedTo100.1.status = 200 ∧
    stockOf updatedTo100.2 = some 0 ∧ usageFigures updatedTo100.2 = [(100, 1000)] ∧
    bomFigures updatedTo100.2 = some (200, 100, 100, 2000, 1000) ∧
    UpdateMaterialUsage (ctxOf 7 "tim_lapangan" 2) 1 ⟨150, none, ""⟩ recorded90.2 =
      (⟨400, "Insufficient material stock for this adjustment"⟩, recorded90.2) := by
  cases hu : firstUsage recorded90.2.usages 1 with
  | none => exact absurd hu (by decide!)
  | some u =>
    have hu1 : (firstUsage recorded90.2.usages 1).map (fun x => (x.MaterialID, x.Quantity)) =
        some (1, 90) := by decide!
    simp only [hu, Option.map_some', Option.some.injEq, Prod.mk.injEq] at hu1
    cases hm : firstMaterial recorded90.2.materials u.MaterialID with
    | none =>
      rw [hu1.1] at hm
      exact absurd hm (by decide!)
    | some m =>
      have hs : stockOf recorded90.2 = some 10 := by decide!
      rw [hu1.1] at hm
      simp only [stockOf, hm, Option.map_some', Option.some.injEq] at hs
      rw [← hu1.1] at hm
      have hw := (update_usage_effect (ctxOf 7 "tim_lapangan" 2) 1 ⟨150, none, ""⟩
        recorded90.2 _ _ u m rfl hu hm).1
        (by norm_num) (by rw [hu1.2]; norm_num) (by rw [hu1.2, hs]; norm_num)
      have h60 := (update_usage_effect (ctxOf 7 "tim_lapangan" 2) 1 ⟨60, none, ""⟩
        recorded90.2 updatedTo60.2 updatedTo60.1 u m rfl hu hm).2.1
        (by norm_num) (by rw [hu1.2]; norm_num) rfl rfl rfl
      have h100 := (update_usage_effect (ctxOf 7 "tim_lapangan" 2) 1 ⟨100, none, ""⟩
        recorded90.2 updatedTo100.2 updatedTo100.1 u m rfl hu hm).2.1
        (by norm_num) (by rw [hu1.2, hs]; norm_num) rfl rfl rfl
      refine ⟨h60.1, by decide!, by decide!, by decide!, h100.1, by decide!, by decide!,
        by decide!, ?_⟩
      exact Prod.ext hw.1 hw.2

/-! ## Claim C12: recording a usage and deleting it again -/

/-- The soft delete of `DeleteMaterialUsage` on the usage table. -/
theorem delete_usage_eval (c : Ctx) (id : Nat) (st : Store) (usage : MaterialUsage)
    (material : Material) (husage : firstUsage st.usages id = some usage)
    (hmaterial : firstMaterial st.materials usage.MaterialID = some material)
    (hstore : ∀ k, c.fails k = false) :
    (DeleteMaterialUsage c id st).1 = ⟨200, ""⟩ ∧
    (DeleteMaterialUsage c id st).2.materials = saveMaterial st.materials
      { material with Stock := material.Stock + usage.Quantity } c.now ∧
    (DeleteMaterialUsage c id st).2.boms =
      (match firstBOMFor st.boms usage.ProjectID usage.MaterialID with
        | some bom => saveBOM st.boms (BOM.UpdateRemainingQty
            { bom with UsedQty := bom.UsedQty - usage.Quantity
                       ActualCost := bom.ActualCost - usage.Cost }) c.now
        | none => st.boms) ∧
    (DeleteMaterialUsage c id st).2.usages = st.usages.map (fun q =>
      if q.ID = usage.ID ∧ q.DeletedAt = none then { q with DeletedAt := some c.now } else q) := by
  unfold DeleteMaterialUsage
  simp only [husage, hmaterial, hstore, Bool.false_eq_true, if_false]
  cases hb : firstBOMFor st.boms usage.ProjectID usage.MaterialID <;> simp

theorem firstUsage_append_fresh (us : List MaterialUsage) (id : Nat) (e : MaterialUsage)
    (hfresh : ∀ u ∈ us, u.ID ≠ id) (hid : e.ID = id) (hlive : e.DeletedAt = none) :
    firstUsage (us ++ [e]) id = some e := by
  unfold firstUsage
  rw [List.find?_append]
  have hnone : List.find? (fun u => decide (u.ID = id) && u.DeletedAt.isNone) us = none := by
    rw [List.find?_eq_none]
    intro u hu
    simp [hfresh u hu]
  simp [hnone, hid, hlive]

theorem usages_after_delete (us : List MaterialUsage) (e : MaterialUsage) (now : Time)
    (hfresh : ∀ u ∈ us, u.ID ≠ e.ID) (hlive : e.DeletedAt = none) :
    ((us ++ [e]).map (fun q =>
      if q.ID = e.ID ∧ q.DeletedAt = none then { q with DeletedAt := some now } else q)).filter
        (fun u => u.DeletedAt.isNone) = us.filter (fun u => u.DeletedAt.isNone) ∧
    firstUsage ((us ++ [e]).map (fun q =>
      if q.ID = e.ID ∧ q.DeletedAt = none then { q with DeletedAt := some now } else q)) e.ID =
        none := by
  have hmap : us.map (fun q =>
      if q.ID = e.ID ∧ q.DeletedAt = none then { q with DeletedAt := some now } else q) = us := by
    conv_rhs => rw [← List.map_id us]
    apply List.map_congr_left
    intro u hu
    simp [hfresh u hu]
  constructor
  · rw [List.map_append, hmap, List.filter_append]
    simp [hlive]
  · unfold firstUsage
    rw [List.map_append, hmap, List.find?_append]
    have hnone : List.find? (fun u => decide (u.ID = e.ID) && u.DeletedAt.isNone) us = none := by
      rw [List.find?_eq_none]
      intro u hu
      simp [hfresh u hu]
    simp [hnone, hlive]

/-- C12: on a store whose usage keys are fresh and whose BOM rows carry a consistent
remaining quantity, let a usage be recorded with answer 201 (its BOM save not
failing), creating the event `e`, and let `e` be deleted right after on a store
that does not fail. The delete is answered 200; the material's stock is the one
before the recording; the BOM entry of the pair, when there is one, has the used
quantity, actual cost, remaining quantity and planned quantity it had before the
recording (without an entry the BOM table is as before); `e` is no longer found,
and the live usage events are those from before the recording. -/
theorem record_then_delete_restores (c1 c2 : Ctx) (input : CreateUsageInput)
    (st st1 : Store) (resp1 : Response)
    (h1 : CreateMaterialUsage c1 input st = (resp1, st1)) (hok1 : resp1.status = 201)
    (hbomsave : c1.fails 2 = false) (hstore : ∀ k, c2.fails k = false)
    (hfresh : st.UsageKeysFresh) (hcons : st.BOMConsistent) :
    ∃ e, st1.usages = st.usages ++ [e] ∧ firstUsage st1.usages e.ID = some e ∧
      (DeleteMaterialUsage c2 e.ID st1).1.status = 200 ∧
      (firstMaterial (DeleteMaterialUsage c2 e.ID st1).2.materials input.MaterialID).map
          (fun m => m.Stock) =
        (firstMaterial st.materials input.MaterialID).map (fun m => m.Stock) ∧
      (∀ bom, firstBOMFor st.boms input.ProjectID input.MaterialID = some bom →
        ∃ b, firstBOMFor (DeleteMaterialUsage c2 e.ID st1).2.boms input.ProjectID
            input.MaterialID = some b ∧
          b.UsedQty = bom.UsedQty ∧ b.ActualCost = bom.ActualCost ∧
          b.RemainingQty = bom.RemainingQty ∧ b.PlannedQty = bom.PlannedQty) ∧
      (firstBOMFor st.boms input.ProjectID input.MaterialID = none →
        (DeleteMaterialUsage c2 e.ID st1).2.boms = st.boms) ∧
      firstUsage (DeleteMaterialUsage c2 e.ID st1).2.usages e.ID = none ∧
      liveUsages (DeleteMaterialUsage c2 e.ID st1).2 = liveUsages st := by
  obtain ⟨project, material, -, hm, -, -, -, -, -, hmat, huse, hbom, -, -⟩ :=
    record_usage_ok h1 hok1
  obtain ⟨-, hmlive, -⟩ := firstMaterial_some hm
  have hnew : ∀ u ∈ st.usages, u.ID ≠ st.usageSeq + 1 := by
    intro u hu
    have := hfresh u hu
    omega
  have hfu := firstUsage_append_fresh st.usages (st.usageSeq + 1)
    { ID := st.usageSeq + 1, ProjectID := input.ProjectID,
      MaterialID := input.MaterialID, DailyReportID := input.DailyReportID,
      Quantity := input.Quantity, Cost := input.Quantity * material.UnitPrice,
      UsageDate := (match input.UsageDate with
        | some d => d
        | none => c1.now),
      UsedBy := c1.userID, Notes := input.Notes, CreatedAt := c1.now, UpdatedAt := c1.now,
      DeletedAt := none } hnew rfl rfl
  rw [← huse] at hfu
  have hmB := firstMaterial_saveMaterial hm
    { material with Stock := material.Stock - input.Quantity } c1.now rfl hmlive
  rw [← hmat] at hmB
  obtain ⟨hr, hdm, hdb, hdu⟩ := delete_usage_eval c2 (st.usageSeq + 1) st1 _ _ hfu hmB hstore
  refine ⟨_, huse, hfu, by rw [hr], ?_, ?_, ?_, ?_, ?_⟩
  · rw [hdm, firstMaterial_saveMaterial hmB
      { ({ ({ material with Stock := material.Stock - input.Quantity } : Material) with
            UpdatedAt := c1.now } : Material) with
        Stock := material.Stock - input.Quantity + input.Quantity } c2.now rfl hmlive, hm]
    simp
  · intro bom hb
    obtain ⟨-, -, hblive, hbmem⟩ := firstBOMFor_some hb
    rw [hb] at hbom
    simp only [hbomsave, Bool.false_eq_true, if_false] at hbom
    have hbB := firstBOMFor_saveBOM hb (BOM.UpdateRemainingQty
      { bom with UsedQty := bom.UsedQty + input.Quantity
                 ActualCost := bom.ActualCost + input.Quantity * material.UnitPrice })
      c1.now rfl rfl rfl hblive
    rw [← hbom] at hbB
    have hdb' : (DeleteMaterialUsage c2 (st.usageSeq + 1) st1).2.boms = _ := hdb
    simp only [hbB] at hdb'
    rw [hdb']
    refine ⟨_, firstBOMFor_saveBOM hbB _ c2.now rfl rfl rfl hblive, ?_, ?_, ?_, rfl⟩
    · simp [BOM.UpdateRemainingQty]
    · simp [BOM.UpdateRemainingQty]
    · simp [BOM.UpdateRemainingQty, hcons bom hbmem]
  · intro hb
    rw [hb] at hbom
    have hdb' : (DeleteMaterialUsage c2 (st.usageSeq + 1) st1).2.boms = _ := hdb
    rw [hbom] at hdb'
    simp only [hb] at hdb'
    rw [hdb']
  · rw [hdu, huse]
    exact (usages_after_delete st.usages _ c2.now hnew rfl).2
  · unfold liveUsages
    rw [hdu, huse]
    exact (usages_after_delete st.usages _ c2.now hnew rfl).1

/-- Witness for C12: on the site store (stock 100, BOM entry with 200 planned and
nothing used) the usage of 90 units is recorded with 201 and deleted again with
200; afterwards the stock is 100 again, the BOM entry is back at 0 used, 200
remaining and actual cost 0, and no live usage event is left. -/
theorem record_then_delete_restores_witness :
    recorded90.1.status = 201 ∧ deleted90.1.status = 200 ∧
    stockOf deleted90.2 = some 100 ∧
    bomFigures deleted90.2 = some (200, 0, 200, 2000, 0) ∧
    usageFigures deleted90.2 = [] := by
  have hfresh : siteStore.UsageKeysFresh := by
    intro u hu
    exact absurd hu (List.not_mem_nil u)
  have hcons : siteStore.BOMConsistent := by
    intro b hb
    have hb1 : b = newBOM 1 1 1 200 10 "foundation" "" ⟨2024, 0⟩ := List.mem_singleton.mp hb
    subst hb1
    decide!
  obtain ⟨e, huse, -, hstatus, hstock, -, -, -, -⟩ :=
    record_then_delete_restores (ctxOf 7 "tim_lapangan" 1) (ctxOf 7 "tim_lapangan" 2)
      (usageOf 90) siteStore recorded90.2 recorded90.1 rfl (by decide!) rfl (fun _ => rfl)
      hfresh hcons
  have hids : recorded90.2.usages.map (fun u => u.ID) = [1] := by decide!
  rw [huse] at hids
  have hid : e.ID = 1 := by
    have h0 : siteStore.usages = [] := rfl
    rw [h0] at hids
    simpa using hids
  rw [hid] at hstatus hstock
  have hs : stockOf siteStore = some 100 := by decide
  exact ⟨by decide!, hstatus, hstock.trans hs, by decide!, by decide!⟩

/-! ## Claim C16: the remaining quantity of every BOM entry -/

theorem saveBOM_consistent {bs : List BOM} (h : ∀ b ∈ bs, b.RemainingQty = b.PlannedQty - b.UsedQty)
    (b1 : BOM) (now : Time) (h1 : b1.RemainingQty = b1.PlannedQty - b1.UsedQty) :
    ∀ b ∈ saveBOM bs b1 now, b.RemainingQty = b.PlannedQty - b.UsedQty := by
  intro b hb
  unfold saveBOM at hb
  rw [List.mem_map] at hb
  obtain ⟨q, hq, rfl⟩ := hb
  split
  · exact h1
  · exact h q hq

theorem softDeleteBOM_consistent {bs : List BOM}
    (h : ∀ b ∈ bs, b.RemainingQty = b.PlannedQty - b.UsedQty) (id : Nat) (now : Time) :
    ∀ b ∈ softDeleteBOM bs id now, b.RemainingQty = b.PlannedQty - b.UsedQty := by
  intro b hb
  unfold softDeleteBOM at hb
  rw [List.mem_map] at hb
  obtain ⟨q, hq, rfl⟩ := hb
  split
  · exact h q hq
  · exact h q hq

theorem append_newBOM_consistent {bs : List BOM}
    (h : ∀ b ∈ bs, b.RemainingQty = b.PlannedQty - b.UsedQty)
    (id projectID materialID : Nat) (plannedQty unitPrice : ℚ) (phase notes : String)
    (now : Time) :
    ∀ b ∈ bs ++ [newBOM id projectID materialID plannedQty unitPrice phase notes now],
      b.RemainingQty = b.PlannedQty - b.UsedQty := by
  intro b hb
  rw [List.mem_append, List.mem_singleton] at hb
  rcases hb with hb | rfl
  · exact h b hb
  · simp [newBOM]

theorem applyBOMInput_consistent (bom : BOM) (input : UpdateBOMInput) (materials : List Material)
    (h : bom.RemainingQty = bom.PlannedQty - bom.UsedQty) :
    (applyBOMInput bom input materials).RemainingQty =
      (applyBOMInput bom input materials).PlannedQty -
        (applyBOMInput bom input materials).UsedQty := by
  unfold applyBOMInput
  dsimp only
  split
  · split <;> simp [BOM.UpdateRemainingQty]
  · exact h

theorem recalcLoop_consistent (c : Ctx) (projectID : Nat) (rows : List BOM) :
    ∀ (k : Nat) (st : Store), st.BOMConsistent →
      (recalcLoop c projectID rows k st).BOMConsistent := by
  induction rows with
  | nil => intro k st h; exact h
  | cons b rest ih =>
    intro k st h
    unfold recalcLoop
    apply ih
    split
    · exact h
    · exact saveBOM_consistent h _ c.now rfl

theorem importLoop_consistent (c : Ctx) (projectID : Nat) (items : List ImportItem) :
    ∀ (k : Nat) (tx : Store) (created : List BOM) (errors : List String), tx.BOMConsistent →
      (importLoop c projectID items k tx created errors).1.BOMConsistent := by
  induction items with
  | nil => intro k tx created errors h; exact h
  | cons item rest ih =>
    intro k tx created errors h
    unfold importLoop
    split
    · exact ih _ _ _ _ h
    · split
      · exact ih _ _ _ _ h
      · split
        · exact ih _ _ _ _ h
        · exact ih _ _ _ _ (append_newBOM_consistent h _ _ _ _ _ _ _ _)

theorem CreateBOM_consistent (c : Ctx) (input : CreateBOMInput) (st : Store)
    (h : st.BOMConsistent) : (CreateBOM c input st).2.BOMConsistent := by
  unfold CreateBOM
  repeat' split
  all_goals first
    | exact h
    | exact append_newBOM_consistent h _ _ _ _ _ _ _ _

theorem ImportBOMFromTemplate_consistent (c : Ctx) (input : ImportInput) (st : Store)
    (h : st.BOMConsistent) : (ImportBOMFromTemplate c input st).2.BOMConsistent := by
  have hloop := importLoop_consistent c input.ProjectID input.Items 0 st [] [] h
  unfold ImportBOMFromTemplate
  repeat' split
  all_goals first
    | exact h
    | (rename_i heq _ _; rw [heq] at hloop; exact hloop)

theorem UpdateBOM_consistent (c : Ctx) (id : Nat) (input : UpdateBOMInput) (st : Store)
    (h : st.BOMConsistent) : (UpdateBOM c id input st).2.BOMConsistent := by
  unfold UpdateBOM
  repeat' split
  all_goals first
    | exact h
    | (rename_i bom hb _
       exact saveBOM_consistent h _ c.now
         (applyBOMInput_consistent bom input st.materials (h bom (firstBOM_some hb).2.2)))

theorem DeleteBOM_consistent (c : Ctx) (id : Nat) (st : Store)
    (h : st.BOMConsistent) : (DeleteBOM c id st).2.BOMConsistent := by
  unfold DeleteBOM
  repeat' split
  all_goals first
    | exact h
    | exact softDeleteBOM_consistent h _ c.now

theorem CreateMaterialUsage_consistent (c : Ctx) (input : CreateUsageInput) (st : Store)
    (h : st.BOMConsistent) : (CreateMaterialUsage c input st).2.BOMConsistent := by
  unfold CreateMaterialUsage
  dsimp only
  repeat' split
  all_goals first
    | exact h
    | exact saveBOM_consistent h _ c.now rfl

theorem UpdateMaterialUsage_consistent (c : Ctx) (id : Nat) (input : UpdateUsageInput)
    (st : Store) (h : st.BOMConsistent) : (UpdateMaterialUsage c id input st).2.BOMConsistent := by
  unfold UpdateMaterialUsage
  dsimp only
  repeat' split
  all_goals first
    | exact h
    | exact saveBOM_consistent h _ c.now rfl

theorem DeleteMaterialUsage_consistent (c : Ctx) (id : Nat) (st : Store)
    (h : st.BOMConsistent) : (DeleteMaterialUsage c id st).2.BOMConsistent := by
  unfold DeleteMaterialUsage
  dsimp only
  repeat' split
  all_goals first
    | exact h
    | exact saveBOM_consistent h _ c.now rfl

theorem CalculateBOMUsage_consistent (c : Ctx) (projectID : Nat) (st : Store)
    (h : st.BOMConsistent) : (CalculateBOMUsage c projectID st).2.BOMConsistent := by
  unfold CalculateBOMUsage
  split
  · exact h
  · exact recalcLoop_consistent c projectID _ 0 st h

theorem UpdateMaterialStock_consistent (c : Ctx) (id : Nat) (adjustment : ℚ) (st : Store)
    (h : st.BOMConsistent) : (UpdateMaterialStock c id adjustment st).2.BOMConsistent := by
  unfold UpdateMaterialStock
  dsimp only
  repeat' split
  all_goals exact h

theorem UpdateMaterial_consistent (c : Ctx) (id : Nat) (input : UpdateMaterialInput) (st : Store)
    (h : st.BOMConsistent) : (UpdateMaterial c id input st).2.BOMConsistent := by
  unfold UpdateMaterial
  repeat' split
  all_goals exact h

theorem LedgerCall_consistent (call : LedgerCall) (st : Store) (h : st.BOMConsistent) :
    (call.apply st).2.BOMConsistent := by
  cases call with
  | addEntry c input => exact CreateBOM_consistent c input st h
  | importBatch c input => exact ImportBOMFromTemplate_consistent c input st h
  | updateEntry c id input => exact UpdateBOM_consistent c id input st h
  | removeEntry c id => exact DeleteBOM_consistent c id st h
  | recordUsage c input => exact CreateMaterialUsage_consistent c input st h
  | updateUsage c id input => exact UpdateMaterialUsage_consistent c id input st h
  | deleteUsage c id => exact DeleteMaterialUsage_consistent c id st h
  | recalculate c projectID => exact CalculateBOMUsage_consistent c projectID st h
  | adjustStock c id adjustment => exact UpdateMaterialStock_consistent c id adjustment st h
  | updateMaterial c id input => exact UpdateMaterial_consistent c id input st h

/-- C16: on a store in which every BOM row has remaining quantity = planned
quantity − used quantity, the same holds for every stored BOM row after any
ledger call (add entry, import batch, update entry, remove entry, record usage,
update usage, delete usage, recalculate, adjust stock, update material), whatever
its answer and whichever writes fail, and hence after any sequence of such calls. -/
theorem remaining_qty_invariant (st : Store) (h : st.BOMConsistent) :
    (∀ call : LedgerCall, ∀ b ∈ (call.apply st).2.boms,
      b.RemainingQty = b.PlannedQty - b.UsedQty) ∧
    (∀ calls : List LedgerCall, ∀ b ∈ (runLedger st calls).boms,
      b.RemainingQty = b.PlannedQty - b.UsedQty) := by
  refine ⟨fun call => LedgerCall_consistent call st h, ?_⟩
  intro calls
  induction calls generalizing st with
  | nil => exact h
  | cons call rest ih => exact ih (call.apply st).2 (LedgerCall_consistent call st h)

/-- Witness for C16: the site store (200 planned, 0 used, 200 remaining) is
consistent, and after the run of six calls on it the one BOM row stands at 250
planned, 15 used and 235 remaining. -/
theorem remaining_qty_invariant_witness :
    bomQuantities siteStore = [(200, 0, 200)] ∧
    bomQuantities (runLedger siteStore siteRun) = [(250, 15, 235)] ∧
    (∀ b ∈ (runLedger siteStore siteRun).boms, b.RemainingQty = b.PlannedQty - b.UsedQty) := by
  have hcons : siteStore.BOMConsistent := by
    intro b hb
    have hb1 : b = newBOM 1 1 1 200 10 "foundation" "" ⟨2024, 0⟩ := List.mem_singleton.mp hb
    subst hb1
    decide!
  exact ⟨by decide!, by decide!, (remaining_qty_invariant siteStore hcons).2 siteRun⟩

/-! ## Claim C26: the total price of a line item -/

theorem createItems_rows (c : Ctx) (prID : Nat) (items : List PRItemInput) :
    ∀ (k : Nat) (tx tx' : Store), createItems c prID items k tx = some tx' →
      ∃ rows, tx'.items = tx.items ++ rows ∧
        rows.map (fun i => (i.PurchaseRequestID, i.Quantity, i.EstimatedPrice, i.TotalPrice)) =
          items.map (fun x => (prID, x.Quantity, x.EstimatedPrice,
            x.Quantity * x.EstimatedPrice)) := by
  induction items with
  | nil =>
    intro k tx tx' h
    simp [createItems] at h
    subst h
    exact ⟨[], by simp, rfl⟩
  | cons item rest ih =>
    intro k tx tx' h
    simp only [createItems] at h
    split at h
    · cases h
    · obtain ⟨rows, h1, h2⟩ := ih _ _ _ h
      refine ⟨PRItem.BeforeCreate
        { ID := tx.itemSeq + 1, PurchaseRequestID := prID, MaterialID := item.MaterialID,
          Quantity := item.Quantity, UnitName := item.UnitName,
          EstimatedPrice := item.EstimatedPrice, TotalPrice := 0, Vendor := item.Vendor,
          Notes := item.Notes, CreatedAt := c.now, UpdatedAt := c.now } :: rows, ?_, ?_⟩
      · simpa using h1
      · simp [h2, PRItem.BeforeCreate]

theorem createHistories_items (c : Ctx) (prID : Nat) (sts : List String) :
    ∀ (k : Nat) (tx tx' : Store), createHistories c prID sts k tx = some tx' →
      tx'.items = tx.items := by
  induction sts with
  | nil =>
    intro k tx tx' h
    simp [createHistories] at h
    subst h
    rfl
  | cons s rest ih =>
    intro k tx tx' h
    simp only [createHistories] at h
    split at h
    · cases h
    · simpa using ih _ _ _ h

theorem create_items {c : Ctx} {input : CreatePRInput} {st st' : Store} {resp : Response}
    (h : CreatePurchaseRequest c input st = (resp, st')) (hok : resp.status = 201) :
    ∃ rows, st'.items = st.items ++ rows ∧
      rows.map (fun i => (i.PurchaseRequestID, i.Quantity, i.EstimatedPrice, i.TotalPrice)) =
        input.Items.map (fun x => (st.prSeq + 1, x.Quantity, x.EstimatedPrice,
          x.Quantity * x.EstimatedPrice)) := by
  unfold CreatePurchaseRequest at h
  dsimp only at h
  repeat' split at h
  all_goals first
    | (cases h; simp at hok; done)
    | skip
  cases h
  obtain ⟨rows, i1, i2⟩ := createItems_rows _ _ _ _ _ _ (by assumption)
  have j1 := createHistories_items _ _ _ _ _ _ (by assumption)
  refine ⟨rows, ?_, i2⟩
  simp only [createPRNotification]
  rw [j1, i1]

/-- C26: the create hook and the update hook of a line item set its total price to
quantity times estimated price, whatever total price it held, and leave every
other field alone; and the line items a successful create persists are one per
item of the request, in order, each with the quantity and estimated price given
and total price quantity times estimated price. -/
theorem item_total_price (item : PRItem) (total : ℚ) :
    (PRItem.BeforeCreate { item with TotalPrice := total }).TotalPrice =
      item.Quantity * item.EstimatedPrice ∧
    (PRItem.BeforeUpdate { item with TotalPrice := total }).TotalPrice =
      item.Quantity * item.EstimatedPrice ∧
    PRItem.BeforeCreate { item with TotalPrice := total } =
      { item with TotalPrice := item.Quantity * item.EstimatedPrice } ∧
    PRItem.BeforeUpdate { item with TotalPrice := total } =
      { item with TotalPrice := item.Quantity * item.EstimatedPrice } ∧
    ∀ (c : Ctx) (input : CreatePRInput) (st : Store),
      (CreatePurchaseRequest c input st).1.status = 201 →
      ∃ rows, (CreatePurchaseRequest c input st).2.items = st.items ++ rows ∧
        rows.map (fun i => (i.Quantity, i.EstimatedPrice)) =
          input.Items.map (fun x => (x.Quantity, x.EstimatedPrice)) ∧
        ∀ i ∈ rows, i.TotalPrice = i.Quantity * i.EstimatedPrice := by
  refine ⟨rfl, rfl, rfl, rfl, ?_⟩
  intro c input st hok
  obtain ⟨rows, h1, h2⟩ := create_items (rfl : CreatePurchaseRequest c input st = (_, _)) hok
  refine ⟨rows, h1, ?_, ?_⟩
  · have := congrArg (List.map (fun t : Nat × ℚ × ℚ × ℚ => (t.2.1, t.2.2.1))) h2
    simpa [List.map_map, Function.comp_def] using this
  · intro i hi
    have hmem : (i.PurchaseRequestID, i.Quantity, i.EstimatedPrice, i.TotalPrice) ∈
        input.Items.map (fun x => (st.prSeq + 1, x.Quantity, x.EstimatedPrice,
          x.Quantity * x.EstimatedPrice)) := by
      rw [← h2]
      exact List.mem_map.mpr ⟨i, hi, rfl⟩
    obtain ⟨x, -, hx⟩ := List.mem_map.mp hmem
    simp only [Prod.mk.injEq] at hx
    rw [← hx.2.2.2, ← hx.2.1, ← hx.2.2.1]

/-- C26, on the scenario: a line item holding total price 999 for 10 units at 30
gets total price 300 from either hook; the create of the scenario persists its two
items with total prices 300 and 200. -/
theorem item_total_price_witness :
    (PRItem.BeforeCreate ⟨1, 1, 1, 10, "sak", 30, 999, "", "", ⟨2024, 1⟩, ⟨2024, 1⟩⟩).TotalPrice =
      300 ∧
    (PRItem.BeforeUpdate ⟨1, 1, 1, 10, "sak", 30, 999, "", "", ⟨2024, 1⟩, ⟨2024, 1⟩⟩).TotalPrice =
      300 ∧
    demoCreated.items.map (fun i => (i.Quantity, i.EstimatedPrice, i.TotalPrice)) =
      [(10, 30, 300), (4, 50, 200)] := by
  have h := item_total_price ⟨1, 1, 1, 10, "sak", 30, 0, "", "", ⟨2024, 1⟩, ⟨2024, 1⟩⟩ 999
  obtain ⟨h1, h2, -, -, h5⟩ := h
  obtain ⟨rows, hrows, -, -⟩ := h5 (ctxOf 7 "tim_lapangan" 1) demoCreate Store.empty (by decide)
  refine ⟨?_, ?_, by decide!⟩
  · rw [h1]; norm_num
  · rw [h2]; norm_num

/-! ## Claim C22: removing a BOM entry -/

theorem firstBOM_softDelete_same (bs : List BOM) (id : Nat) (now : Time) :
    firstBOM (softDeleteBOM bs id now) id = none := by
  unfold firstBOM softDeleteBOM
  rw [List.find?_eq_none]
  intro x hx
  obtain ⟨q, -, rfl⟩ := List.mem_map.mp hx
  by_cases hq : q.ID = id ∧ q.DeletedAt = none
  · simp [hq]
  · rw [if_neg hq]
    intro hp
    apply hq
    simpa using hp

theorem firstBOM_softDelete_other (bs : List BOM) (id id2 : Nat) (now : Time) (hne : id2 ≠ id) :
    firstBOM (softDeleteBOM bs id now) id2 = firstBOM bs id2 := by
  unfold firstBOM softDeleteBOM
  induction bs with
  | nil => rfl
  | cons q qs ih =>
    simp only [List.map_cons, List.find?_cons]
    by_cases hq : q.ID = id ∧ q.DeletedAt = none
    · have h2 : ¬ q.ID = id2 := fun e => hne (e.symm.trans hq.1)
      have h3 : ¬ id = id2 := fun e => hne e.symm
      simp [hq, h2, h3, ih]
    · rw [if_neg hq, ih]

/-- C22: for an existing BOM entry: when its used quantity is positive the answer is
400 "Cannot delete BOM item with recorded material usage" and the store is
unchanged; when its used quantity is zero or negative, the delete succeeding, the
answer is 200, the entry is no longer found, every other entry is found as before,
and materials and usage events are unchanged. -/
theorem remove_entry_effect (c : Ctx) (id : Nat) (st : Store) (bom : BOM)
    (hbom : firstBOM st.boms id = some bom) :
    (0 < bom.UsedQty → DeleteBOM c id st =
      (⟨400, "Cannot delete BOM item with recorded material usage"⟩, st)) ∧
    (bom.UsedQty ≤ 0 → c.fails 0 = false →
      (DeleteBOM c id st).1.status = 200 ∧
      firstBOM (DeleteBOM c id st).2.boms id = none ∧
      (∀ id2, id2 ≠ id → firstBOM (DeleteBOM c id st).2.boms id2 = firstBOM st.boms id2) ∧
      (DeleteBOM c id st).2.materials = st.materials ∧
      (DeleteBOM c id st).2.usages = st.usages) := by
  obtain ⟨hid, -, -⟩ := firstBOM_some hbom
  constructor
  · intro hused
    simp [DeleteBOM, hbom, hused]
  · intro hused hf
    have hnot : ¬ 0 < bom.UsedQty := not_lt.mpr hused
    have hres : DeleteBOM c id st =
        (⟨200, ""⟩, { st with boms := softDeleteBOM st.boms bom.ID c.now }) := by
      simp [DeleteBOM, hbom, hnot, hf]
    rw [hres, hid]
    exact ⟨rfl, firstBOM_softDelete_same st.boms id c.now,
      fun id2 hne => firstBOM_softDelete_other st.boms id id2 c.now hne, rfl, rfl⟩

/-- C22, on the scenario: with 90 units used against it the entry of the site store
cannot be removed and stays as it is; with nothing used it is removed. -/
theorem remove_entry_effect_witness :
    DeleteBOM (ctxOf 7 "manager" 3) 1 recorded90.2 =
      (⟨400, "Cannot delete BOM item with recorded material usage"⟩, recorded90.2) ∧
    (DeleteBOM (ctxOf 7 "manager" 3) 1 siteStore).1.status = 200 ∧
    firstBOM (DeleteBOM (ctxOf 7 "manager" 3) 1 siteStore).2.boms 1 = none ∧
    bomFigures (DeleteBOM (ctxOf 7 "manager" 3) 1 siteStore).2 = none := by
  cases hb : firstBOM recorded90.2.boms 1 with
  | none => exact absurd hb (by decide!)
  | some b =>
    have hu : (firstBOM recorded90.2.boms 1).map (fun x => x.UsedQty) = some 90 := by decide!
    simp only [hb, Option.map_some', Option.some.injEq] at hu
    cases hb0 : firstBOM siteStore.boms 1 with
    | none => exact absurd hb0 (by decide!)
    | some b0 =>
      have hu0 : (firstBOM siteStore.boms 1).map (fun x => x.UsedQty) = some 0 := by decide!
      simp only [hb0, Option.map_some', Option.some.injEq] at hu0
      have h1 := (remove_entry_effect (ctxOf 7 "manager" 3) 1 recorded90.2 b hb).1
        (by rw [hu]; norm_num)
      have h2 := (remove_entry_effect (ctxOf 7 "manager" 3) 1 siteStore b0 hb0).2
        (by rw [hu0]) rfl
      exact ⟨h1, h2.1, h2.2.1, by decide!⟩

/-! ## Claim C29: the seeded roles and the stage labels -/

theorem stage_not_seeded : ∀ s ∈ stages, ∀ r ∈ defaultRoles, s ≠ r := by decide

theorem workflowInv_stage {st : Store} {id : Nat} {pr : PurchaseRequest}
    (hinv : WorkflowInv st id) (hpr : firstPR st.prs id = some pr) :
    pr.CurrentStage ∈ stages := by
  obtain ⟨pr0, hpr0, -, htable⟩ := hinv
  rw [hpr] at hpr0
  cases hpr0
  simp only [workflowStates, List.mem_cons, Prod.mk.injEq, List.mem_singleton,
    List.not_mem_nil, or_false] at htable
  rcases htable with ⟨-, h, -⟩ | ⟨-, h, -⟩ | ⟨-, h, -⟩ | ⟨-, h, -⟩ | ⟨-, h, -⟩ | ⟨-, h, -⟩ |
    ⟨-, h, -⟩ <;> rw [h] <;> decide

/-- C29: for a caller holding one of the seeded role names, a request reachable
from a create and any requested stage, comment and reason: neither approve nor
reject succeeds and the store is unchanged. When the requested stage is not the
caller's role the answer is 403 (400 when the stage, or the reason of a reject,
is empty); when it is the caller's role the answer is 400 "Purchase request already
processed" or "Purchase request not at this approval stage", since the role is none
of the stage labels. -/
theorem seeded_role_cannot_decide (c : Ctx) (id : Nat) (st : Store)
    (stage comment reason : String) (hrole : c.role ∈ defaultRoles)
    (hreach : Reachable st id) :
    (∀ s ∈ stages, c.role ≠ s) ∧
    (ApprovePurchaseRequest c id ⟨stage, comment⟩ st).2 = st ∧
    (RejectPurchaseRequest c id ⟨stage, reason⟩ st).2 = st ∧
    (stage ≠ c.role →
      ((ApprovePurchaseRequest c id ⟨stage, comment⟩ st).1.status = 403 ∨
        (ApprovePurchaseRequest c id ⟨stage, comment⟩ st).1.status = 400) ∧
      ((RejectPurchaseRequest c id ⟨stage, reason⟩ st).1.status = 403 ∨
        (RejectPurchaseRequest c id ⟨stage, reason⟩ st).1.status = 400)) ∧
    (stage = c.role →
      (ApprovePurchaseRequest c id ⟨stage, comment⟩ st).1.status = 400 ∧
      (RejectPurchaseRequest c id ⟨stage, reason⟩ st).1.status = 400) := by
  obtain ⟨pr, hpr, hstages, htable⟩ := (reachable_inv st id hreach).2
  have hcur := workflowInv_stage ⟨pr, hpr, hstages, htable⟩ hpr
  have hne : pr.CurrentStage ≠ c.role := stage_not_seeded _ hcur _ hrole
  refine ⟨fun s hs e => stage_not_seeded s hs _ hrole e.symm, ?_, ?_, ?_, ?_⟩
  · unfold ApprovePurchaseRequest
    simp only [hpr]
    repeat' split
    all_goals first
      | rfl
      | (exfalso; simp_all)
  · unfold RejectPurchaseRequest
    simp only [hpr]
    repeat' split
    all_goals first
      | rfl
      | (exfalso; simp_all)
  · intro hs
    constructor
    · by_cases h0 : stage = ""
      · right; simp [ApprovePurchaseRequest, h0]
      · left; simp [ApprovePurchaseRequest, h0, hs]
    · by_cases h0 : stage = "" ∨ reason = ""
      · right; simp [RejectPurchaseRequest, h0]
      · left; simp [RejectPurchaseRequest, h0, hs]
  · intro hs
    have hne' : pr.CurrentStage ≠ stage := hs ▸ hne
    constructor
    · unfold ApprovePurchaseRequest
      simp only [hpr]
      repeat' split
      all_goals first
        | rfl
        | (exfalso; simp_all)
    · unfold RejectPurchaseRequest
      simp only [hpr]
      repeat' split
      all_goals first
        | rfl
        | (exfalso; simp_all)

/-- C29, on the scenario: on request 1, pending at Purchasing, a caller with the
seeded role `purchasing` is refused with 403 when asking for the stage
"Purchasing" and with 400 when asking for the stage "purchasing"; the store stays
as it was. -/
theorem seeded_role_cannot_decide_witness :
    statusAndStage demoCreated 1 = some ("pending", "Purchasing") ∧
    (ApprovePurchaseRequest (ctxOf 8 "purchasing" 2) 1 ⟨"Purchasing", "ok"⟩ demoCreated).1.status =
      403 ∧
    ApprovePurchaseRequest (ctxOf 8 "purchasing" 2) 1 ⟨"purchasing", "ok"⟩ demoCreated =
      (⟨400, "Purchase request not at this approval stage"⟩, demoCreated) ∧
    (RejectPurchaseRequest (ctxOf 8 "purchasing" 2) 1 ⟨"purchasing", "no"⟩ demoCreated).1.status =
      400 ∧
    (RejectPurchaseRequest (ctxOf 8 "purchasing" 2) 1 ⟨"purchasing", "no"⟩ demoCreated).2 =
      demoCreated := by
  have hreach : Reachable demoCreated 1 :=
    Reachable.create (ctxOf 7 "tim_lapangan" 1) demoCreate Store.empty keysFresh_empty
      (by decide)
  have h := seeded_role_cannot_decide (ctxOf 8 "purchasing" 2) 1 demoCreated "purchasing"
    "ok" "no" (by decide) hreach
  refine ⟨by decide, by decide, ?_, (h.2.2.2.2 rfl).2, h.2.2.1⟩
  exact Prod.ext (by decide) h.2.1

/-! ## Claim C27: the shape of the reachable workflow states -/

theorem stageIndex_values :
    stageIndex "Purchasing" = 0 ∧ stageIndex "Cost Control" = 1 ∧ stageIndex "GM" = 2 := by
  decide

/-- C27: in every state reachable from a create, the request has exactly one
record per stage, in the order Purchasing, Cost Control, GM, and its status is
pending, approved or rejected. While it is pending every record before the current
stage is approved and the records of the current and the later stages are pending.
When it is approved the current stage is GM and all three records are approved.
When it is rejected the record of the current stage is rejected, the earlier ones
are approved and the later ones pending. `IsFullyApproved` holds exactly when the
status is approved. -/
theorem workflow_state_shape (st : Store) (id : Nat) (pr : PurchaseRequest)
    (hreach : Reachable st id) (hpr : firstPR st.prs id = some pr) :
    (∃ a b c, recordsOf st id = [a, b, c] ∧ a.Stage = StagePurchasing ∧
      b.Stage = StageCostControl ∧ c.Stage = StageGM) ∧
    (pr.Status = PRStatusPending ∨ pr.Status = PRStatusApproved ∨
      pr.Status = PRStatusRejected) ∧
    (pr.Status = PRStatusPending → ∀ r ∈ recordsOf st id,
      (stageIndex r.Stage < stageIndex pr.CurrentStage → r.Status = StageStatusApproved) ∧
      (stageIndex pr.CurrentStage ≤ stageIndex r.Stage → r.Status = StageStatusPending)) ∧
    (pr.Status = PRStatusApproved → pr.CurrentStage = StageGM ∧
      ∀ r ∈ recordsOf st id, r.Status = StageStatusApproved) ∧
    (pr.Status = PRStatusRejected → ∀ r ∈ recordsOf st id,
      (r.Stage = pr.CurrentStage → r.Status = StageStatusRejected) ∧
      (stageIndex r.Stage < stageIndex pr.CurrentStage → r.Status = StageStatusApproved) ∧
      (stageIndex pr.CurrentStage < stageIndex r.Stage → r.Status = StageStatusPending)) ∧
    (pr.IsFullyApproved = true ↔ pr.Status = PRStatusApproved) := by
  obtain ⟨pr0, hpr0, hstages, htable⟩ := (reachable_inv st id hreach).2
  rw [hpr] at hpr0
  cases hpr0
  obtain ⟨a, b, c, habc, ha, hb, hc⟩ := records_three hstages
  have ha' : a.Stage = "Purchasing" := ha
  have hb' : b.Stage = "Cost Control" := hb
  have hc' : c.Stage = "GM" := hc
  obtain ⟨i0, i1, i2⟩ := stageIndex_values
  refine ⟨⟨a, b, c, habc, ha, hb, hc⟩, ?_⟩
  rw [habc] at htable
  simp only [workflowStates, List.map_cons, List.map_nil, List.mem_cons, Prod.mk.injEq,
    List.cons.injEq, and_true, List.mem_singleton, List.not_mem_nil, or_false] at htable
  have hs0 : pr.Status = "pending" ∨ pr.Status = "approved" ∨ pr.Status = "rejected" := by
    rcases htable with ⟨h0, -⟩ | ⟨h0, -⟩ | ⟨h0, -⟩ | ⟨h0, -⟩ | ⟨h0, -⟩ | ⟨h0, -⟩ | ⟨h0, -⟩ <;>
      rw [h0] <;> decide
  refine ⟨hs0, ?_⟩
  rcases htable with ⟨h0, hcur, h1, h2, h3⟩ | ⟨h0, hcur, h1, h2, h3⟩ | ⟨h0, hcur, h1, h2, h3⟩ |
    ⟨h0, hcur, h1, h2, h3⟩ | ⟨h0, hcur, h1, h2, h3⟩ | ⟨h0, hcur, h1, h2, h3⟩ |
    ⟨h0, hcur, h1, h2, h3⟩ <;>
  · have h0' := h0
    have hcur' := hcur
    simp only [PRStatusPending, PRStatusApproved, PRStatusRejected] at h0'
    simp only [StagePurchasing, StageCostControl, StageGM] at hcur'
    simp only [StageStatusPending, StageStatusApproved, StageStatusRejected] at h1 h2 h3
    simp only [habc, List.mem_cons, List.mem_singleton, List.not_mem_nil, or_false,
      forall_eq_or_imp, forall_eq, ha', hb', hc', h0', hcur', h1, h2, h3, i0, i1, i2,
      PRStatusPending, PRStatusApproved, PRStatusRejected, StageStatusPending,
      StageStatusApproved, StageStatusRejected, StageGM, PurchaseRequest.IsFullyApproved]
    simp

/-- C27, on the scenario: after the create and the three approvals request 1 is
approved at GM, all three stage records are approved and `IsFullyApproved` holds. -/
theorem workflow_state_shape_witness :
    statusAndStage demoApproved 1 = some ("approved", "GM") ∧
    outcomesOf demoApproved 1 =
      [("Purchasing", "approved"), ("Cost Control", "approved"), ("GM", "approved")] ∧
    (∀ r ∈ recordsOf demoApproved 1, r.Status = "approved") ∧
    (firstPR demoApproved.prs 1).map (fun p => p.IsFullyApproved) = some true := by
  cases hp : firstPR demoApproved.prs 1 with
  | none => exact absurd hp (by decide)
  | some p =>
    have hs : statusAndStage demoApproved 1 = some ("approved", "GM") := by decide
    have hw := workflow_state_shape demoApproved 1 p reachable_demoApproved hp
    refine ⟨hs, by decide, ?_, ?_⟩
    · simp only [statusAndStage, hp, Option.map_some', Option.some.injEq, Prod.mk.injEq] at hs
      exact (hw.2.2.2.1 hs.1).2
    · simp only [statusAndStage, hp, Option.map_some', Option.some.injEq, Prod.mk.injEq] at hs
      simp only [Option.map_some', Option.some.injEq]
      exact hw.2.2.2.2.2.mpr hs.1

/-! ## Claim C21: planned quantity and estimated cost of existing entries -/

theorem saveBOM_plan (bs : List BOM) (b1 : BOM) (now : Time)
    (h : ∀ q ∈ bs, q.ID = b1.ID →
      q.PlannedQty = b1.PlannedQty ∧ q.EstimatedCost = b1.EstimatedCost) :
    (saveBOM bs b1 now).map (fun b => (b.ID, b.PlannedQty, b.EstimatedCost)) =
      bs.map (fun b => (b.ID, b.PlannedQty, b.EstimatedCost)) := by
  unfold saveBOM
  rw [List.map_map]
  apply List.map_congr_left
  intro q hq
  by_cases hid : q.ID = b1.ID
  · obtain ⟨h1, h2⟩ := h q hq hid
    simp [hid, h1, h2]
  · simp [hid]

theorem bomKeys_inj {bs : List BOM} (h : (bs.map (fun b => b.ID)).Nodup) {a b : BOM}
    (ha : a ∈ bs) (hb : b ∈ bs) (e : a.ID = b.ID) : a = b :=
  List.inj_on_of_nodup_map h ha hb e

theorem saveBOM_member_plan {bs : List BOM} (hkeys : (bs.map (fun b => b.ID)).Nodup)
    {bom : BOM} (hmem : bom ∈ bs) (b1 : BOM) (now : Time) (hid : b1.ID = bom.ID)
    (hp : b1.PlannedQty = bom.PlannedQty) (he : b1.EstimatedCost = bom.EstimatedCost) :
    (saveBOM bs b1 now).map (fun b => (b.ID, b.PlannedQty, b.EstimatedCost)) =
      bs.map (fun b => (b.ID, b.PlannedQty, b.EstimatedCost)) := by
  apply saveBOM_plan
  intro q hq hqid
  have hqb : q = bom := bomKeys_inj hkeys hq hmem (hqid.trans hid)
  subst hqb
  exact ⟨hp.symm, he.symm⟩

theorem saveBOM_found_plan {bs : List BOM} (hkeys : (bs.map (fun b => b.ID)).Nodup)
    {pid mid : Nat} {bom : BOM} (hfound : firstBOMFor bs pid mid = some bom) (b1 : BOM)
    (now : Time) (hid : b1.ID = bom.ID) (hp : b1.PlannedQty = bom.PlannedQty)
    (he : b1.EstimatedCost = bom.EstimatedCost) :
    (saveBOM bs b1 now).map (fun b => (b.ID, b.PlannedQty, b.EstimatedCost)) =
      bs.map (fun b => (b.ID, b.PlannedQty, b.EstimatedCost)) :=
  saveBOM_member_plan hkeys (firstBOMFor_some hfound).2.2.2 b1 now hid hp he

theorem CreateMaterialUsage_plan (c : Ctx) (input : CreateUsageInput) (st : Store)
    (hkeys : st.BOMKeysUnique) : planOf (CreateMaterialUsage c input st).2 = planOf st := by
  unfold CreateMaterialUsage
  dsimp only
  repeat' split
  all_goals first
    | rfl
    | exact saveBOM_found_plan hkeys (by assumption) _ c.now (by rfl) (by rfl) (by rfl)

theorem UpdateMaterialUsage_plan (c : Ctx) (id : Nat) (input : UpdateUsageInput) (st : Store)
    (hkeys : st.BOMKeysUnique) : planOf (UpdateMaterialUsage c id input st).2 = planOf st := by
  unfold UpdateMaterialUsage
  dsimp only
  repeat' split
  all_goals first
    | rfl
    | exact saveBOM_found_plan hkeys (by assumption) _ c.now (by rfl) (by rfl) (by rfl)

theorem DeleteMaterialUsage_plan (c : Ctx) (id : Nat) (st : Store)
    (hkeys : st.BOMKeysUnique) : planOf (DeleteMaterialUsage c id st).2 = planOf st := by
  unfold DeleteMaterialUsage
  cases hu : firstUsage st.usages id with
  | none => rfl
  | some usage =>
    dsimp only
    cases hm : firstMaterial st.materials usage.MaterialID with
    | none =>
      dsimp only
      repeat' split
      all_goals first
        | rfl
        | exact saveBOM_found_plan hkeys (by assumption) _ c.now (by rfl) (by rfl) (by rfl)
    | some material =>
      dsimp only
      by_cases h0 : c.fails 0 = true
      · simp only [h0, if_true]
        repeat' split
        all_goals first
          | rfl
          | exact saveBOM_found_plan hkeys (by assumption) _ c.now (by rfl) (by rfl) (by rfl)
      · simp only [h0, if_false]
        repeat' split
        all_goals first
          | rfl
          | exact saveBOM_found_plan hkeys (by assumption) _ c.now (by rfl) (by rfl) (by rfl)

theorem UpdateMaterialStock_plan (c : Ctx) (id : Nat) (adjustment : ℚ) (st : Store) :
    planOf (UpdateMaterialStock c id adjustment st).2 = planOf st := by
  unfold UpdateMaterialStock
  dsimp only
  repeat' split
  all_goals rfl

theorem UpdateMaterial_plan (c : Ctx) (id : Nat) (input : UpdateMaterialInput) (st : Store) :
    planOf (UpdateMaterial c id input st).2 = planOf st := by
  unfold UpdateMaterial
  repeat' split
  all_goals rfl

theorem softDeleteBOM_plan (bs : List BOM) (id : Nat) (now : Time) :
    (softDeleteBOM bs id now).map (fun b => (b.ID, b.PlannedQty, b.EstimatedCost)) =
      bs.map (fun b => (b.ID, b.PlannedQty, b.EstimatedCost)) := by
  unfold softDeleteBOM
  rw [List.map_map]
  apply List.map_congr_left
  intro q _
  by_cases hq : q.ID = id ∧ q.DeletedAt = none
  · simp [hq]
  · simp [hq]

theorem DeleteBOM_plan (c : Ctx) (id : Nat) (st : Store) :
    planOf (DeleteBOM c id st).2 = planOf st := by
  unfold DeleteBOM
  repeat' split
  all_goals first
    | rfl
    | exact softDeleteBOM_plan _ _ _

theorem recalcLoop_plan (c : Ctx) (projectID : Nat) (rows : List BOM) :
    ∀ (k : Nat) (st : Store),
      (∀ b ∈ rows, ∀ q ∈ st.boms, q.ID = b.ID →
        q.PlannedQty = b.PlannedQty ∧ q.EstimatedCost = b.EstimatedCost) →
      planOf (recalcLoop c projectID rows k st) = planOf st := by
  induction rows with
  | nil => intro k st _; rfl
  | cons b rest ih =>
    intro k st h
    unfold recalcLoop
    have hstep : planOf (if c.fails k = true then st
        else { st with boms := saveBOM st.boms (recalcBOM st.usages projectID b) c.now }) =
        planOf st := by
      split
      · rfl
      · exact saveBOM_plan st.boms _ c.now (fun q hq hid => h b (List.mem_cons_self _ _) q hq hid)
    rw [ih _ _ ?_, hstep]
    intro b' hb' q hq hid
    have hmem : (q.ID, q.PlannedQty, q.EstimatedCost) ∈ planOf st := by
      rw [← hstep]
      exact List.mem_map.mpr ⟨q, hq, rfl⟩
    obtain ⟨q0, hq0, he⟩ := List.mem_map.mp hmem
    simp only [Prod.mk.injEq] at he
    have := h b' (List.mem_cons_of_mem _ hb') q0 hq0 (he.1.trans hid)
    rw [← he.2.1, ← he.2.2]
    exact this

theorem CalculateBOMUsage_plan (c : Ctx) (projectID : Nat) (st : Store)
    (hkeys : st.BOMKeysUnique) : planOf (CalculateBOMUsage c projectID st).2 = planOf st := by
  unfold CalculateBOMUsage
  split
  · rfl
  · apply recalcLoop_plan
    intro b hb q hq hid
    have hbm : b ∈ st.boms := (List.mem_filter.mp hb).1
    have := bomKeys_inj hkeys hq hbm hid
    subst this
    exact ⟨rfl, rfl⟩

theorem CreateBOM_plan (c : Ctx) (input : CreateBOMInput) (st : Store) :
    planOf st <+: planOf (CreateBOM c input st).2 := by
  unfold CreateBOM
  repeat' split
  all_goals first
    | exact List.prefix_refl _
    | (show st.boms.map _ <+: (st.boms ++ _).map _
       rw [List.map_append]
       exact List.prefix_append _ _)

theorem importLoop_plan (c : Ctx) (projectID : Nat) (items : List ImportItem) :
    ∀ (k : Nat) (tx : Store) (created : List BOM) (errors : List String),
      planOf tx <+: planOf (importLoop c projectID items k tx created errors).1 := by
  induction items with
  | nil => intro k tx created errors; exact List.prefix_refl _
  | cons item rest ih =>
    intro k tx created errors
    unfold importLoop
    split
    · exact ih _ _ _ _
    · split
      · exact ih _ _ _ _
      · split
        · exact ih _ _ _ _
        · refine List.IsPrefix.trans ?_ (ih _ _ _ _)
          show tx.boms.map _ <+: (tx.boms ++ _).map _
          rw [List.map_append]
          exact List.prefix_append _ _

theorem ImportBOMFromTemplate_plan (c : Ctx) (input : ImportInput) (st : Store) :
    planOf st <+: planOf (ImportBOMFromTemplate c input st).2 := by
  have hloop := importLoop_plan c input.ProjectID input.Items 0 st [] []
  unfold ImportBOMFromTemplate
  repeat' split
  all_goals first
    | exact List.prefix_refl _
    | (rename_i heq _ _; rw [heq] at hloop; exact hloop)

theorem bomKeys_of_plan {st st' : Store} (h : planOf st' = planOf st)
    (hkeys : st.BOMKeysUnique) : st'.BOMKeysUnique := by
  have h1 : ∀ s : Store, s.boms.map (fun b => b.ID) = (planOf s).map (fun t => t.1) := by
    intro s
    simp [planOf, List.map_map, Function.comp_def]
  unfold Store.BOMKeysUnique at *
  rw [h1, h]
  rw [h1] at hkeys
  exact hkeys

theorem LedgerCall_plan (call : LedgerCall) (st : Store) (hkeys : st.BOMKeysUnique)
    (hc : call.createsEntries = false) (hu : call.updatesEntry = false) :
    planOf (call.apply st).2 = planOf st := by
  cases call with
  | addEntry c input => simp [LedgerCall.createsEntries] at hc
  | importBatch c input => simp [LedgerCall.createsEntries] at hc
  | updateEntry c id input => simp [LedgerCall.updatesEntry] at hu
  | removeEntry c id => exact DeleteBOM_plan c id st
  | recordUsage c input => exact CreateMaterialUsage_plan c input st hkeys
  | updateUsage c id input => exact UpdateMaterialUsage_plan c id input st hkeys
  | deleteUsage c id => exact DeleteMaterialUsage_plan c id st hkeys
  | recalculate c projectID => exact CalculateBOMUsage_plan c projectID st hkeys
  | adjustStock c id adjustment => exact UpdateMaterialStock_plan c id adjustment st
  | updateMaterial c id input => exact UpdateMaterial_plan c id input st

/-- C21: on a store whose BOM keys are unique, a call that neither creates BOM
entries nor is an update of an entry (record, update or delete of a usage,
recalculate, stock adjustment, update of a material, its unit price included,
removal of an entry) leaves the key, planned quantity and estimated cost of every
BOM row as they were, whatever its answer and whichever writes fail, and so does
any sequence of such calls; a call that creates entries (add entry, import batch)
leaves them as they were for the rows that existed and only appends rows. -/
theorem plan_frame (st : Store) (hkeys : st.BOMKeysUnique) :
    (∀ call : LedgerCall, call.createsEntries = false → call.updatesEntry = false →
      planOf (call.apply st).2 = planOf st) ∧
    (∀ calls : List LedgerCall,
      (∀ call ∈ calls, call.createsEntries = false ∧ call.updatesEntry = false) →
      planOf (runLedger st calls) = planOf st) ∧
    (∀ call : LedgerCall, call.createsEntries = true →
      planOf st <+: planOf (call.apply st).2) := by
  refine ⟨fun call hc hu => LedgerCall_plan call st hkeys hc hu, ?_, ?_⟩
  · intro calls
    induction calls generalizing st with
    | nil => intro _; rfl
    | cons call rest ih =>
      intro hall
      have h1 := LedgerCall_plan call st hkeys (hall call (List.mem_cons_self _ _)).1
        (hall call (List.mem_cons_self _ _)).2
      have h2 := ih (call.apply st).2 (bomKeys_of_plan h1 hkeys)
        (fun x hx => hall x (List.mem_cons_of_mem _ hx))
      exact h2.trans h1
  · intro call hc
    cases call with
    | addEntry c input => exact CreateBOM_plan c input st
    | importBatch c input => exact ImportBOMFromTemplate_plan c input st
    | updateEntry c id input => simp [LedgerCall.createsEntries] at hc
    | removeEntry c id => simp [LedgerCall.createsEntries] at hc
    | recordUsage c input => simp [LedgerCall.createsEntries] at hc
    | updateUsage c id input => simp [LedgerCall.createsEntries] at hc
    | deleteUsage c id => simp [LedgerCall.createsEntries] at hc
    | recalculate c projectID => simp [LedgerCall.createsEntries] at hc
    | adjustStock c id adjustment => simp [LedgerCall.createsEntries] at hc
    | updateMaterial c id input => simp [LedgerCall.createsEntries] at hc

/-- C21, on the scenario: the entry of the site store is planned at 200 with
estimated cost 2000; after the run that records 90 units, changes the unit price
to 20, changes the usage to 60 units, adjusts the stock, recalculates and deletes
the usage, the unit price is 20 and the entry is still planned at 200 with
estimated cost 2000. -/
theorem plan_frame_witness :
    planOf siteStore = [(1, 200, 2000)] ∧
    (firstMaterial (runLedger siteStore usageRun).materials 1).map (fun m => m.UnitPrice) =
      some 20 ∧
    planOf (runLedger siteStore usageRun) = [(1, 200, 2000)] := by
  have hkeys : siteStore.BOMKeysUnique := by
    unfold Store.BOMKeysUnique
    decide
  have hplan : planOf siteStore = [(1, 200, 2000)] := by decide!
  have h := (plan_frame siteStore hkeys).2.1 usageRun (by decide)
  exact ⟨hplan, by decide!, h.trans hplan⟩

/-! ## Claims C23 and C24: recalculating a project -/

theorem variance_percentage_not_finite (projectID : Nat) (st : Store)
    (hne : bomsOfProject st.boms projectID ≠ [])
    (hzero : (CalculateBOMUsageStats projectID st).TotalEstimated = 0) :
    ∃ v, (CalculateBOMUsageStats projectID st).VariancePercentage = some v ∧
      v.isFinite = false := by
  have hlen : ¬ (bomsOfProject st.boms projectID).length = 0 :=
    fun h => hne (List.length_eq_zero.mp h)
  unfold CalculateBOMUsageStats at hzero ⊢
  simp only [hlen, if_false] at hzero ⊢
  rcases hr : recalcTotals st.usages projectID (bomsOfProject st.boms projectID) (0, 0, 0) with
    ⟨e, a, u⟩
  rw [hr] at hzero
  simp only at hzero
  subst hzero
  refine ⟨_, rfl, ?_⟩
  unfold Float64.div
  simp only [if_true]
  split
  · rfl
  · split <;> rfl

/-- C24 fails on the code: only the case of a project without entries is guarded.
The cancelling store has two live entries for project 1 whose estimated costs 2000
and -2000 sum to zero: the recalculation is answered 200 and computes
`(variance / totalEstimated) * 100` as 0 / 0, which is NaN; after 90 units are
used the same division is 900 / 0, which is +Inf. -/
theorem recalculate_divides_by_zero :
    bomPairs cancelStore = [(1, 1, 200), (1, 2, -200)] ∧
    planOf cancelStore = [(1, 200, 2000), (2, -200, -2000)] ∧
    (CalculateBOMUsage (ctxOf 7 "manager" 3) 1 cancelStore).1.status = 200 ∧
    CalculateBOMUsageStats 1 cancelStore =
      { TotalItems := 2, TotalEstimated := 0, TotalActual := 0, TotalVariance := 0,
        VariancePercentage := some .nan, AvgUsagePercentage := 0 } ∧
    CalculateBOMUsageStats 1 cancelUsedStore =
      { TotalItems := 2, TotalEstimated := 0, TotalActual := 900, TotalVariance := 900,
        VariancePercentage := some .posInf, AvgUsagePercentage := 45 / 2 } := by
  refine ⟨by decide!, by decide!, by decide!, by decide!, by decide!⟩

/-! ## Claims C25 and C30: importing a batch -/

theorem firstBOMFor_none_iff {bs : List BOM} {pid mid : Nat} :
    firstBOMFor bs pid mid = none ↔
      ∀ b ∈ bs, ¬ (b.ProjectID = pid ∧ b.MaterialID = mid ∧ b.DeletedAt = none) := by
  unfold firstBOMFor
  rw [List.find?_eq_none]
  constructor
  · intro h b hb hp
    apply h b hb
    simp [hp.1, hp.2.1, hp.2.2]
  · intro h b hb hp
    apply h b hb
    simp only [Bool.and_eq_true, decide_eq_true_eq, Option.isNone_iff_eq_none] at hp
    exact ⟨hp.1.1, hp.1.2, hp.2⟩

theorem firstBOMFor_isSome_iff {bs : List BOM} {pid mid : Nat} :
    (firstBOMFor bs pid mid).isSome = true ↔
      ∃ b ∈ bs, b.ProjectID = pid ∧ b.MaterialID = mid ∧ b.DeletedAt = none := by
  rw [← Option.ne_none_iff_isSome, Ne, firstBOMFor_none_iff]
  push_neg
  rfl

theorem importLoop_spec (c : Ctx) (pid : Nat) (hstore : ∀ k, c.fails k = false)
    (items : List ImportItem) :
    ∀ (k : Nat) (tx : Store) (created : List BOM) (errors : List String),
      ∃ new warns,
        importLoop c pid items k tx created errors =
          ({ tx with boms := tx.boms ++ new, bomSeq := tx.bomSeq + new.length },
            created ++ new, errors ++ warns) ∧
        new.length + warns.length = items.length ∧
        (∀ b ∈ new, b.ProjectID = pid ∧ b.DeletedAt = none ∧ b.UsedQty = 0 ∧
          b.ActualCost = 0 ∧ b.RemainingQty = b.PlannedQty ∧
          ∃ item ∈ items, ∃ material,
            firstMaterial tx.materials item.MaterialID = some material ∧
            firstBOMFor tx.boms pid item.MaterialID = none ∧
            b.MaterialID = item.MaterialID ∧ b.PlannedQty = item.PlannedQty ∧
            b.EstimatedCost = item.PlannedQty * material.UnitPrice) ∧
        (∀ item ∈ items, ∀ material,
          firstMaterial tx.materials item.MaterialID = some material →
          firstBOMFor tx.boms pid item.MaterialID = none →
          ∃ b ∈ new, b.MaterialID = item.MaterialID) := by
  induction items with
  | nil =>
    intro k tx created errors
    refine ⟨[], [], ?_, rfl, ?_, ?_⟩
    · simp [importLoop]
    · intro b hb
      exact absurd hb (List.not_mem_nil b)
    · intro item hi
      exact absurd hi (List.not_mem_nil item)
  | cons item rest ih =>
    intro k tx created errors
    unfold importLoop
    cases hm : firstMaterial tx.materials item.MaterialID with
    | none =>
      dsimp only
      obtain ⟨new, warns, h1, h2, h3, h4⟩ := ih (k + 1) tx created
        (errors ++ ["Material ID " ++ toString item.MaterialID ++ " not found"])
      refine ⟨new, ("Material ID " ++ toString item.MaterialID ++ " not found") :: warns,
        ?_, ?_, ?_, ?_⟩
      · rw [h1]
        simp
      · simp only [List.length_cons]
        omega
      · intro b hb
        obtain ⟨p1, p2, p3, p4, p5, it, hit, m, q1, q2, q3, q4, q5⟩ := h3 b hb
        exact ⟨p1, p2, p3, p4, p5, it, List.mem_cons_of_mem _ hit, m, q1, q2, q3, q4, q5⟩
      · intro it hit m hmat hnone
        rcases List.mem_cons.mp hit with rfl | hit'
        · rw [hm] at hmat
          cases hmat
        · exact h4 it hit' m hmat hnone
    | some material =>
      dsimp only
      cases hb0 : firstBOMFor tx.boms pid item.MaterialID with
      | some existing =>
        dsimp only
        obtain ⟨new, warns, h1, h2, h3, h4⟩ := ih (k + 1) tx created
          (errors ++ ["Material '" ++ material.Name ++ "' already exists in BOM"])
        refine ⟨new, ("Material '" ++ material.Name ++ "' already exists in BOM") :: warns,
          ?_, ?_, ?_, ?_⟩
        · rw [h1]
          simp
        · simp only [List.length_cons]
          omega
        · intro b hb
          obtain ⟨p1, p2, p3, p4, p5, it, hit, m, q1, q2, q3, q4, q5⟩ := h3 b hb
          exact ⟨p1, p2, p3, p4, p5, it, List.mem_cons_of_mem _ hit, m, q1, q2, q3, q4, q5⟩
        · intro it hit m hmat hnone
          rcases List.mem_cons.mp hit with rfl | hit'
          · rw [hb0] at hnone
            cases hnone
          · exact h4 it hit' m hmat hnone
      | none =>
        dsimp only
        rw [hstore k]
        simp only [Bool.false_eq_true, if_false]
        obtain ⟨new, warns, h1, h2, h3, h4⟩ := ih (k + 1)
          { tx with
            boms := tx.boms ++ [newBOM (tx.bomSeq + 1) pid item.MaterialID item.PlannedQty
              material.UnitPrice item.Phase item.Notes c.now]
            bomSeq := tx.bomSeq + 1 }
          (created ++ [newBOM (tx.bomSeq + 1) pid item.MaterialID item.PlannedQty
            material.UnitPrice item.Phase item.Notes c.now]) errors
        refine ⟨newBOM (tx.bomSeq + 1) pid item.MaterialID item.PlannedQty
          material.UnitPrice item.Phase item.Notes c.now :: new, warns, ?_, ?_, ?_, ?_⟩
        · rw [h1]
          simp [Nat.add_assoc, Nat.add_comm 1]
        · simp only [List.length_cons]
          omega
        · intro b hb
          rcases List.mem_cons.mp hb with rfl | hb'
          · exact ⟨rfl, rfl, rfl, rfl, rfl, item, List.mem_cons_self _ _, material, hm, hb0,
              rfl, rfl, rfl⟩
          · obtain ⟨p1, p2, p3, p4, p5, it, hit, m, q1, q2, q3, q4, q5⟩ := h3 b hb'
            refine ⟨p1, p2, p3, p4, p5, it, List.mem_cons_of_mem _ hit, m, q1, ?_, q3, q4, q5⟩
            rw [firstBOMFor_none_iff] at q2 ⊢
            intro x hx
            exact q2 x (List.mem_append_left _ hx)
        · intro it hit m hmat hnone
          by_cases hsame : it.MaterialID = item.MaterialID
          · exact ⟨_, List.mem_cons_self _ _, hsame.symm⟩
          · rcases List.mem_cons.mp hit with rfl | hit'
            · exact absurd rfl hsame
            · have hnone1 : firstBOMFor (tx.boms ++ [newBOM (tx.bomSeq + 1) pid item.MaterialID
                  item.PlannedQty material.UnitPrice item.Phase item.Notes c.now]) pid
                  it.MaterialID = none := by
                rw [firstBOMFor_none_iff] at hnone ⊢
                intro x hx
                rcases List.mem_append.mp hx with hx | hx
                · exact hnone x hx
                · rw [List.mem_singleton] at hx
                  subst hx
                  intro hp
                  exact hsame hp.2.1.symm
              obtain ⟨b, hb, hbm⟩ := h4 it hit' m hmat hnone1
              exact ⟨b, List.mem_cons_of_mem _ hb, hbm⟩

theorem pairs_append_new {bs : List BOM} {pid mid : Nat} (b : BOM)
    (hpairs : (bs.filter (fun q => q.DeletedAt.isNone)).Pairwise
      (fun x y => ¬ (x.ProjectID = y.ProjectID ∧ x.MaterialID = y.MaterialID)))
    (hnone : firstBOMFor bs pid mid = none) (hp : b.ProjectID = pid) (hm : b.MaterialID = mid) :
    ((bs ++ [b]).filter (fun q => q.DeletedAt.isNone)).Pairwise
      (fun x y => ¬ (x.ProjectID = y.ProjectID ∧ x.MaterialID = y.MaterialID)) := by
  rw [List.filter_append, List.pairwise_append]
  refine ⟨hpairs, ?_, ?_⟩
  · by_cases hl : b.DeletedAt.isNone = true
    · simp [List.filter, hl]
    · simp [List.filter, hl]
  · intro x hx y hy
    have hy' : y = b := List.mem_singleton.mp (List.mem_of_mem_filter hy)
    subst hy'
    obtain ⟨hxm, hxl⟩ := List.mem_filter.mp hx
    intro hxy
    apply firstBOMFor_none_iff.mp hnone x hxm
    exact ⟨hxy.1.trans hp, hxy.2.trans hm, Option.isNone_iff_eq_none.mp hxl⟩

theorem importLoop_pairs (c : Ctx) (pid : Nat) (items : List ImportItem) :
    ∀ (k : Nat) (tx : Store) (created : List BOM) (errors : List String),
      tx.PairsUnique → (importLoop c pid items k tx created errors).1.PairsUnique := by
  induction items with
  | nil => intro k tx created errors h; exact h
  | cons item rest ih =>
    intro k tx created errors h
    unfold importLoop
    split
    · exact ih _ _ _ _ h
    · split
      · exact ih _ _ _ _ h
      · split
        · exact ih _ _ _ _ h
        · apply ih
          exact pairs_append_new _ h (by assumption) rfl rfl

theorem importLoop_created_nodup (c : Ctx) (pid : Nat) (items : List ImportItem) :
    ∀ (k : Nat) (tx : Store) (created : List BOM) (errors : List String),
      (∀ b ∈ created, b ∈ tx.boms ∧ b.ProjectID = pid ∧ b.DeletedAt = none) →
      (created.map (fun b => b.MaterialID)).Nodup →
      ((importLoop c pid items k tx created errors).2.1.map (fun b => b.MaterialID)).Nodup := by
  induction items with
  | nil => intro k tx created errors _ h; exact h
  | cons item rest ih =>
    intro k tx created errors hmem h
    unfold importLoop
    split
    · exact ih _ _ _ _ hmem h
    · split
      · exact ih _ _ _ _ hmem h
      · split
        · exact ih _ _ _ _ hmem h
        · rename_i hnone _
          apply ih
          · intro b hb
            rcases List.mem_append.mp hb with hb | hb
            · obtain ⟨h1, h2, h3⟩ := hmem b hb
              exact ⟨List.mem_append_left _ h1, h2, h3⟩
            · rw [List.mem_singleton] at hb
              subst hb
              exact ⟨List.mem_append_right _ (List.mem_singleton.mpr rfl), rfl, rfl⟩
          · rw [List.map_append, List.nodup_append]
            refine ⟨h, List.nodup_singleton _, ?_⟩
            intro x hx hx'
            obtain ⟨b, hb, rfl⟩ := List.mem_map.mp hx
            have hx2 : b.MaterialID = item.MaterialID := by simpa [newBOM] using hx'
            obtain ⟨h1, h2, h3⟩ := hmem b hb
            exact firstBOMFor_none_iff.mp hnone b h1 ⟨h2, hx2, h3⟩

theorem importLoop_append (c : Ctx) (pid : Nat) (xs ys : List ImportItem) :
    ∀ (k : Nat) (tx : Store) (created : List BOM) (errors : List String),
      importLoop c pid (xs ++ ys) k tx created errors =
        importLoop c pid ys (k + xs.length)
          (importLoop c pid xs k tx created errors).1
          (importLoop c pid xs k tx created errors).2.1
          (importLoop c pid xs k tx created errors).2.2 := by
  induction xs with
  | nil => intro k tx created errors; simp [importLoop]
  | cons x rest ih =>
    intro k tx created errors
    have hk : k + (x :: rest).length = k + 1 + rest.length := by
      simp only [List.length_cons]
      omega
    rw [hk]
    simp only [List.cons_append, importLoop]
    split
    · exact ih _ _ _ _
    · split
      · exact ih _ _ _ _
      · split
        · exact ih _ _ _ _
        · exact ih _ _ _ _

theorem import_result (c : Ctx) (input : ImportInput) (st : Store) (project : Project)
    (hbind : input.bindOK = true)
    (hproject : firstProject st.projects input.ProjectID = some project)
    (hstore : ∀ k, c.fails k = false) :
    ImportBOMFromTemplate c input st =
      if (importCreated c input st).length = 0 then (⟨400, "No BOM items were created"⟩, st)
      else (⟨201, ""⟩, (importLoop c input.ProjectID input.Items 0 st [] []).1) := by
  unfold ImportBOMFromTemplate importCreated
  simp only [hbind, Bool.true_eq_false, if_false, hproject, hstore, Bool.false_eq_true]

/-- C25: for a batch that carries its required fields (at least one item) and names
an existing project, on a store whose writes do not fail: every item is either
created or reported as one warning; for each item whose material exists and whose
pair has no live entry, the batch creates an entry of that material; every created
row is a new entry of the project for such an item, with the planned quantity of
the item, nothing used, remaining = planned and estimated cost planned times the
material's unit price. When some item can be created the answer is 201 and the BOM
table is the old one followed by the created rows, materials and usage events
unchanged; when none can, the answer is 400 "No BOM items were created", the store
is unchanged and every item is reported. -/
theorem import_batch_effect (c : Ctx) (input : ImportInput) (st : Store) (project : Project)
    (hbind : input.bindOK = true)
    (hproject : firstProject st.projects input.ProjectID = some project)
    (hstore : ∀ k, c.fails k = false) :
    (importCreated c input st).length + (importWarnings c input st).length =
      input.Items.length ∧
    (∀ item ∈ input.Items, ∀ material,
      firstMaterial st.materials item.MaterialID = some material →
      firstBOMFor st.boms input.ProjectID item.MaterialID = none →
      ∃ b ∈ importCreated c input st, b.MaterialID = item.MaterialID) ∧
    (∀ b ∈ importCreated c input st,
      b.ProjectID = input.ProjectID ∧ b.DeletedAt = none ∧ b.UsedQty = 0 ∧ b.ActualCost = 0 ∧
      b.RemainingQty = b.PlannedQty ∧
      ∃ item ∈ input.Items, ∃ material,
        firstMaterial st.materials item.MaterialID = some material ∧
        firstBOMFor st.boms input.ProjectID item.MaterialID = none ∧
        b.MaterialID = item.MaterialID ∧ b.PlannedQty = item.PlannedQty ∧
        b.EstimatedCost = item.PlannedQty * material.UnitPrice) ∧
    ((∃ item ∈ input.Items, ∃ material,
        firstMaterial st.materials item.MaterialID = some material ∧
        firstBOMFor st.boms input.ProjectID item.MaterialID = none) →
      (ImportBOMFromTemplate c input st).1.status = 201 ∧
      (ImportBOMFromTemplate c input st).2.boms = st.boms ++ importCreated c input st ∧
      (ImportBOMFromTemplate c input st).2.materials = st.materials ∧
      (ImportBOMFromTemplate c input st).2.usages = st.usages) ∧
    ((∀ item ∈ input.Items, ∀ material,
        firstMaterial st.materials item.MaterialID = some material →
        firstBOMFor st.boms input.ProjectID item.MaterialID ≠ none) →
      ImportBOMFromTemplate c input st = (⟨400, "No BOM items were created"⟩, st) ∧
      (importWarnings c input st).length = input.Items.length) := by
  obtain ⟨new, warns, h1, h2, h3, h4⟩ :=
    importLoop_spec c input.ProjectID hstore input.Items 0 st [] []
  have hres := import_result c input st project hbind hproject hstore
  have hcreated : importCreated c input st = new := by
    unfold importCreated
    rw [h1]
    simp
  have hwarns : importWarnings c input st = warns := by
    unfold importWarnings
    rw [h1]
    simp
  rw [hcreated] at hres ⊢
  rw [hwarns]
  rw [h1] at hres
  refine ⟨h2, h4, h3, ?_, ?_⟩
  · rintro ⟨item, hi, material, hm, hnone⟩
    obtain ⟨b, hb, -⟩ := h4 item hi material hm hnone
    have hlen : ¬ new.length = 0 := by
      intro h0
      rw [List.length_eq_zero.mp h0] at hb
      exact absurd hb (List.not_mem_nil b)
    rw [hres, if_neg hlen]
    exact ⟨rfl, rfl, rfl, rfl⟩
  · intro hnone
    have hnil : new = [] := by
      cases hn : new with
      | nil => rfl
      | cons b t =>
        obtain ⟨-, -, -, -, -, item, hi, material, hm, hb, -⟩ :=
          h3 b (hn ▸ List.mem_cons_self _ _)
        exact absurd hb (hnone item hi material hm)
    subst hnil
    simp only [List.length_nil, if_true] at hres
    refine ⟨hres, ?_⟩
    simpa using h2

/-- C25, on the scenario: on the yard store (entry for material 1, materials 1 and
2) the batch of material 1, material 2 twice and the missing material 9 is
answered 201; one entry, material 2 planned at 20, is created and the three other
items are reported. The batch of material 1 and material 9 is answered 400 and
leaves the store as it was. -/
theorem import_batch_effect_witness :
    (ImportBOMFromTemplate (ctxOf 7 "manager" 1) yardBatch yardStore).1.status = 201 ∧
    bomPairs (ImportBOMFromTemplate (ctxOf 7 "manager" 1) yardBatch yardStore).2 =
      [(1, 1, 200), (1, 2, 20)] ∧
    importWarnings (ctxOf 7 "manager" 1) yardBatch yardStore =
      ["Material 'Semen' already exists in BOM", "Material 'Pasir' already exists in BOM",
        "Material ID 9 not found"] ∧
    ImportBOMFromTemplate (ctxOf 7 "manager" 1) deadBatch yardStore =
      (⟨400, "No BOM items were created"⟩, yardStore) := by
  have h := import_batch_effect (ctxOf 7 "manager" 1) deadBatch yardStore ⟨1, "Gudang", none⟩
    (by decide) rfl (fun _ => rfl)
  refine ⟨by decide!, by decide!, by decide!, (h.2.2.2.2 ?_).1⟩
  intro item hi material hm
  have hitems : deadBatch.Items = [⟨1, 10, "", ""⟩, ⟨9, 5, "", ""⟩] := rfl
  rw [hitems] at hi
  simp only [List.mem_cons, List.mem_singleton, List.not_mem_nil, or_false] at hi
  rcases hi with rfl | rfl
  · decide!
  · have hnone : firstMaterial yardStore.materials 9 = none := by decide!
    rw [show (⟨9, 5, "", ""⟩ : ImportItem).MaterialID = 9 from rfl, hnone] at hm
    cases hm

theorem importLoop_covers (c : Ctx) (pid : Nat) (hstore : ∀ k, c.fails k = false)
    (items : List ImportItem) (k : Nat) (tx : Store) (created : List BOM)
    (errors : List String) (item : ImportItem) (hi : item ∈ items) (material : Material)
    (hm : firstMaterial tx.materials item.MaterialID = some material) :
    (importLoop c pid items k tx created errors).1.materials = tx.materials ∧
    (firstBOMFor (importLoop c pid items k tx created errors).1.boms pid
      item.MaterialID).isSome = true := by
  obtain ⟨new, warns, h1, -, h3, h4⟩ := importLoop_spec c pid hstore items k tx created errors
  rw [h1]
  refine ⟨rfl, ?_⟩
  rw [firstBOMFor_isSome_iff]
  cases hb : firstBOMFor tx.boms pid item.MaterialID with
  | some x =>
    obtain ⟨p1, p2, p3, p4⟩ := firstBOMFor_some hb
    exact ⟨x, List.mem_append_left _ p4, p1, p2, p3⟩
  | none =>
    obtain ⟨b, hbn, hbm⟩ := h4 item hi material hm hb
    obtain ⟨p1, p2, -⟩ := h3 b hbn
    exact ⟨b, List.mem_append_right _ hbn, p1, hbm, p2⟩

theorem ImportBOMFromTemplate_pairs (c : Ctx) (input : ImportInput) (st : Store)
    (hpairs : st.PairsUnique) : (ImportBOMFromTemplate c input st).2.PairsUnique := by
  have hloop := importLoop_pairs c input.ProjectID input.Items 0 st [] [] hpairs
  unfold ImportBOMFromTemplate
  repeat' split
  all_goals first
    | exact hpairs
    | (rename_i heq _ _; rw [heq] at hloop; exact hloop)

/-- C30: when no two live BOM entries share a project and material before an import,
none do after it, whatever the batch, the answer and the writes that fail; the
rows one import creates are for pairwise different materials; and, on a store
whose writes do not fail, an item whose material is listed earlier in the batch
creates nothing: the loop goes on after it with the same transaction and created
rows and one more warning, "Material ID … not found" when the material does not
exist and "Material '…' already exists in BOM" when it does. -/
theorem import_keeps_pairs_unique (c : Ctx) (input : ImportInput) (st : Store)
    (hpairs : st.PairsUnique) :
    (ImportBOMFromTemplate c input st).2.PairsUnique ∧
    ((importCreated c input st).map (fun b => b.MaterialID)).Nodup ∧
    (∀ (pre post : List ImportItem) (item : ImportItem),
      input.Items = pre ++ item :: post →
      (∃ e ∈ pre, e.MaterialID = item.MaterialID) → (∀ k, c.fails k = false) →
      ∃ w, importLoop c input.ProjectID input.Items 0 st [] [] =
          importLoop c input.ProjectID post (pre.length + 1)
            (importLoop c input.ProjectID pre 0 st [] []).1
            (importLoop c input.ProjectID pre 0 st [] []).2.1
            ((importLoop c input.ProjectID pre 0 st [] []).2.2 ++ [w]) ∧
        ((firstMaterial st.materials item.MaterialID = none ∧
            w = "Material ID " ++ toString item.MaterialID ++ " not found") ∨
          ∃ material, firstMaterial st.materials item.MaterialID = some material ∧
            w = "Material '" ++ material.Name ++ "' already exists in BOM")) := by
  refine ⟨ImportBOMFromTemplate_pairs c input st hpairs, ?_, ?_⟩
  · exact importLoop_created_nodup c input.ProjectID input.Items 0 st [] []
      (fun b hb => absurd hb (List.not_mem_nil b)) List.nodup_nil
  · intro pre post item hitems ⟨e, he, hsame⟩ hstore
    rw [hitems, importLoop_append, Nat.zero_add]
    cases hm : firstMaterial st.materials item.MaterialID with
    | none =>
      obtain ⟨new, warns, h1, -⟩ := importLoop_spec c input.ProjectID hstore pre 0 st [] []
      refine ⟨"Material ID " ++ toString item.MaterialID ++ " not found", ?_, Or.inl ⟨rfl, rfl⟩⟩
      have hm1 : firstMaterial (importLoop c input.ProjectID pre 0 st [] []).1.materials
          item.MaterialID = none := by
        rw [h1]
        exact hm
      conv_lhs => unfold importLoop
      simp only [hm1]
    | some material =>
      have hme : firstMaterial st.materials e.MaterialID = some material := by
        rw [hsame]
        exact hm
      obtain ⟨hmat, hsome⟩ := importLoop_covers c input.ProjectID hstore pre 0 st [] [] e he
        material hme
      rw [hsame] at hsome
      refine ⟨"Material '" ++ material.Name ++ "' already exists in BOM", ?_,
        Or.inr ⟨material, rfl, rfl⟩⟩
      have hm1 : firstMaterial (importLoop c input.ProjectID pre 0 st [] []).1.materials
          item.MaterialID = some material := by
        rw [hmat]
        exact hm
      cases hb : firstBOMFor (importLoop c input.ProjectID pre 0 st [] []).1.boms
          input.ProjectID item.MaterialID with
      | none =>
        rw [hb] at hsome
        cases hsome
      | some existing =>
        conv_lhs => unfold importLoop
        simp only [hm1, hb]

/-- C30, on the scenario: the yard store has one live entry per pair; after the
batch that lists material 2 twice it has the entries of materials 1 and 2, one
each, the second occurrence of material 2 being reported as already existing. -/
theorem import_keeps_pairs_unique_witness :
    bomPairs yardStore = [(1, 1, 200)] ∧
    bomPairs (ImportBOMFromTemplate (ctxOf 7 "manager" 1) yardBatch yardStore).2 =
      [(1, 1, 200), (1, 2, 20)] ∧
    (ImportBOMFromTemplate (ctxOf 7 "manager" 1) yardBatch yardStore).2.PairsUnique ∧
    (importCreated (ctxOf 7 "manager" 1) yardBatch yardStore).map (fun b => b.MaterialID) =
      [2] ∧
    importWarnings (ctxOf 7 "manager" 1) yardBatch yardStore =
      ["Material 'Semen' already exists in BOM", "Material 'Pasir' already exists in BOM",
        "Material ID 9 not found"] := by
  have hpairs : yardStore.PairsUnique := by
    unfold Store.PairsUnique
    have hl : liveBOMs yardStore = [newBOM 1 1 1 200 10 "foundation" "" ⟨2024, 0⟩] := by
      decide!
    rw [hl]
    exact List.pairwise_singleton _ _
  have h := import_keeps_pairs_unique (ctxOf 7 "manager" 1) yardBatch yardStore hpairs
  exact ⟨by decide!, by decide!, h.1, by decide!, by decide!⟩

/-! ## Claim C28: the BOM entry against its usage events -/

/-- C28 fails on the code: `UpdateMaterialUsage` re-prices the whole event at the
current unit price but adds only `diff * UnitPrice` to the actual cost of the BOM
entry. On the site store (entry with nothing used) 10 units are recorded at unit
price 10, the unit price is changed to 20 and the usage is changed to 20 units, all
three calls succeeding: the one usage event then has quantity 20 and cost 400,
while the entry has used quantity 20 and actual cost 300. The recalculation
changes the entry's actual cost to 400; deleting the event instead leaves the
entry with nothing used and actual cost -100. -/
theorem usage_update_price_drift :
    bomFigures siteStore = some (200, 0, 200, 2000, 0) ∧ usageFigures siteStore = [] ∧
    ledgerStatuses siteStore priceDriftRun = [201, 200, 200] ∧
    usageFigures priceDriftStore = [(20, 400)] ∧
    (usedTotal priceDriftStore.usages 1 1, costTotal priceDriftStore.usages 1 1) = (20, 400) ∧
    bomFigures priceDriftStore = some (200, 20, 180, 2000, 300) ∧
    bomFigures recalcDrift.2 = some (200, 20, 180, 2000, 400) ∧
    driftDeleted.1.status = 200 ∧ usageFigures driftDeleted.2 = [] ∧
    bomFigures driftDeleted.2 = some (200, 0, 200, 2000, -100) := by
  refine ⟨by decide!, by decide!, by decide!, by decide!, by decide!, by decide!, by decide!,
    by decide!, by decide!, by decide!⟩

end CostControl
